import Mathlib

/-!
# sqldb: row decoder and tagged connection registry

A shallow embedding of `sqldb.go` and `mysql_driver.go`.

* Go values that the code inspects through `reflect` are represented by a
  type descriptor (`GoType`) and a value (`GoValue`); an `interface{}`
  argument is `Any` (`none` is the nil interface).
* A call either returns or aborts with a run-time panic (`Result`).
* Effects on memory reachable through a pointer are returned as the new
  value of the argument (state passing).
* The parts of `database/sql` and `reflect` that the code calls are modelled
  next to the code; the value conversion of `Rows.Scan` and the behaviour of
  the database are parameters (`Conv`, `Backend`).
-/

namespace Sqldb

/-! ## Errors and results -/

/-- Go `error` values. `msg` is an error made by `errors.New` or `fmt.Errorf`
with its rendered text; `scanError` is the wrapper that `Rows.Scan` puts
around a conversion failure (`sql: Scan error on column index %d, name %q: %w`);
`scanArgs` is its `sql: expected %d destination arguments in Scan, not %d`. -/
inductive Err where
  | msg (text : String)
  | scanError (index : Nat) (name : String) (cause : Err)
  | scanArgs (expected got : Nat)
  deriving DecidableEq, Repr

/-- Outcome of a call: it returns a value, or it aborts with a run-time panic. -/
inductive Result (α : Type) where
  | ok (a : α)
  | panic (text : String)
  deriving DecidableEq, Repr

/-! ## Types and values as seen through `reflect` -/

/-- The fields of `reflect.StructField` that the code reads. `Tag` is the
result of `Tag.Lookup(sqlColumnTag)`: `none` when the field declares no
`sql` key. `PkgPath` is empty exactly for exported fields. -/
structure StructField (τ : Type) where
  Name : String
  PkgPath : String
  Typ : τ
  Tag : Option String
  Anonymous : Bool

/-- Go types. -/
inductive GoType where
  | bool
  | int
  | string
  | iface
  | ptr (elem : GoType)
  | slice (elem : GoType)
  | array (len : Nat) (elem : GoType)
  | map (key elem : GoType)
  | chan (elem : GoType)
  | struct (fields : List (StructField GoType))

/-- The kinds of `reflect.Kind` that occur. -/
inductive Kind where
  | Bool | Int | String | Interface | Ptr | Slice | Array | Map | Chan | Struct
  deriving DecidableEq, Repr

/-- Go values. A pointer carries the variable it points to (`none` is the nil
pointer); `list` is the content of a slice or array (the nil slice is the
empty list). -/
inductive GoValue where
  | bool (b : Bool)
  | int (n : Int)
  | str (s : String)
  | nil
  | ptr (target : Option GoValue)
  | list (elems : List GoValue)
  | struct (fields : List GoValue)

/-- A non-nil `interface{}` value: dynamic type and value. -/
structure Iface where
  typ : GoType
  val : GoValue

/-- An `interface{}` value; `none` is the nil interface. -/
abbrev Any := Option Iface

/-- Kind of a type: `reflect.Type.Kind`. -/
def GoType.Kind : GoType → Kind
  | .bool => .Bool
  | .int => .Int
  | .string => .String
  | .iface => .Interface
  | .ptr _ => .Ptr
  | .slice _ => .Slice
  | .array _ _ => .Array
  | .map _ _ => .Map
  | .chan _ => .Chan
  | .struct _ => .Struct

/-- Element type, `reflect.Type.Elem`: it panics unless the kind is Array,
Chan, Map, Pointer or Slice. -/
def GoType.Elem : GoType → Result GoType
  | .ptr e => .ok e
  | .slice e => .ok e
  | .array _ e => .ok e
  | .map _ e => .ok e
  | .chan e => .ok e
  | _ => .panic "reflect: Elem of invalid type"

/-- Field list of a struct type, `reflect.Type.NumField` and `Field`
together: it panics on a type that is not a struct. -/
def GoType.Fields : GoType → Result (List (StructField GoType))
  | .struct fs => .ok fs
  | _ => .panic "reflect: NumField of non-struct type"

/-- Whether a field is exported, `reflect.StructField.IsExported`. -/
def StructField.IsExported {τ : Type} (sf : StructField τ) : Bool :=
  sf.PkgPath == ""

mutual
/-- Zero value of a type, the content of the variable made by `reflect.New`. -/
def zero : GoType → GoValue
  | .bool => .bool false
  | .int => .int 0
  | .string => .str ""
  | .iface => .nil
  | .ptr _ => .ptr none
  | .slice _ => .list []
  | .array n e => .list (List.replicate n (zero e))
  | .map _ _ => .nil
  | .chan _ => .nil
  | .struct fs => .struct (zeroFields fs)
/-- Zero values of the fields of a struct type, in declaration order. -/
def zeroFields : List (StructField GoType) → List GoValue
  | [] => []
  | f :: fs => zero f.Typ :: zeroFields fs
end

/-- Pointer to a fresh zero variable as an interface value:
`reflect.New(t).Interface()`. -/
def New (t : GoType) : Any :=
  some { typ := .ptr t, val := .ptr (some (zero t)) }

/-- Type of an interface value, `reflect.TypeOf`: the nil type for nil. -/
def TypeOf (x : Any) : Option GoType :=
  x.map (fun i => i.typ)

/-! ## Cursor: the part of `sql.Rows` that the code uses -/

/-- Values a driver hands to `Rows.Scan`. -/
inductive DriverValue where
  | null
  | int64 (n : Int)
  | bool (b : Bool)
  | bytes (b : String)
  | string (s : String)
  deriving DecidableEq, Repr

/-- Conversion of a driver value into a variable of the given type, the
`convertAssign` step of `Rows.Scan`. It belongs to `database/sql`, so it is
a parameter. -/
abbrev Conv := GoType → DriverValue → Except Err GoValue

/-- State of a `*sql.Rows`. `pending` are the rows the driver still yields
and `driverErr` is the error with which the driver ends the iteration after
them (`none` for a normal end). `lastcols` is the current row (set by
`Next`), `lasterr` the iteration error once `Next` has met it. -/
structure Rows where
  columns : List String
  pending : List (List DriverValue)
  driverErr : Option Err
  lastcols : Option (List DriverValue)
  lasterr : Option Err
  closed : Bool

/-- Error reported by a closed cursor: the iteration error when there was
one, else "Rows are closed" (`lasterrOrErrLocked(errRowsClosed)`). -/
def Rows.closedErr (rs : Rows) : Err :=
  match rs.lasterr with
  | some e => e
  | none => .msg "sql: Rows are closed"

/-- Close the cursor: `Rows.Close`. -/
def Rows.Close (rs : Rows) : Rows :=
  { rs with closed := true }

/-- Advance the cursor, `Rows.Next`: false on a closed cursor; otherwise it
makes the next pending row current, or closes the cursor and reports false
when no row is left (normal end or iteration error alike; the error is
kept in `lasterr`). -/
def Rows.Next (rs : Rows) : Bool × Rows :=
  if rs.closed then (false, rs)
  else match rs.pending with
    | [] => (false, { rs with closed := true, lastcols := none, lasterr := rs.driverErr })
    | r :: rest => (true, { rs with pending := rest, lastcols := some r })

/-- Column names, `Rows.Columns`: an error on a closed cursor. -/
def Rows.Columns (rs : Rows) : Except Err (List String) :=
  if rs.closed then .error rs.closedErr else .ok rs.columns

/-- One `convertAssign` call of `Rows.Scan`: the destination must be a
non-nil pointer; a nil interface is "destination not a pointer". On success
the variable behind the pointer holds the converted value. -/
def convertAssign (conv : Conv) (dest : Any) (sv : DriverValue) : Except Err Any :=
  match dest with
  | none => .error (.msg "destination not a pointer")
  | some d =>
    match d.typ, d.val with
    | .ptr t, .ptr (some _) =>
      match conv t sv with
      | .ok v => .ok (some { typ := .ptr t, val := .ptr (some v) })
      | .error e => .error e
    | .ptr _, _ => .error (.msg "destination pointer is nil")
    | _, _ => .error (.msg "destination not a pointer")

/-- The column loop of `Rows.Scan`: convert column by column, stop at the
first failure and wrap it with the column index and name. -/
def scanLoop (conv : Conv) (columns : List String) :
    List Any → List DriverValue → Nat → Except Err (List Any)
  | d :: ds, sv :: svs, i =>
    match convertAssign conv d sv with
    | .error e => .error (.scanError i (columns.getD i "") e)
    | .ok d1 =>
      match scanLoop conv columns ds svs (i + 1) with
      | .error e => .error e
      | .ok rest => .ok (d1 :: rest)
  | _, _, _ => .ok []

/-- Decode the current row into the destinations, `Rows.Scan`: an error on
a closed cursor, without a current row, or when the number of destinations
differs from the number of columns of the row. -/
def Rows.Scan (conv : Conv) (rs : Rows) (dest : List Any) : Except Err (List Any) :=
  if rs.closed then .error rs.closedErr
  else match rs.lastcols with
    | none => .error (.msg "sql: Scan called without calling Next")
    | some cols =>
      if dest.length != cols.length then
        .error (.scanArgs cols.length dest.length)
      else scanLoop conv rs.columns dest cols 0

/-! ## GetRowData -/

/-- Struct field tag associated with the database table column name. -/
def sqlColumnTag : String := "sql"

/-- Location of a destination field: `j < 0` for a top-level field `i`,
else field `j` of the nested struct at top-level field `i`. -/
structure refIndex where
  i : Int
  j : Int
  deriving DecidableEq, Repr

/-- First element of `strings.Split(s, ",")`: the text before the first comma. -/
def firstSegment (s : String) : String :=
  String.mk (s.data.takeWhile (fun c => c != ','))

/-- Text of the `sql` key of a field, `sf.Tag.Get(sqlColumnTag)`: empty when
the key is absent. -/
def tagGet (sf : StructField GoType) : String :=
  sf.Tag.getD ""

/-- The test of the closure `isMatch`: the column name equals the first
comma-separated segment of the tag text, or the field name. -/
def isMatch (colName : String) (sf : StructField GoType) : Bool :=
  colName == firstSegment (tagGet sf) || colName == sf.Name

/-- The loop over the fields of a nested struct (index `j`), for top-level
field `i`: the location and type of the first inner field that matches. -/
def matchNested (colName : String) (i : Nat) :
    List (StructField GoType) → Nat → Option (refIndex × GoType)
  | [], _ => none
  | sf2 :: rest, j =>
    if isMatch colName sf2 then some (⟨i, j⟩, sf2.Typ)
    else matchNested colName i rest (j + 1)

/-- Fields of a type whose kind is Struct (empty for other kinds, where the
code does not ask). -/
def nestedFields : GoType → List (StructField GoType)
  | .struct fs => fs
  | _ => []

/-- The loop over the top-level fields (index `i`) for one column: the
location and type of the field at which `isMatch` first returns true. A
field of kind Struct with a `sql` key is tested itself; without the key its
fields are tested; any other field is tested itself. -/
def matchFields (colName : String) :
    List (StructField GoType) → Nat → Option (refIndex × GoType)
  | [], _ => none
  | sf :: rest, i =>
    if sf.Typ.Kind = Kind.Struct then
      if sf.Tag.isSome then
        if isMatch colName sf then some (⟨i, -1⟩, sf.Typ)
        else matchFields colName rest (i + 1)
      else
        match matchNested colName i (nestedFields sf.Typ) 0 with
        | some r => some r
        | none => matchFields colName rest (i + 1)
    else
      if isMatch colName sf then some (⟨i, -1⟩, sf.Typ)
      else matchFields colName rest (i + 1)

/-- The body of the column loop for one column: `desType.NumField()` panics
when the destination type is not a struct. -/
def matchColumn (desType : GoType) (colName : String) :
    Result (Option (refIndex × GoType)) :=
  match desType.Fields with
  | .ok fs => .ok (matchFields colName fs 0)
  | .panic t => .panic t

/-- Assignment `colDestMap[idx] = n` on a Go map kept as an association
list with one entry per key. -/
def mapAssign (m : List (refIndex × Nat)) (idx : refIndex) (n : Nat) :
    List (refIndex × Nat) :=
  (idx, n) :: m.filter (fun e => e.1 != idx)

/-- The loop `for n, colName := range columns`: on a match it records
`colDestMap[refIndex] = n` and stores a fresh holder of the field type in
`rowInfo[n]`; otherwise both are left as they are. -/
def mapColumns (desType : GoType) :
    List String → Nat → List (refIndex × Nat) → List Any →
    Result (List (refIndex × Nat) × List Any)
  | [], _, colDestMap, rowInfo => .ok (colDestMap, rowInfo)
  | colName :: rest, n, colDestMap, rowInfo =>
    match matchColumn desType colName with
    | .panic t => .panic t
    | .ok none => mapColumns desType rest (n + 1) colDestMap rowInfo
    | .ok (some (idx, t)) =>
      mapColumns desType rest (n + 1) (mapAssign colDestMap idx n) (rowInfo.set n (New t))

/-- Value behind a holder, `reflect.ValueOf(rowInfo[n]).Elem()`. -/
def holderValue (rowInfo : List Any) (n : Nat) : Result GoValue :=
  match rowInfo.getD n none with
  | some { typ := _, val := .ptr (some v) } => .ok v
  | _ => .panic "reflect: call of reflect.Value.Elem on zero Value"

/-- Assignment `destValue.Field(i).Set(v)`: it panics when `destValue` is
not a struct, and when the field is not exported (a value obtained through
an unexported field is read-only). -/
def setField (fields : List (StructField GoType)) (destValue : GoValue) (i : Nat)
    (v : GoValue) : Result GoValue :=
  match destValue, fields.get? i with
  | .struct vs, some sf =>
    if sf.IsExported then .ok (.struct (vs.set i v))
    else .panic "reflect: reflect.Value.Set using value obtained using unexported field"
  | .struct _, none => .panic "reflect: Field index out of range"
  | _, _ => .panic "reflect: call of reflect.Value.Field on non-struct Value"

/-- Assignment `destValue.FieldByIndex([]int{i, j}).Set(v)`. The value of
field `j` of field `i` is read-only when field `j` is unexported, or when
field `i` is unexported and not embedded (the read-only mark of an embedded
unexported field is not inherited by its fields). -/
def setNestedField (fields : List (StructField GoType)) (destValue : GoValue) (i j : Nat)
    (v : GoValue) : Result GoValue :=
  match destValue, fields.get? i with
  | .struct vs, some sf =>
    match vs.getD i .nil, (nestedFields sf.Typ).get? j with
    | .struct ws, some sf2 =>
      if sf2.IsExported && (sf.IsExported || sf.Anonymous) then
        .ok (.struct (vs.set i (.struct (ws.set j v))))
      else .panic "reflect: reflect.Value.Set using value obtained using unexported field"
    | .struct _, none => .panic "reflect: Field index out of range"
    | _, _ => .panic "reflect: call of reflect.Value.Field on non-struct Value"
  | .struct _, none => .panic "reflect: Field index out of range"
  | _, _ => .panic "reflect: call of reflect.Value.Field on non-struct Value"

/-- The copy-out loop `for idx, n := range colDestMap`, visiting the entries
in the order of the list. -/
def copyOut (fields : List (StructField GoType)) (rowInfo : List Any) :
    List (refIndex × Nat) → GoValue → Result GoValue
  | [], destValue => .ok destValue
  | (idx, n) :: rest, destValue =>
    match holderValue rowInfo n with
    | .panic t => .panic t
    | .ok v =>
      match (if idx.j < 0 then setField fields destValue idx.i.toNat v
             else setNestedField fields destValue idx.i.toNat idx.j.toNat v) with
      | .panic t => .panic t
      | .ok d => copyOut fields rowInfo rest d

/-- Element type of the destination, `reflect.TypeOf(dest).Elem()`: a nil
interface has the nil type, on which the call aborts. -/
def destElemType (dest : Any) : Result GoType :=
  match TypeOf dest with
  | none => .panic "invalid memory address or nil pointer dereference"
  | some t => t.Elem

/-- Get one row from the cursor into `dest`. The result is the returned
error (`none` for nil) and the destination after the call. -/
def GetRowData (conv : Conv) (rows : Rows) (dest : Any) : Result (Option Err × Any) :=
  match rows.Columns with
  | .error err => .ok (some err, dest)
  | .ok columns =>
    match destElemType dest with
    | .panic t => .panic t
    | .ok desType =>
      match mapColumns desType columns 0 [] (List.replicate columns.length none) with
      | .panic t => .panic t
      | .ok (colDestMap, rowInfo) =>
        match rows.Scan conv rowInfo with
        | .error err => .ok (some err, dest)
        | .ok scanned =>
          -- destValue := reflect.ValueOf(dest).Elem()
          match dest with
          | some { typ := .ptr t, val := .ptr target } =>
            match colDestMap, target with
            | [], _ => .ok (none, dest)
            | _ :: _, none => .panic "reflect: call of reflect.Value.Field on zero Value"
            | _ :: _, some destValue =>
              match copyOut (nestedFields desType) scanned colDestMap destValue with
              | .panic s => .panic s
              | .ok d => .ok (none, some { typ := .ptr t, val := .ptr (some d) })
          | _ => .panic "reflect: call of reflect.Value.Elem on non-pointer Value"

/-! ## Connection handles and the database behind them -/

/-- Method calls on a `*sql.DB` handle that the code issues. -/
inductive DBCall where
  | SetMaxOpenConns (n : Int)
  | SetMaxIdleConns (n : Int)
  | SetConnMaxLifetime (nanoseconds : Int)
  | Query (sqlCmd : String) (args : List DriverValue)
  | Exec (sqlCmd : String) (args : List DriverValue)
  | Close
  deriving DecidableEq, Repr

/-- State of one `sql.DB`: the arguments of `sql.Open`, whether it has been
closed, and the calls issued on it so far, oldest first. -/
structure DB where
  driverName : String
  dsn : String
  closed : Bool
  calls : List DBCall
  deriving DecidableEq, Repr

/-- Everything outside the registry that the code acts on: the handles
opened so far (a `*sql.DB` is the index of its handle) and the dial function
registered with the driver. -/
structure World where
  handles : List DB
  dial : Option Nat
  deriving DecidableEq, Repr

/-- Result of `DB.Exec`, a `sql.Result`. -/
structure ExecResult where
  lastInsertId : Int
  rowsAffected : Int
  deriving DecidableEq, Repr

/-- Behaviour of `database/sql`, the driver and the database server: value
conversion in `Rows.Scan`, the error with which `sql.Open` rejects a driver
name and connection string (`none` when it accepts them), and the answer to
a query or statement on an open handle (which may depend on everything done
before). -/
structure Backend where
  conv : Conv
  sqlOpen : String → String → Option Err
  query : World → Nat → String → List DriverValue → Except Err Rows
  exec : World → Nat → String → List DriverValue → Except Err ExecResult

/-- Record a call on handle `db`; `Close` also marks the handle closed. -/
def World.call (w : World) (db : Nat) (c : DBCall) : World :=
  let record : DB → DB :=
    fun h => { h with calls := h.calls ++ [c], closed := h.closed || c == DBCall.Close }
  { w with handles := w.handles.modify record db }

/-- The method `DB.Query`: nil for a pointer that is no handle (the call
aborts), "database is closed" on a closed handle, else the answer of the
database; the call is recorded on the handle. -/
def dbQuery (B : Backend) (w : World) (db : Nat) (sqlCmd : String) (args : List DriverValue) :
    Result (Except Err Rows) × World :=
  match w.handles.get? db with
  | none => (.panic "invalid memory address or nil pointer dereference", w)
  | some h =>
    (.ok (if h.closed then .error (.msg "sql: database is closed") else B.query w db sqlCmd args),
     w.call db (.Query sqlCmd args))

/-- The method `DB.Exec`, like `dbQuery`. -/
def dbExec (B : Backend) (w : World) (db : Nat) (sqlCmd : String) (args : List DriverValue) :
    Result (Except Err ExecResult) × World :=
  match w.handles.get? db with
  | none => (.panic "invalid memory address or nil pointer dereference", w)
  | some h =>
    (.ok (if h.closed then .error (.msg "sql: database is closed") else B.exec w db sqlCmd args),
     w.call db (.Exec sqlCmd args))

/-- The method `DB.Close`: the call is recorded on the handle, which is
closed from then on; the returned error is a parameter (`closeErr`). -/
def dbClose (closeErr : World → Nat → Option Err) (w : World) (db : Nat) : Option Err × World :=
  (closeErr w db, w.call db .Close)

/-! ## GetDataFromDb -/

/-- The loop `for rows.Next()` of the slice branch. `elemType` is
`desType.Elem()`, `destValue` the variable behind `dest` (`none` when `dest`
is a nil pointer). Each row is decoded into a fresh element, which is then
appended. The result carries the returned error, the variable and the
cursor. `fuel` bounds the number of iterations. -/
def sliceLoop (conv : Conv) (elemType : GoType) :
    Nat → Rows → Option GoValue → Result (Option Err × Option GoValue) × Rows
  | 0, rows, _ => (.panic "iteration bound reached", rows)
  | fuel + 1, rows, destValue =>
    match rows.Next with
    | (false, rows1) => (.ok (none, destValue), rows1)
    | (true, rows1) =>
      match GetRowData conv rows1 (New elemType) with
      | .panic t => (.panic t, rows1)
      | .ok (some err, _) => (.ok (some err, destValue), rows1)
      | .ok (none, rowData) =>
        match destValue, rowData with
        | some (.list elems), some { typ := _, val := .ptr (some v) } =>
          sliceLoop conv elemType fuel rows1 (some (.list (elems ++ [v])))
        | _, _ => (.panic "reflect: call of reflect.Append on zero Value", rows1)

/-- The part of `GetDataFromDb` after the query has returned a cursor, up to
the return; the deferred `rows.Close()` is applied by the caller. -/
def fetchRows (conv : Conv) (rows : Rows) (dest : Any) : Result (Option Err × Any) × Rows :=
  match destElemType dest with
  | .panic t => (.panic t, rows)
  | .ok desType =>
    match desType with
    | .slice elemType =>
      -- destValue := reflect.ValueOf(dest).Elem()
      match dest with
      | some { typ := .ptr t, val := .ptr target } =>
        match sliceLoop conv elemType (rows.pending.length + 1) rows target with
        | (.panic s, rows1) => (.panic s, rows1)
        | (.ok (err, target1), rows1) =>
          (.ok (err, some { typ := .ptr t, val := .ptr target1 }), rows1)
      | _ => (.panic "reflect: call of reflect.Value.Elem on non-pointer Value", rows)
    | .struct _ =>
      match rows.Next with
      | (true, rows1) => (GetRowData conv rows1 dest, rows1)
      | (false, rows1) => (.ok (none, dest), rows1)
    | _ => (.ok (some (.msg "Type Error: expected Slice or Struct!"), dest), rows)

/-- What a call of `GetDataFromDb` leaves behind: how it ended (returned
error and destination, or a panic), the world, and the cursor it obtained
(`none` when the query returned none) in its final state. -/
structure Fetched where
  result : Result (Option Err × Any)
  world : World
  cursor : Option Rows

/-- Query data from the handle `db` into `dest`. -/
def GetDataFromDb (B : Backend) (w : World) (db : Nat) (dest : Any) (sqlCmd : String)
    (args : List DriverValue) : Fetched :=
  match dbQuery B w db sqlCmd args with
  | (.panic t, w1) => { result := .panic t, world := w1, cursor := none }
  | (.ok (.error err), w1) => { result := .ok (some err, dest), world := w1, cursor := none }
  | (.ok (.ok rows), w1) =>
    match fetchRows B.conv rows dest with
    | (r, rows1) => { result := r, world := w1, cursor := some rows1.Close }

/-! ## Connection strings -/

/-- One entry of the `sqldb` configuration. -/
structure DbConfig where
  DbType : String
  Tag : String
  DbName : String
  IP : String
  Port : Int
  Username : String
  Password : String
  Charset : String
  Timeout : Int
  MaxOpenConns : Int
  MaxIdleConns : Int
  deriving DecidableEq, Repr

/-- Two upper-case hexadecimal digits of a byte. -/
def hexByte (b : Nat) : String :=
  String.mk [(Nat.toDigits 16 (b / 16 % 16)).headD '0' |>.toUpper,
             (Nat.toDigits 16 (b % 16)).headD '0' |>.toUpper]

/-- Escaping of `url.QueryEscape`: letters, digits and `-`, `_`, `.`, `~` stay,
a space becomes `+`, every other byte is written `%XX`. -/
def QueryEscape (s : String) : String :=
  String.join (s.data.map (fun c =>
    if c.isAlphanum || c == '-' || c == '_' || c == '.' || c == '~' then String.singleton c
    else if c == ' ' then "+"
    else String.join ((String.utf8EncodeChar c).map (fun b => "%" ++ hexByte b.toNat))))

/-- Join with a separator: `strings.Join`. -/
def Join : List String → String → String
  | [], _ => ""
  | [a], _ => a
  | a :: b :: rest, sep => a ++ sep ++ Join (b :: rest) sep

/-- Decimal text of an integer, the verb `%d`. -/
def fmtInt (n : Int) : String :=
  toString n

/-- Build the connection string of a configuration. The result is the
string and the error (`none` for nil). -/
def getDataSourceName (cfg : DbConfig) : String × Option Err :=
  if cfg.DbType != "mysql" then ("", some (.msg "expect db type [mysql]"))
  else
    let params : List String := []
    let params :=
      if cfg.Charset.utf8ByteSize == 0 then params ++ ["charset=utf8mb4"]
      else params ++ ["charset=" ++ cfg.Charset]
    let params :=
      if cfg.Timeout < 0 then params ++ ["timeout=5s"]
      else params ++ ["timeout=" ++ fmtInt cfg.Timeout ++ "ms"]
    let params := params ++ ["loc=" ++ QueryEscape "Asia/Shanghai"]
    let params := params ++ ["parseTime=true"]
    let params := params ++ ["interpolateParams=true"]
    let paramStr := Join params "&"
    (cfg.Username ++ ":" ++ cfg.Password ++ "@(" ++ cfg.IP ++ ":" ++ fmtInt cfg.Port ++ ")/"
      ++ cfg.DbName ++ "?" ++ paramStr, none)

/-- Register the dial function with the driver; the returned error is
always nil. -/
def RegistDialer (w : World) (dailer : Nat) : Option Err × World :=
  (none, { w with dial := some dailer })

/-! ## The registry -/

/-- The registry: `clients` is the content of the `sync.Map` from tag to
handle, one entry per key. -/
structure mgr where
  clients : List (String × Nat)
  deriving DecidableEq, Repr

/-- A new registry. -/
def NewSqlDBMgr : mgr × Option Err :=
  ({ clients := [] }, none)

/-- The method `sync.Map.Store`: the value replaces the one stored at the key. -/
def Store (clients : List (String × Nat)) (tag : String) (db : Nat) : List (String × Nat) :=
  (tag, db) :: clients.filter (fun e => e.1 != tag)

/-- The method `sync.Map.Load`. -/
def Load (clients : List (String × Nat)) (tag : String) : Option Nat :=
  clients.lookup tag

/-- The call `sql.Open`: the error of the driver, or a new handle. -/
def sqlOpen (B : Backend) (w : World) (driverName dsn : String) : Except Err (Nat × World) :=
  match B.sqlOpen driverName dsn with
  | some err => .error err
  | none =>
    .ok (w.handles.length,
         { w with handles := w.handles ++
             [{ driverName := driverName, dsn := dsn, closed := false, calls := [] }] })

/-- The constant `time.Minute`, in nanoseconds. -/
def Minute : Int := 60 * 1000000000

/-- The method `Init`: open and register one handle per configuration, in
order, and return at the first error. The result is the returned error, the
registry and the world. The log line written per configuration is left out. -/
def mgr.Init (B : Backend) (dailer : Option Nat) :
    List DbConfig → mgr → World → Option Err × mgr × World
  | [], s, w => (none, s, w)
  | cfg :: rest, s, w =>
    match getDataSourceName cfg with
    | (_, some err) => (some err, s, w)
    | (dsn, none) =>
      let reg : Option Err × World :=
        match dailer with
        | some d => RegistDialer w d
        | none => (none, w)
      match reg with
      | (some err, w1) => (some err, s, w1)
      | (none, w1) =>
        match sqlOpen B w1 cfg.DbType dsn with
        | .error err => (some err, s, w1)
        | .ok (db, w2) =>
          let w3 := if cfg.MaxOpenConns > 0 then w2.call db (.SetMaxOpenConns cfg.MaxOpenConns) else w2
          let w4 := w3.call db (.SetMaxIdleConns cfg.MaxIdleConns)
          let w5 := w4.call db (.SetConnMaxLifetime (5 * Minute))
          mgr.Init B dailer rest { clients := Store s.clients cfg.Tag db } w5

/-- The method `Destory`: close every registered handle. `sync.Map.Range`
visits each entry once (here in the order of the list); the error that each
`Close` returns is dropped, and the method returns nothing. -/
def mgr.Destory (closeErr : World → Nat → Option Err) (s : mgr) (w : World) : World :=
  s.clients.foldl (fun w1 e => (dbClose closeErr w1 e.2).2) w

/-- The method `Query`: fetch through the handle registered for `tag`, or
fail when there is none. -/
def mgr.Query (B : Backend) (s : mgr) (w : World) (dest : Any) (tag : String) (sqlCmd : String)
    (args : List DriverValue) : Fetched :=
  match Load s.clients tag with
  | some db => GetDataFromDb B w db dest sqlCmd args
  | none =>
    { result := .ok (some (.msg ("Cannot find db with tag[" ++ tag ++ "]")), dest),
      world := w, cursor := none }

/-- The method `Exec`: run the statement on the handle registered for `tag`,
or fail when there is none. The result is the `sql.Result` (`none` for nil)
and the error. -/
def mgr.Exec (B : Backend) (s : mgr) (w : World) (tag : String) (sqlCmd : String)
    (args : List DriverValue) : Result (Option ExecResult × Option Err) × World :=
  match Load s.clients tag with
  | some db =>
    match dbExec B w db sqlCmd args with
    | (.panic t, w1) => (.panic t, w1)
    | (.ok (.ok res), w1) => (.ok (some res, none), w1)
    | (.ok (.error err), w1) => (.ok (none, some err), w1)
  | none => (.ok (none, some (.msg ("Cannot find db with tag[" ++ tag ++ "]"))), w)

/-- The method `GetDB`: the handle registered for `tag`, or nil. -/
def mgr.GetDB (s : mgr) (tag : String) : Option Nat :=
  match Load s.clients tag with
  | some db => some db
  | none => none

/-! ## Backend error unwrapping -/

/-- The error type of the driver, `mysql.MySQLError`. -/
structure MySQLError where
  Number : Nat
  Message : String
  deriving DecidableEq, Repr

/-- An `interface{}` argument as the type assertion `err.(*mysql.MySQLError)`
sees it: the nil interface, a `*mysql.MySQLError` (possibly a nil pointer),
or a value of another type, given by the text that `%T` prints for it. -/
inductive ErrValue where
  | nilInterface
  | mysqlError (p : Option MySQLError)
  | other (typeName : String)
  deriving DecidableEq, Repr

/-- Text of the verb `%T` for the argument. -/
def ErrValue.typeText : ErrValue → String
  | .nilInterface => "<nil>"
  | .mysqlError _ => "*mysql.MySQLError"
  | .other typeName => typeName

/-- Error number of a driver error. -/
def GetMysqlErrorNumber (err : ErrValue) : Nat × Option Err :=
  match err with
  | .mysqlError none => (0, none)
  | .mysqlError (some mysqlErr) => (mysqlErr.Number, none)
  | _ => (1, some (.msg ("expected *mysql.MySQLError, got " ++ err.typeText)))

/-- Error message of a driver error. -/
def GetMysqlErrorMessage (err : ErrValue) : String × Option Err :=
  match err with
  | .mysqlError none => ("ok", none)
  | .mysqlError (some mysqlErr) => (mysqlErr.Message, none)
  | _ => ("", some (.msg ("expected *mysql.MySQLError, got " ++ err.typeText)))

/-- Error number and message of a driver error. -/
def GetMysqlErrorInfo (err : ErrValue) : Nat × String × Option Err :=
  match err with
  | .mysqlError none => (0, "ok", none)
  | .mysqlError (some mysqlErr) => (mysqlErr.Number, mysqlErr.Message, none)
  | _ => (1, "", some (.msg ("expected *mysql.MySQLError, got " ++ err.typeText)))

/-! ## Definitions used to state the properties -/

/-- Inner fields of the nested struct at top-level field `i`, each with its
location, in declaration order (counting from `j`). -/
def nestedOrder (i : Nat) : List (StructField GoType) → Nat → List (refIndex × StructField GoType)
  | [], _ => []
  | sf2 :: rest, j => (⟨i, j⟩, sf2) :: nestedOrder i rest (j + 1)

/-- Scan order of a record type, as the specification words it: the
top-level fields in declaration order (counting from `i`), where a
nested-record field without a hint is replaced in place by its inner fields
and a nested-record field with a hint counts as one field. -/
def scanOrder : List (StructField GoType) → Nat → List (refIndex × StructField GoType)
  | [], _ => []
  | sf :: rest, i =>
    (if sf.Typ.Kind = Kind.Struct ∧ sf.Tag = none then nestedOrder i (nestedFields sf.Typ) 0
     else [(⟨i, -1⟩, sf)]) ++ scanOrder rest (i + 1)

/-- Hint text of a field: the declared hint, empty when none is declared. -/
def hintText (sf : StructField GoType) : String :=
  match sf.Tag with
  | some h => h
  | none => ""

/-- Whether `seg` is the first comma-separated segment of `s`, as the
specification words it: `seg` holds no comma, and `s` is `seg` itself or
`seg` followed by a comma and any further text. -/
def isFirstSegmentOf (seg s : String) : Bool :=
  !seg.data.contains ',' && (s == seg || (seg.data ++ [',']).isPrefixOf s.data)

/-- A field matches a column, as the specification words it: the column
name equals the first comma-separated segment of the hint text or the
declared name (string equality, so case-sensitive). -/
def fieldMatches (colName : String) (sf : StructField GoType) : Bool :=
  isFirstSegmentOf colName (hintText sf) || colName == sf.Name

/-- First field of the scan order that matches the column. -/
def firstMatch (colName : String) (fields : List (StructField GoType)) :
    Option (refIndex × StructField GoType) :=
  (scanOrder fields 0).find? (fun e => fieldMatches colName e.2)

/-- Holder that the column loop stores for one column: a fresh variable of
the type of the first matching field, or the nil interface left by `make`
when no field matches. -/
def holderFor (fields : List (StructField GoType)) (colName : String) : Any :=
  match matchFields colName fields 0 with
  | some (_, t) => New t
  | none => none

/-- The map `colDestMap` that the column loop of `GetRowData` builds for a
struct destination type. -/
def loopMap (fields : List (StructField GoType)) (columns : List String) :
    List (refIndex × Nat) :=
  match mapColumns (.struct fields) columns 0 [] (List.replicate columns.length none) with
  | .ok (colDestMap, _) => colDestMap
  | .panic _ => []

/-- Index (counting from `n`) of the last column that resolves to the field
at `idx`. -/
def lastColumn (fields : List (StructField GoType)) (idx : refIndex) :
    List String → Nat → Option Nat
  | [], _ => none
  | colName :: rest, n =>
    match lastColumn fields idx rest (n + 1) with
    | some p => some p
    | none =>
      if (matchFields colName fields 0).map Prod.fst = some idx then some n else none

/-- Rows that a cursor yields to `Next`: none once it is closed. -/
def Rows.yields (rs : Rows) : List (List DriverValue) :=
  if rs.closed then [] else rs.pending

/-- The cursor positioned on its row number `k` (counting from 0), as `k + 1`
calls of `Next` leave it. -/
def cursorAt (rs : Rows) (k : Nat) : Rows :=
  { rs with pending := rs.pending.drop (k + 1), lastcols := rs.pending.get? k }

/-- Error with which `Init` stops at a configuration: that of the
connection-string build, else that of `sql.Open` (`none` when both succeed). -/
def configError (B : Backend) (cfg : DbConfig) : Option Err :=
  match getDataSourceName cfg with
  | (_, some err) => some err
  | (dsn, none) => B.sqlOpen cfg.DbType dsn

/-- Calls that `Init` issues on the handle of a configuration, in order. -/
def initCalls (cfg : DbConfig) : List DBCall :=
  (if cfg.MaxOpenConns > 0 then [DBCall.SetMaxOpenConns cfg.MaxOpenConns] else []) ++
    [DBCall.SetMaxIdleConns cfg.MaxIdleConns, DBCall.SetConnMaxLifetime (5 * Minute)]

/-- The handle that `Init` leaves for a configuration: open, made from the
driver name and connection string of the configuration. -/
def initHandle (cfg : DbConfig) : DB :=
  { driverName := cfg.DbType, dsn := (getDataSourceName cfg).1, closed := false,
    calls := initCalls cfg }

/-- The world after `Init` has handled a configuration that builds and
opens: the dial function is registered when one is given, and the handle of
the configuration is added. -/
def initWorld (dailer : Option Nat) (cfg : DbConfig) (w : World) : World :=
  { handles := w.handles ++ [initHandle cfg],
    dial := match dailer with
      | some d => some d
      | none => w.dial }

/-- Index (counting from `n`) of the last configuration that carries `tag`. -/
def lastConfig (tag : String) : List DbConfig → Nat → Option Nat
  | [], _ => none
  | cfg :: rest, n =>
    match lastConfig tag rest (n + 1) with
    | some p => some p
    | none => if cfg.Tag = tag then some n else none

/-- A handle after one more `Close` call: the call is appended to its record
and the handle is closed. -/
def DB.closedOnce (h : DB) : DB :=
  { h with calls := h.calls ++ [DBCall.Close], closed := true }

/-- Well-formedness of a registry in a world: one entry per tag, no handle
under two tags, every registered handle is a handle of the world. -/
def RegistryOK (s : mgr) (w : World) : Prop :=
  (s.clients.map Prod.fst).Nodup ∧ (s.clients.map Prod.snd).Nodup ∧
    ∀ e ∈ s.clients, e.2 < w.handles.length

/-- Decimal numeral of an integer, as the specification means the port and
"the configured value" of the timeout: a minus sign for a negative number,
then the decimal digits of the absolute value, most significant first, and
`0` for zero. The digit `d` is the character with code 48 + `d`. -/
def decimal (n : Int) : String :=
  String.mk ((if n < 0 then ['-'] else []) ++
    (if n = 0 then ['0']
     else (Nat.digits 10 n.natAbs).reverse.map (fun d => Char.ofNat (48 + d))))

/-- The five parameters of a connection string, as the specification lists
them: charset (`utf8mb4` when none is configured), timeout (`5s` when the
configured one is negative, else the configured number followed by `ms`),
the fixed time zone, time parsing and value interpolation. -/
def dsnParams (cfg : DbConfig) : List String :=
  ["charset=" ++ (if cfg.Charset = "" then "utf8mb4" else cfg.Charset),
   "timeout=" ++ (if cfg.Timeout < 0 then "5s" else decimal cfg.Timeout ++ "ms"),
   "loc=Asia%2FShanghai",
   "parseTime=true",
   "interpolateParams=true"]

/-- The calls that a user of the registry can make. -/
inductive Op where
  | Init (cfgs : List DbConfig) (dailer : Option Nat)
  | Query (dest : Any) (tag sqlCmd : String) (args : List DriverValue)
  | Exec (tag sqlCmd : String) (args : List DriverValue)
  | GetDB (tag : String)
  | Destory

/-- Effect of one call on the registry and the world (what the call returns
is dropped; the world a call leaves is kept also when the call aborts). -/
def step (B : Backend) (closeErr : World → Nat → Option Err) (op : Op)
    (st : mgr × World) : mgr × World :=
  match op with
  | .Init cfgs dailer => (mgr.Init B dailer cfgs st.1 st.2).2
  | .Query dest tag sqlCmd args => (st.1, (mgr.Query B st.1 st.2 dest tag sqlCmd args).world)
  | .Exec tag sqlCmd args => (st.1, (mgr.Exec B st.1 st.2 tag sqlCmd args).2)
  | .GetDB _ => st
  | .Destory => (st.1, mgr.Destory closeErr st.1 st.2)

/-- State after a sequence of calls. -/
def run (B : Backend) (closeErr : World → Nat → Option Err) (ops : List Op)
    (st : mgr × World) : mgr × World :=
  ops.foldl (fun st1 op => step B closeErr op st1) st

/-- The registry invariant of the specification: every tag present maps to
exactly one handle, and that handle is live (it exists and is not closed). -/
def Live (s : mgr) (w : World) : Prop :=
  (s.clients.map Prod.fst).Nodup ∧
    ∀ tag db, Load s.clients tag = some db →
      ∃ h, w.handles.get? db = some h ∧ h.closed = false

/-- Whether the column matches in the part of the scan order that a
top-level field contributes: an inner field when the field is a nested
record without a hint, else the field itself. -/
def fieldHasMatch (colName : String) (sf : StructField GoType) : Bool :=
  if sf.Typ.Kind = Kind.Struct ∧ sf.Tag = none then
    (nestedFields sf.Typ).any (fun sf2 => isMatch colName sf2)
  else isMatch colName sf

/-- Value of the field at a location of a record value: the top-level field
`i` when `j < 0`, else field `j` of the record value held by field `i`. -/
def fieldAt (destValue : GoValue) (idx : refIndex) : Option GoValue :=
  match destValue with
  | .struct vs =>
    if idx.j < 0 then vs.get? idx.i.toNat
    else
      match vs.get? idx.i.toNat with
      | some (.struct ws) => ws.get? idx.j.toNat
      | _ => none
  | _ => none

/-- A record value has the shape of a record type: one value per field, and
at every nested-record field without a hint a record value with one value
per inner field. -/
def WellShaped (fields : List (StructField GoType)) (destValue : GoValue) : Prop :=
  ∃ vs, destValue = .struct vs ∧ vs.length = fields.length ∧
    ∀ i sf, fields.get? i = some sf → sf.Typ.Kind = Kind.Struct → sf.Tag = none →
      ∃ ws, vs.get? i = some (.struct ws) ∧ ws.length = (nestedFields sf.Typ).length

/-- A location of the scan order of a record type: a top-level field that
is no nested record without a hint, or an inner field of one that is. -/
def ValidLoc (fields : List (StructField GoType)) (idx : refIndex) : Prop :=
  ∃ (k : Nat) (sf : StructField GoType), idx.i = (k : Int) ∧ fields.get? k = some sf ∧
    ((idx.j = -1 ∧ ¬ (sf.Typ.Kind = Kind.Struct ∧ sf.Tag = none)) ∨
     (sf.Typ.Kind = Kind.Struct ∧ sf.Tag = none ∧
      ∃ (j : Nat) (sf2 : StructField GoType), idx.j = (j : Int) ∧
        (nestedFields sf.Typ).get? j = some sf2))

/-- Two locations are apart: they lie in different top-level fields, or
they are different inner fields of one nested record. -/
def Apart (a b : refIndex) : Prop :=
  a.i.toNat ≠ b.i.toNat ∨ (¬ a.j < 0 ∧ ¬ b.j < 0 ∧ a.j.toNat ≠ b.j.toNat)

/-- The assignment that the copy-out loop makes for one entry of the map. -/
def assignAt (fields : List (StructField GoType)) (destValue : GoValue) (idx : refIndex)
    (v : GoValue) : Result GoValue :=
  if idx.j < 0 then setField fields destValue idx.i.toNat v
  else setNestedField fields destValue idx.i.toNat idx.j.toNat v

/-! ## Example data -/

/-- A conversion for the examples: a driver value is stored in a variable of
the matching basic type and refused otherwise. -/
def exampleConv : Conv
  | .int, .int64 n => .ok (.int n)
  | .string, .string s => .ok (.str s)
  | .bool, .bool b => .ok (.bool b)
  | _, _ => .error (.msg "unsupported Scan")

/-- An exported, named field. -/
def fld (name : String) (t : GoType) (tag : Option String) : StructField GoType :=
  { Name := name, PkgPath := "", Typ := t, Tag := tag, Anonymous := false }

/-- An unexported, named field of package `main`. -/
def unexportedFld (name : String) (t : GoType) (tag : Option String) : StructField GoType :=
  { Name := name, PkgPath := "main", Typ := t, Tag := tag, Anonymous := false }

/-- An open cursor positioned on `row`, with no further rows. -/
def rowsOn (columns : List String) (row : List DriverValue) : Rows :=
  { columns := columns, pending := [], driverErr := none, lastcols := some row,
    lasterr := none, closed := false }

/-- Record type of the examples: `Id` with the hint `id`, and `Name`. -/
def exampleRecord : GoType :=
  .struct [fld "Id" .int (some "id"), fld "Name" .string none]

/-- A fresh cursor with the columns `id`, `Name` over the given rows. -/
def exampleCursor (pending : List (List DriverValue)) : Rows :=
  { columns := ["id", "Name"], pending := pending, driverErr := none, lastcols := none,
    lasterr := none, closed := false }

/-- The two rows of the example query. -/
def exampleRows : List (List DriverValue) :=
  [[.int64 1, .string "a"], [.int64 2, .string "b"]]

/-- The records that the two rows of the example query decode to. -/
def exampleDecoded : List GoValue :=
  [.struct [.int 1, .str "a"], .struct [.int 2, .str "b"]]

/-- Initial content of the destination slice in the examples. -/
def exampleInitial : List GoValue :=
  [.struct [.int 9, .str "z"]]

/-- A database for the examples: the driver `mysql` is known; the query
`SELECT id, Name FROM t` yields two rows, `SELECT id, Name FROM empty` none,
any other query fails; a statement affects one row. -/
def exampleBackend : Backend :=
  { conv := exampleConv
    sqlOpen := fun driverName _ =>
      if driverName = "mysql" then none else some (.msg "sql: unknown driver")
    query := fun _ _ sqlCmd _ =>
      if sqlCmd = "SELECT id, Name FROM t" then
        .ok (exampleCursor exampleRows)
      else if sqlCmd = "SELECT id, Name FROM empty" then .ok (exampleCursor [])
      else .error (.msg "Error 1146: Table doesn't exist")
    exec := fun _ _ _ _ => .ok { lastInsertId := 0, rowsAffected := 1 } }

/-- A world with one open handle, number 0. -/
def exampleWorld : World :=
  { handles := [{ driverName := "mysql", dsn := "", closed := false, calls := [] }],
    dial := none }

/-- Two open handles. -/
def exampleWorld2 : World :=
  { handles := [{ driverName := "mysql", dsn := "a", closed := false, calls := [] },
                { driverName := "mysql", dsn := "b", closed := false, calls := [] }],
    dial := none }

/-- A registry and world for the examples: the tags `t1` and `t2` on the
open handles 0 and 1. -/
def exampleMgr : mgr :=
  { clients := [("t2", 1), ("t1", 0)] }

/-- A configuration for the examples with the given type and tag. -/
def exampleConfig (dbType tag : String) : DbConfig :=
  { DbType := dbType, Tag := tag, DbName := "db0", IP := "1.1.1.1", Port := 1234,
    Username := "yy", Password := "123456", Charset := "", Timeout := 2000,
    MaxOpenConns := 10, MaxIdleConns := 5 }

/-! ## Column resolution -/

theorem takeWhile_comma_append (seg rest : List Char) (h : ',' ∉ seg) :
    (seg ++ ',' :: rest).takeWhile (fun c => c != ',') = seg := by
  induction seg with
  | nil => simp [List.takeWhile]
  | cons c cs ih =>
    have hc : c ≠ ',' := fun e => h (by simp [e])
    have hcs : ',' ∉ cs := fun e => h (List.mem_cons_of_mem _ e)
    have hb : (c != ',') = true := by simpa using hc
    simp [List.takeWhile, hb, ih hcs]

theorem takeWhile_comma_self (seg : List Char) (h : ',' ∉ seg) :
    seg.takeWhile (fun c => c != ',') = seg := by
  rw [List.takeWhile_eq_self_iff]
  intro c hc
  have : c ≠ ',' := fun e => h (e ▸ hc)
  simpa using this

theorem takeWhile_comma_spec (l : List Char) :
    ',' ∉ l.takeWhile (fun c => c != ',') ∧
    (l = l.takeWhile (fun c => c != ',') ∨
      ∃ rest, l = l.takeWhile (fun c => c != ',') ++ ',' :: rest) := by
  induction l with
  | nil => simp
  | cons c cs ih =>
    by_cases hc : c = ','
    · subst hc
      simp [List.takeWhile]
    · have hb : (c != ',') = true := by simpa using hc
      simp only [List.takeWhile, hb, List.mem_cons, not_or, List.cons_append, List.cons.injEq,
        true_and]
      exact ⟨⟨fun e => hc e.symm, ih.1⟩, ih.2⟩

/-- The first element of `strings.Split(s, ",")` is the first
comma-separated segment of `s` in the sense of the specification. -/
theorem firstSegment_spec (seg s : String) :
    seg = firstSegment s ↔ isFirstSegmentOf seg s = true := by
  obtain ⟨l⟩ := s
  obtain ⟨g⟩ := seg
  simp only [firstSegment, isFirstSegmentOf, String.ext_iff, Bool.and_eq_true, Bool.not_eq_true',
    Bool.or_eq_true, beq_iff_eq, List.isPrefixOf_iff_prefix, List.contains_eq_any_beq,
    List.any_eq_false, beq_iff_eq]
  constructor
  · intro h
    subst h
    obtain ⟨h1, h2⟩ := takeWhile_comma_spec l
    refine ⟨fun x hx e => h1 (e ▸ hx), ?_⟩
    rcases h2 with h2 | ⟨rest, h2⟩
    · exact Or.inl h2
    · exact Or.inr ⟨rest, by simpa using h2.symm⟩
  · rintro ⟨h1, h2⟩
    have hno : ',' ∉ g := fun hx => h1 ',' hx rfl
    rcases h2 with h2 | ⟨rest, h2⟩
    · subst h2; exact (takeWhile_comma_self _ hno).symm
    · rw [← h2]
      simp only [List.append_assoc, List.singleton_append]
      exact (takeWhile_comma_append g rest hno).symm

theorem isMatch_iff (colName : String) (sf : StructField GoType) :
    isMatch colName sf = fieldMatches colName sf := by
  have htag : tagGet sf = hintText sf := by
    obtain ⟨name, pkg, t, tag, anon⟩ := sf
    cases tag <;> rfl
  have hseg : (colName == firstSegment (hintText sf)) = isFirstSegmentOf colName (hintText sf) := by
    rw [Bool.eq_iff_iff, beq_iff_eq]
    exact firstSegment_spec colName (hintText sf)
  simp only [isMatch, fieldMatches, htag, hseg]

theorem matchNested_eq (colName : String) (i : Nat) (fs : List (StructField GoType)) (j : Nat) :
    matchNested colName i fs j =
      ((nestedOrder i fs j).find? (fun e => fieldMatches colName e.2)).map
        (fun e => (e.1, e.2.Typ)) := by
  induction fs generalizing j with
  | nil => rfl
  | cons sf rest ih =>
    simp only [matchNested, nestedOrder, List.find?_cons, isMatch_iff]
    cases h : fieldMatches colName sf <;> simp [ih]

theorem matchFields_eq (colName : String) (fs : List (StructField GoType)) (i : Nat) :
    matchFields colName fs i =
      ((scanOrder fs i).find? (fun e => fieldMatches colName e.2)).map
        (fun e => (e.1, e.2.Typ)) := by
  induction fs generalizing i with
  | nil => rfl
  | cons sf rest ih =>
    simp only [matchFields, scanOrder, List.find?_append, isMatch_iff]
    by_cases hk : sf.Typ.Kind = Kind.Struct
    · cases ht : sf.Tag with
      | none =>
        simp only [hk, ht, Option.isSome_none, and_self, if_true, matchNested_eq]
        cases hf : (nestedOrder i (nestedFields sf.Typ) 0).find?
            (fun e => fieldMatches colName e.2) with
        | none => simp [ih]
        | some r => simp
      | some h =>
        cases hm : fieldMatches colName sf <;> simp [hk, ht, ih, hm]
    · cases hm : fieldMatches colName sf <;> simp [hk, ih, hm]

theorem lookup_mapAssign (m : List (refIndex × Nat)) (idx idx1 : refIndex) (n : Nat) :
    (mapAssign m idx n).lookup idx1 = if idx1 = idx then some n else m.lookup idx1 := by
  unfold mapAssign
  by_cases h : idx1 = idx
  · subst h; simp [List.lookup]
  · have hb : (idx1 == idx) = false := by simpa using h
    simp only [List.lookup, hb, h, if_false]
    induction m with
    | nil => rfl
    | cons e rest ih =>
      obtain ⟨k, v⟩ := e
      by_cases hk : k = idx
      · subst hk
        simp [List.filter, List.lookup, hb, ih]
      · have hk1 : (k != idx) = true := by simpa using hk
        simp only [List.filter, hk1, List.lookup]
        cases hq : (idx1 == k) <;> simp [ih]

theorem getD_cons_shift (c : String) (rest : List String) (n p : Nat) (h : n + 1 ≤ p) :
    (c :: rest).getD (p - n) "" = rest.getD (p - (n + 1)) "" := by
  have e : p - n = (p - (n + 1)) + 1 := by omega
  rw [e, List.getD_cons_succ]

theorem mapColumns_struct (fs : List (StructField GoType)) (cols : List String) :
    ∀ (n : Nat) (m : List (refIndex × Nat)) (ri : List Any), n + cols.length ≤ ri.length →
      ∃ m1 ri1, mapColumns (.struct fs) cols n m ri = .ok (m1, ri1) ∧
        ri1.length = ri.length ∧
        (∀ p, ri1.getD p none =
          if n ≤ p ∧ p < n + cols.length ∧ (matchFields (cols.getD (p - n) "") fs 0).isSome
          then holderFor fs (cols.getD (p - n) "") else ri.getD p none) ∧
        (∀ idx, m1.lookup idx =
          match lastColumn fs idx cols n with
          | some p => some p
          | none => m.lookup idx) := by
  induction cols with
  | nil =>
    intro n m ri _
    refine ⟨m, ri, rfl, rfl, ?_, ?_⟩
    · intro p
      have : ¬ (n ≤ p ∧ p < n + ([] : List String).length ∧
          (matchFields (([] : List String).getD (p - n) "") fs 0).isSome) := by
        simp only [List.length_nil]; omega
      rw [if_neg this]
    · intro idx; simp [lastColumn]
  | cons c rest ih =>
    intro n m ri hlen
    simp only [List.length_cons] at hlen
    have key : ∀ (ri0 : List Any) (p : Nat), p ≠ n →
        (if n + 1 ≤ p ∧ p < n + 1 + rest.length ∧
            (matchFields (rest.getD (p - (n + 1)) "") fs 0).isSome
          then holderFor fs (rest.getD (p - (n + 1)) "") else ri0.getD p none) =
        (if n ≤ p ∧ p < n + (c :: rest).length ∧
            (matchFields ((c :: rest).getD (p - n) "") fs 0).isSome
          then holderFor fs ((c :: rest).getD (p - n) "") else ri0.getD p none) := by
      intro ri0 p hp
      by_cases hp2 : n + 1 ≤ p
      · rw [getD_cons_shift c rest n p hp2]
        apply if_congr _ rfl rfl
        simp only [List.length_cons]
        constructor <;> rintro ⟨a, b, d⟩ <;> exact ⟨by omega, by omega, d⟩
      · rw [if_neg (fun h => hp2 h.1), if_neg (fun h => hp2 (by omega))]
    cases hm : matchFields c fs 0 with
    | none =>
      obtain ⟨m1, ri1, h1, h2, h3, h4⟩ := ih (n + 1) m ri (by omega)
      refine ⟨m1, ri1, ?_, h2, ?_, ?_⟩
      · simp [mapColumns, matchColumn, GoType.Fields, hm, h1]
      · intro p
        rw [h3 p]
        by_cases hp : p = n
        · subst hp; simp [hm]
        · exact key ri p hp
      · intro idx
        rw [h4 idx]
        simp only [lastColumn, hm, Option.map_none']
        cases lastColumn fs idx rest (n + 1) <;> simp
    | some r =>
      obtain ⟨idx0, t⟩ := r
      obtain ⟨m1, ri1, h1, h2, h3, h4⟩ :=
        ih (n + 1) (mapAssign m idx0 n) (ri.set n (New t)) (by simp; omega)
      refine ⟨m1, ri1, ?_, by simpa using h2, ?_, ?_⟩
      · simp [mapColumns, matchColumn, GoType.Fields, hm, h1]
      · intro p
        rw [h3 p]
        by_cases hp : p = n
        · subst hp
          have hlt : p < ri.length := by omega
          simp [hm, holderFor, List.getD_eq_getElem?_getD, List.getElem?_set, hlt]
        · rw [key _ p hp]
          have hne : n ≠ p := fun h => hp h.symm
          simp [List.getD_eq_getElem?_getD, List.getElem?_set, hne]
      · intro idx
        rw [h4 idx]
        simp only [lastColumn, hm, Option.map_some', lookup_mapAssign]
        cases lastColumn fs idx rest (n + 1) with
        | some q => rfl
        | none =>
          by_cases hi : idx = idx0
          · subst hi; simp
          · have : ¬ idx0 = idx := fun h => hi h.symm
            simp [hi, this]

theorem mem_mapAssign (m : List (refIndex × Nat)) (idx : refIndex) (n : Nat)
    (e : refIndex × Nat) (h : e ∈ mapAssign m idx n) : e = (idx, n) ∨ e ∈ m := by
  unfold mapAssign at h
  rcases List.mem_cons.1 h with h | h
  · exact Or.inl h
  · exact Or.inr (List.mem_filter.1 h).1

theorem mapColumns_mem (fs : List (StructField GoType)) (cols : List String) :
    ∀ (n : Nat) (m m1 : List (refIndex × Nat)) (ri ri1 : List Any),
      mapColumns (.struct fs) cols n m ri = .ok (m1, ri1) →
      ∀ e ∈ m1, e ∈ m ∨ (n ≤ e.2 ∧ e.2 < n + cols.length ∧
        (matchFields (cols.getD (e.2 - n) "") fs 0).map Prod.fst = some e.1) := by
  induction cols with
  | nil =>
    intro n m m1 ri ri1 h e he
    simp only [mapColumns, Result.ok.injEq, Prod.mk.injEq] at h
    exact Or.inl (h.1 ▸ he)
  | cons c rest ih =>
    intro n m m1 ri ri1 h e he
    have shift : n + 1 ≤ e.2 ∧ e.2 < n + 1 + rest.length ∧
        (matchFields (rest.getD (e.2 - (n + 1)) "") fs 0).map Prod.fst = some e.1 →
        n ≤ e.2 ∧ e.2 < n + (c :: rest).length ∧
        (matchFields ((c :: rest).getD (e.2 - n) "") fs 0).map Prod.fst = some e.1 := by
      rintro ⟨a, b, d⟩
      rw [getD_cons_shift c rest n e.2 a]
      exact ⟨by omega, by simp only [List.length_cons]; omega, d⟩
    cases hm : matchFields c fs 0 with
    | none =>
      simp only [mapColumns, matchColumn, GoType.Fields, hm] at h
      rcases ih (n + 1) m m1 ri ri1 h e he with h1 | h1
      · exact Or.inl h1
      · exact Or.inr (shift h1)
    | some r =>
      obtain ⟨idx0, t⟩ := r
      simp only [mapColumns, matchColumn, GoType.Fields, hm] at h
      rcases ih (n + 1) _ m1 _ ri1 h e he with h1 | h1
      · rcases mem_mapAssign m idx0 n e h1 with h2 | h2
        · right
          subst h2
          simp [hm]
        · exact Or.inl h2
      · exact Or.inr (shift h1)

theorem rowInfo_eq (fs : List (StructField GoType)) (cols : List String)
    (ri1 : List Any) (hlen : ri1.length = cols.length)
    (h : ∀ p, ri1.getD p none =
      if 0 ≤ p ∧ p < 0 + cols.length ∧ (matchFields (cols.getD (p - 0) "") fs 0).isSome
      then holderFor fs (cols.getD (p - 0) "") else (List.replicate cols.length (none : Any)).getD p none) :
    ri1 = cols.map (holderFor fs) := by
  apply List.ext_getElem (by simp [hlen])
  intro p h1 h2
  have hp := h p
  have hc : p < cols.length := by simpa using h2
  simp only [List.getD_eq_getElem?_getD, List.getElem?_eq_getElem h1, Option.getD_some,
    Nat.zero_le, Nat.zero_add, hc, true_and, Nat.sub_zero, List.getElem?_eq_getElem hc,
    List.getElem?_replicate, if_true] at hp
  rw [hp, List.getElem_map]
  cases hm : matchFields cols[p] fs 0 with
  | none => simp [holderFor, hm]
  | some r => simp

/-- The column loop of `GetRowData` on a struct destination type: the holder
list has one entry per column, each the holder of its column, and the map
sends a location to the last column that resolves to it. -/
theorem mapColumns_init (fs : List (StructField GoType)) (cols : List String) :
    ∃ m1, mapColumns (.struct fs) cols 0 [] (List.replicate cols.length none)
        = .ok (m1, cols.map (holderFor fs)) ∧
      (∀ idx, m1.lookup idx = lastColumn fs idx cols 0) ∧
      (∀ e ∈ m1, ∃ c, cols.get? e.2 = some c ∧
        (matchFields c fs 0).map Prod.fst = some e.1) := by
  obtain ⟨m1, ri1, h1, h2, h3, h4⟩ :=
    mapColumns_struct fs cols 0 [] (List.replicate cols.length none) (by simp)
  have hri : ri1 = cols.map (holderFor fs) := rowInfo_eq fs cols ri1 (by simpa using h2) h3
  subst hri
  refine ⟨m1, h1, ?_, ?_⟩
  · intro idx
    rw [h4 idx]
    cases lastColumn fs idx cols 0 <;> simp [List.lookup]
  · intro e he
    rcases mapColumns_mem fs cols 0 [] m1 _ _ h1 e he with h | ⟨_, hb, hc⟩
    · cases h
    · have hb1 : e.2 < cols.length := by omega
      refine ⟨cols[e.2], by simp [List.get?_eq_getElem?, List.getElem?_eq_getElem hb1], ?_⟩
      simpa [List.getD_eq_getElem?_getD, List.getElem?_eq_getElem hb1] using hc

/-! ## Unmatched columns -/

theorem scanLoop_nil_holder (conv : Conv) (columns : List String) :
    ∀ (ds : List Any) (svs : List DriverValue) (i : Nat), ds.length = svs.length →
      none ∈ ds → ∃ e, scanLoop conv columns ds svs i = .error e := by
  intro ds
  induction ds with
  | nil => intro svs i _ h; cases h
  | cons d rest ih =>
    intro svs i hlen hmem
    cases svs with
    | nil => simp at hlen
    | cons sv svs1 =>
      simp only [List.length_cons, Nat.add_right_cancel_iff] at hlen
      simp only [scanLoop]
      cases hc : convertAssign conv d sv with
      | error e => exact ⟨_, rfl⟩
      | ok d1 =>
        have hne : d ≠ none := by
          intro h
          subst h
          simp [convertAssign] at hc
        have hrest : none ∈ rest := by
          rcases List.mem_cons.1 hmem with h | h
          · exact absurd h.symm hne
          · exact h
        obtain ⟨e, he⟩ := ih svs1 (i + 1) hlen hrest
        exact ⟨e, by simp [he]⟩

theorem Scan_nil_holder (conv : Conv) (rows : Rows) (dest : List Any) (h : none ∈ dest) :
    ∃ e, rows.Scan conv dest = .error e := by
  unfold Rows.Scan
  cases rows.closed with
  | true => exact ⟨_, rfl⟩
  | false =>
    cases rows.lastcols with
    | none => exact ⟨_, rfl⟩
    | some cols =>
      by_cases hlen : dest.length = cols.length
      · obtain ⟨e, he⟩ := scanLoop_nil_holder conv rows.columns dest cols 0 hlen h
        exact ⟨e, by simp [hlen, he]⟩
      · exact ⟨.scanArgs cols.length dest.length, by simp [hlen]⟩

theorem mapColumns_eq (fields : List (StructField GoType)) (columns : List String) :
    mapColumns (.struct fields) columns 0 [] (List.replicate columns.length none)
      = .ok (loopMap fields columns, columns.map (holderFor fields)) := by
  obtain ⟨m1, h1, _, _⟩ := mapColumns_init fields columns
  simp [loopMap, h1]

/-- Unfolding of `GetRowData` on a pointer to a record. -/
theorem GetRowData_struct (conv : Conv) (rows : Rows) (fields : List (StructField GoType))
    (target : Option GoValue) :
    GetRowData conv rows (some { typ := .ptr (.struct fields), val := .ptr target }) =
      if rows.closed then
        .ok (some rows.closedErr, some { typ := .ptr (.struct fields), val := .ptr target })
      else
        match rows.Scan conv (rows.columns.map (holderFor fields)) with
        | .error err => .ok (some err, some { typ := .ptr (.struct fields), val := .ptr target })
        | .ok scanned =>
          match loopMap fields rows.columns, target with
          | [], _ => .ok (none, some { typ := .ptr (.struct fields), val := .ptr target })
          | _ :: _, none => .panic "reflect: call of reflect.Value.Field on zero Value"
          | _ :: _, some destValue =>
            match copyOut fields scanned (loopMap fields rows.columns) destValue with
            | .panic s => .panic s
            | .ok d => .ok (none, some { typ := .ptr (.struct fields), val := .ptr (some d) }) := by
  unfold GetRowData
  cases hcl : rows.closed with
  | true => simp [Rows.Columns, hcl]
  | false =>
    simp only [Rows.Columns, hcl, destElemType, TypeOf, Option.map_some', GoType.Elem,
      mapColumns_eq, nestedFields]
    rfl

/-- C3. Evaluation of the code where the claim fails: when some result
column matches no field of the destination record, the holder that
`GetRowData` passes to `Rows.Scan` for it is the nil interface, so the call
returns an error (and leaves the destination as it was) on every cursor and
every row. -/
theorem GetRowData_unmatched_column_error (conv : Conv) (rows : Rows)
    (fields : List (StructField GoType)) (target : Option GoValue)
    (hcol : ∃ c ∈ rows.columns, firstMatch c fields = none) :
    (∃ colDestMap rowInfo,
      mapColumns (.struct fields) rows.columns 0 [] (List.replicate rows.columns.length none)
        = .ok (colDestMap, rowInfo) ∧ rowInfo.length = rows.columns.length ∧ none ∈ rowInfo) ∧
    ∃ err, GetRowData conv rows (some { typ := .ptr (.struct fields), val := .ptr target })
      = .ok (some err, some { typ := .ptr (.struct fields), val := .ptr target }) := by
  obtain ⟨c, hc, hnone⟩ := hcol
  have hmem : none ∈ rows.columns.map (holderFor fields) := by
    refine List.mem_map.2 ⟨c, hc, ?_⟩
    have := matchFields_eq c fields 0
    unfold firstMatch at hnone
    rw [hnone] at this
    simp [holderFor, this]
  refine ⟨⟨_, _, mapColumns_eq fields rows.columns, by simp, hmem⟩, ?_⟩
  rw [GetRowData_struct]
  cases hcl : rows.closed with
  | true => exact ⟨rows.closedErr, by simp⟩
  | false =>
    obtain ⟨e, he⟩ := Scan_nil_holder conv rows _ hmem
    exact ⟨e, by simp [he]⟩

/-- C3, at a concrete input: a record with fields `Id` (hint `id`) and
`Name`, and a row with the columns `id` and `extra`. -/
theorem GetRowData_unmatched_column_error_witness :
    (∃ c ∈ (rowsOn ["id", "extra"] [.int64 7, .string "x"]).columns,
        firstMatch c [fld "Id" .int (some "id"), fld "Name" .string none] = none) ∧
    ((∃ colDestMap rowInfo,
      mapColumns (.struct [fld "Id" .int (some "id"), fld "Name" .string none])
          (rowsOn ["id", "extra"] [.int64 7, .string "x"]).columns 0 []
          (List.replicate (rowsOn ["id", "extra"] [.int64 7, .string "x"]).columns.length none)
        = .ok (colDestMap, rowInfo) ∧
        rowInfo.length = (rowsOn ["id", "extra"] [.int64 7, .string "x"]).columns.length ∧
        none ∈ rowInfo) ∧
    ∃ err, GetRowData exampleConv (rowsOn ["id", "extra"] [.int64 7, .string "x"])
        (some { typ := .ptr (.struct [fld "Id" .int (some "id"), fld "Name" .string none]),
                val := .ptr (some (.struct [.int 0, .str ""])) })
      = .ok (some err,
          some { typ := .ptr (.struct [fld "Id" .int (some "id"), fld "Name" .string none]),
                 val := .ptr (some (.struct [.int 0, .str ""])) })) :=
  ⟨⟨"extra", by decide, by rfl⟩,
   GetRowData_unmatched_column_error exampleConv _ _ _ ⟨"extra", by decide, by rfl⟩⟩

/-! ## Materialization into a flat record -/

theorem convertAssign_ok (conv : Conv) (d d1 : Any) (sv : DriverValue)
    (h : convertAssign conv d sv = .ok d1) :
    ∃ t v0 v, d = some { typ := .ptr t, val := .ptr (some v0) } ∧ conv t sv = .ok v ∧
      d1 = some { typ := .ptr t, val := .ptr (some v) } := by
  unfold convertAssign at h
  split at h
  · cases h
  · rename_i d0
    obtain ⟨typ, val⟩ := d0
    split at h
    · rename_i t v0 ht hv
      simp only at ht hv
      subst ht hv
      split at h
      · rename_i v hv2
        refine ⟨t, v0, v, rfl, hv2, ?_⟩
        cases h; rfl
      · cases h
    · cases h
    · cases h

theorem scanLoop_ok (conv : Conv) (columns : List String) :
    ∀ (ds : List Any) (svs : List DriverValue) (i : Nat) (out : List Any),
      ds.length = svs.length → scanLoop conv columns ds svs i = .ok out →
      ∀ k d, ds.get? k = some d →
        ∃ t v0 v sv, d = some { typ := .ptr t, val := .ptr (some v0) } ∧ svs.get? k = some sv ∧
          conv t sv = .ok v ∧ out.get? k = some (some { typ := .ptr t, val := .ptr (some v) }) := by
  intro ds
  induction ds with
  | nil => intro svs i out _ _ k d hk; simp at hk
  | cons d0 rest ih =>
    intro svs i out hlen h k d hk
    cases svs with
    | nil => simp at hlen
    | cons sv0 svs1 =>
      simp only [List.length_cons, Nat.add_right_cancel_iff] at hlen
      simp only [scanLoop] at h
      cases hc : convertAssign conv d0 sv0 with
      | error e => simp [hc] at h
      | ok d1 =>
        cases hr : scanLoop conv columns rest svs1 (i + 1) with
        | error e => simp [hc, hr] at h
        | ok out1 =>
          simp only [hc, hr, Except.ok.injEq] at h
          subst h
          cases k with
          | zero =>
            simp only [List.get?_cons_zero, Option.some.injEq] at hk
            subst hk
            obtain ⟨t, v0, v, h1, h2, h3⟩ := convertAssign_ok conv d0 d1 sv0 hc
            exact ⟨t, v0, v, sv0, h1, rfl, h2, by simp [h3]⟩
          | succ k1 =>
            simp only [List.get?_cons_succ] at hk ⊢
            exact ih svs1 (i + 1) out1 hlen hr k1 d hk

theorem Scan_ok (conv : Conv) (rows : Rows) (dest scanned : List Any)
    (h : rows.Scan conv dest = .ok scanned) :
    rows.closed = false ∧ ∃ row, rows.lastcols = some row ∧ dest.length = row.length ∧
      ∀ k d, dest.get? k = some d →
        ∃ t v0 v sv, d = some { typ := .ptr t, val := .ptr (some v0) } ∧ row.get? k = some sv ∧
          conv t sv = .ok v ∧
          scanned.get? k = some (some { typ := .ptr t, val := .ptr (some v) }) := by
  unfold Rows.Scan at h
  cases hcl : rows.closed with
  | true => simp [hcl] at h
  | false =>
    refine ⟨rfl, ?_⟩
    cases hl : rows.lastcols with
    | none => simp [hcl, hl] at h
    | some row =>
      by_cases hlen : dest.length = row.length
      · simp only [hcl, hl, hlen, bne_self_eq_false, Bool.false_eq_true, if_false] at h
        exact ⟨row, rfl, hlen, scanLoop_ok conv rows.columns dest row 0 scanned hlen h⟩
      · simp [hcl, hl, hlen] at h

theorem matchFields_flat (colName : String) (fs : List (StructField GoType))
    (hflat : ∀ sf ∈ fs, sf.Typ.Kind ≠ Kind.Struct) :
    ∀ (s : Nat) (idx : refIndex) (t : GoType), matchFields colName fs s = some (idx, t) →
      idx.j = -1 ∧ ∃ k sf, idx.i = ((s + k : Nat) : Int) ∧ fs.get? k = some sf ∧ sf.Typ = t := by
  induction fs with
  | nil => intro s idx t h; simp [matchFields] at h
  | cons sf rest ih =>
    intro s idx t h
    have hk : ¬ sf.Typ.Kind = Kind.Struct := hflat sf (List.mem_cons_self _ _)
    simp only [matchFields, hk, if_false] at h
    cases hm : isMatch colName sf with
    | true =>
      simp only [hm, if_true, Option.some.injEq, Prod.mk.injEq] at h
      obtain ⟨h1, h2⟩ := h
      subst h1
      exact ⟨rfl, 0, sf, by simp, by simp, h2⟩
    | false =>
      simp only [hm, Bool.false_eq_true, if_false] at h
      obtain ⟨hj, k, sf1, h1, h2, h3⟩ :=
        ih (fun x hx => hflat x (List.mem_cons_of_mem _ hx)) (s + 1) idx t h
      exact ⟨hj, k + 1, sf1, by rw [h1]; congr 1; omega, by simpa using h2, h3⟩

theorem mapAssign_keys_nodup (m : List (refIndex × Nat)) (idx : refIndex) (n : Nat)
    (h : (m.map Prod.fst).Nodup) : ((mapAssign m idx n).map Prod.fst).Nodup := by
  unfold mapAssign
  simp only [List.map_cons, List.nodup_cons]
  constructor
  · intro hmem
    obtain ⟨e, he, hk⟩ := List.mem_map.1 hmem
    have := (List.mem_filter.1 he).2
    simp [hk] at this
  · exact (h.sublist ((List.filter_sublist m).map Prod.fst))

theorem mapColumns_keys_nodup (fs : List (StructField GoType)) (cols : List String) :
    ∀ (n : Nat) (m m1 : List (refIndex × Nat)) (ri ri1 : List Any),
      (m.map Prod.fst).Nodup → mapColumns (.struct fs) cols n m ri = .ok (m1, ri1) →
      (m1.map Prod.fst).Nodup := by
  induction cols with
  | nil =>
    intro n m m1 ri ri1 hn h
    simp only [mapColumns, Result.ok.injEq, Prod.mk.injEq] at h
    exact h.1 ▸ hn
  | cons c rest ih =>
    intro n m m1 ri ri1 hn h
    cases hm : matchFields c fs 0 with
    | none =>
      simp only [mapColumns, matchColumn, GoType.Fields, hm] at h
      exact ih (n + 1) m m1 ri ri1 hn h
    | some r =>
      obtain ⟨idx0, t⟩ := r
      simp only [mapColumns, matchColumn, GoType.Fields, hm] at h
      exact ih (n + 1) _ m1 _ ri1 (mapAssign_keys_nodup m idx0 n hn) h

theorem loopMap_keys_nodup (fs : List (StructField GoType)) (cols : List String) :
    ((loopMap fs cols).map Prod.fst).Nodup :=
  mapColumns_keys_nodup fs cols 0 [] _ _ _ (by simp) (mapColumns_eq fs cols)

theorem loopMap_lookup (fs : List (StructField GoType)) (cols : List String) (idx : refIndex) :
    (loopMap fs cols).lookup idx = lastColumn fs idx cols 0 := by
  obtain ⟨m1, h1, h2, _⟩ := mapColumns_init fs cols
  have : loopMap fs cols = m1 := by simp [loopMap, h1]
  rw [this, h2]

theorem loopMap_mem (fs : List (StructField GoType)) (cols : List String) :
    ∀ e ∈ loopMap fs cols, ∃ c, cols.get? e.2 = some c ∧
      (matchFields c fs 0).map Prod.fst = some e.1 := by
  obtain ⟨m1, h1, _, h3⟩ := mapColumns_init fs cols
  have : loopMap fs cols = m1 := by simp [loopMap, h1]
  rw [this]
  exact h3

/-- The copy-out loop on top-level locations whose fields are exported and
whose holders hold a value: every located field receives the value of its
holder, every other field stays. -/
theorem copyOut_top (fs : List (StructField GoType)) (scanned : List Any) :
    ∀ (m : List (refIndex × Nat)) (vs : List GoValue),
      (m.map Prod.fst).Nodup →
      (∀ e ∈ m, e.1.j = -1 ∧ ∃ (i : Nat) (sf : StructField GoType) (v : GoValue),
        e.1.i = (i : Int) ∧ fs.get? i = some sf ∧ sf.IsExported = true ∧
        holderValue scanned e.2 = .ok v) →
      ∃ vs1, copyOut fs scanned m (.struct vs) = .ok (.struct vs1) ∧ vs1.length = vs.length ∧
        ∀ (i : Nat), i < vs.length →
          match m.lookup ⟨i, -1⟩ with
          | some n => holderValue scanned n = .ok (vs1.getD i .nil)
          | none => vs1.get? i = vs.get? i := by
  intro m
  induction m with
  | nil =>
    intro vs _ _
    exact ⟨vs, rfl, rfl, fun i _ => by simp [List.lookup]⟩
  | cons e rest ih =>
    intro vs hnd hall
    obtain ⟨idx, n⟩ := e
    obtain ⟨hj, i0, sf, v, hi, hsf, hexp, hv⟩ := hall (idx, n) (List.mem_cons_self _ _)
    simp only at hj hi hv
    have hidx : idx = ⟨(i0 : Int), -1⟩ := by
      cases idx; simp only at hj hi; simp [hj, hi]
    subst hidx
    simp only [List.map_cons, List.nodup_cons] at hnd
    obtain ⟨vs1, h1, h2, h3⟩ := ih (vs.set i0 v) hnd.2
      (fun e he => hall e (List.mem_cons_of_mem _ he))
    refine ⟨vs1, ?_, by simpa using h2, ?_⟩
    · have hsf1 : fs[i0]? = some sf := by simpa [List.get?_eq_getElem?] using hsf
      simp [copyOut, hv, setField, hsf1, hexp, h1]
    · intro i hlt
      have h3i := h3 i (by simpa using hlt)
      by_cases hii : i = i0
      · subst hii
        have hnone : rest.lookup (⟨(i : Int), -1⟩ : refIndex) = none := by
          rw [List.lookup_eq_none_iff]
          intro e he
          simp only [bne_iff_ne, ne_eq]
          intro hk
          exact hnd.1 (List.mem_map.2 ⟨e, he, hk.symm⟩)
        simp only [hnone] at h3i
        simp only [List.lookup, beq_self_eq_true]
        rw [hv]
        congr 1
        simp only [List.getD_eq_getElem?_getD, ← List.get?_eq_getElem?, h3i]
        simp [List.get?_eq_getElem?, List.getElem?_set, hlt]
      · have hne : ((⟨(i : Int), -1⟩ : refIndex) == ⟨(i0 : Int), -1⟩) = false := by
          simp; omega
        simp only [List.lookup, hne]
        cases hl : rest.lookup (⟨(i : Int), -1⟩ : refIndex) with
        | some n1 => simpa [hl] using h3i
        | none =>
          simp only [hl] at h3i
          rw [h3i]
          have : i0 ≠ i := fun h => hii h.symm
          simp [List.get?_eq_getElem?, List.getElem?_set, this]

theorem lastColumn_none (fs : List (StructField GoType)) (idx : refIndex) :
    ∀ (cols : List String) (s : Nat),
      (∀ c ∈ cols, (matchFields c fs 0).map Prod.fst ≠ some idx) →
      lastColumn fs idx cols s = none := by
  intro cols
  induction cols with
  | nil => intro s _; rfl
  | cons c rest ih =>
    intro s h
    have h1 := ih (s + 1) (fun x hx => h x (List.mem_cons_of_mem _ hx))
    have h2 := h c (List.mem_cons_self _ _)
    simp [lastColumn, h1, h2]

theorem lastColumn_last (fs : List (StructField GoType)) (idx : refIndex) :
    ∀ (cols : List String) (s k : Nat) (c : String), cols.get? k = some c →
      (matchFields c fs 0).map Prod.fst = some idx →
      (∀ k1 c1, k < k1 → cols.get? k1 = some c1 →
        (matchFields c1 fs 0).map Prod.fst ≠ some idx) →
      lastColumn fs idx cols s = some (s + k) := by
  intro cols
  induction cols with
  | nil => intro s k c h; simp at h
  | cons c0 rest ih =>
    intro s k c hk hm hlast
    cases k with
    | zero =>
      simp only [List.get?_cons_zero, Option.some.injEq] at hk
      subst hk
      have hnone : lastColumn fs idx rest (s + 1) = none := by
        apply lastColumn_none
        intro x hx
        obtain ⟨k1, hk1⟩ := List.get?_of_mem hx
        exact hlast (k1 + 1) x (by omega) (by simpa using hk1)
      simp [lastColumn, hnone, hm]
    | succ k0 =>
      simp only [List.get?_cons_succ] at hk
      have := ih (s + 1) k0 c hk hm (fun k1 c1 hlt hc1 =>
        hlast (k1 + 1) c1 (by omega) (by simpa using hc1))
      simp only [lastColumn, this]
      congr 1
      omega

theorem resolve_fst (c : String) (fs : List (StructField GoType)) :
    (matchFields c fs 0).map Prod.fst = (firstMatch c fs).map Prod.fst := by
  rw [matchFields_eq]
  unfold firstMatch
  cases (scanOrder fs 0).find? (fun e => fieldMatches c e.2) <;> rfl

theorem scanOrder_flat (fs : List (StructField GoType))
    (hflat : ∀ sf ∈ fs, sf.Typ.Kind ≠ Kind.Struct) :
    ∀ (s : Nat), ∀ e ∈ scanOrder fs s, ∃ k, e.1 = ⟨((s + k : Nat) : Int), -1⟩ ∧
      fs.get? k = some e.2 := by
  induction fs with
  | nil => intro s e he; simp [scanOrder] at he
  | cons sf rest ih =>
    intro s e he
    have hk : ¬ sf.Typ.Kind = Kind.Struct := hflat sf (List.mem_cons_self _ _)
    simp only [scanOrder, hk, false_and, if_false, List.singleton_append, List.mem_cons] at he
    rcases he with he | he
    · subst he
      exact ⟨0, by simp, by simp⟩
    · obtain ⟨k, h1, h2⟩ := ih (fun x hx => hflat x (List.mem_cons_of_mem _ hx)) (s + 1) e he
      refine ⟨k + 1, ?_, by simpa using h2⟩
      rw [h1]
      congr 2
      omega

theorem zeroFields_get? (fs : List (StructField GoType)) :
    ∀ (i : Nat) (sf : StructField GoType), fs.get? i = some sf →
      (zeroFields fs).get? i = some (zero sf.Typ) := by
  induction fs with
  | nil => intro i sf h; simp at h
  | cons f rest ih =>
    intro i sf h
    cases i with
    | zero =>
      simp only [List.get?_cons_zero, Option.some.injEq] at h
      subst h
      simp [zeroFields]
    | succ i0 =>
      simp only [List.get?_cons_succ] at h
      simpa [zeroFields] using ih i0 sf h

theorem zeroFields_length (fs : List (StructField GoType)) :
    (zeroFields fs).length = fs.length := by
  induction fs with
  | nil => rfl
  | cons f rest ih => simp [zeroFields, ih]

theorem holderValue_of_get? (scanned : List Any) (n : Nat) (t : GoType) (v : GoValue)
    (h : scanned.get? n = some (some { typ := .ptr t, val := .ptr (some v) })) :
    holderValue scanned n = .ok v := by
  unfold holderValue
  have : scanned.getD n none = some { typ := .ptr t, val := .ptr (some v) } := by
    simp [List.getD_eq_getElem?_getD, ← List.get?_eq_getElem?, h]
  rw [this]

theorem scanned_value (conv : Conv) (rows : Rows) (fs : List (StructField GoType))
    (scanned : List Any) (row : List DriverValue)
    (hrow : rows.lastcols = some row)
    (hscan : rows.Scan conv (rows.columns.map (holderFor fs)) = .ok scanned)
    (n : Nat) (c : String) (idx : refIndex) (t : GoType)
    (hc : rows.columns.get? n = some c) (hm : matchFields c fs 0 = some (idx, t)) :
    ∃ v sv, row.get? n = some sv ∧ conv t sv = .ok v ∧ holderValue scanned n = .ok v := by
  obtain ⟨_, row1, hrow1, _, hall⟩ := Scan_ok conv rows _ scanned hscan
  rw [hrow] at hrow1
  cases hrow1
  have hd : (rows.columns.map (holderFor fs)).get? n = some (New t) := by
    simp [List.get?_eq_getElem?] at hc ⊢
    exact ⟨c, hc, by simp [holderFor, hm]⟩
  obtain ⟨t1, v0, v, sv, h1, h2, h3, h4⟩ := hall n _ hd
  simp only [New, Option.some.injEq, Iface.mk.injEq, GoType.ptr.injEq] at h1
  obtain ⟨ht, _⟩ := h1
  subst ht
  exact ⟨v, sv, h2, h3, holderValue_of_get? scanned n t v h4⟩

/-- C2, amended. For every flat record type, every column-name sequence and
every row whose scan into the holders of its columns succeeds, if every
field matched by a column is exported, then `GetRowData` into a zero-valued
record returns no error, leaves each field that is matched by a column equal
to the value scanned for the last column matched to it, and leaves each
field matched by no column at its zero value. -/
theorem GetRowData_flat_record (conv : Conv) (rows : Rows)
    (fields : List (StructField GoType)) (scanned : List Any)
    (hflat : ∀ sf ∈ fields, sf.Typ.Kind ≠ Kind.Struct)
    (hscan : rows.Scan conv (rows.columns.map (holderFor fields)) = .ok scanned)
    (hexp : ∀ c ∈ rows.columns, ∀ e, firstMatch c fields = some e → e.2.IsExported = true) :
    ∃ vs row, rows.lastcols = some row ∧
      GetRowData conv rows (New (.struct fields))
        = .ok (none, some { typ := .ptr (.struct fields), val := .ptr (some (.struct vs)) }) ∧
      vs.length = fields.length ∧
      ∀ i sf, fields.get? i = some sf →
        (∀ n c sv, rows.columns.get? n = some c → row.get? n = some sv →
          (firstMatch c fields).map Prod.fst = some ⟨(i : Int), -1⟩ →
          (∀ n1 c1, n < n1 → rows.columns.get? n1 = some c1 →
            (firstMatch c1 fields).map Prod.fst ≠ some ⟨(i : Int), -1⟩) →
          conv sf.Typ sv = .ok (vs.getD i .nil)) ∧
        ((∀ c ∈ rows.columns, (firstMatch c fields).map Prod.fst ≠ some ⟨(i : Int), -1⟩) →
          vs.get? i = some (zero sf.Typ)) := by
  obtain ⟨hcl, row, hrow, _, _⟩ := Scan_ok conv rows _ scanned hscan
  -- every entry of the map is a top-level location of an exported field with a filled holder
  have hall : ∀ e ∈ loopMap fields rows.columns,
      e.1.j = -1 ∧ ∃ (i : Nat) (sf : StructField GoType) (v : GoValue),
        e.1.i = (i : Int) ∧ fields.get? i = some sf ∧ sf.IsExported = true ∧
        holderValue scanned e.2 = .ok v := by
    intro e he
    obtain ⟨c, hc, hm⟩ := loopMap_mem fields rows.columns e he
    cases hmf : matchFields c fields 0 with
    | none => simp [hmf] at hm
    | some r =>
      obtain ⟨idx, t⟩ := r
      have hidx : idx = e.1 := by simpa [hmf] using hm
      subst hidx
      obtain ⟨hj, k, sf, hi, hsf, _⟩ := matchFields_flat c fields hflat 0 _ t hmf
      obtain ⟨v, sv, _, _, hv⟩ := scanned_value conv rows fields scanned row hrow hscan e.2 c _ t hc hmf
      refine ⟨hj, k, sf, v, by simpa using hi, hsf, ?_, hv⟩
      have hfm := matchFields_eq c fields 0
      rw [hmf] at hfm
      cases hf : firstMatch c fields with
      | none => unfold firstMatch at hf; simp [hf] at hfm
      | some e1 =>
        have hf1 := hf
        unfold firstMatch at hf1
        rw [hf1] at hfm
        simp only [Option.map_some', Option.some.injEq, Prod.mk.injEq] at hfm
        obtain ⟨k1, h1, h2⟩ := scanOrder_flat fields hflat 0 e1 (List.mem_of_find?_eq_some hf1)
        have hkk : k1 = k := by
          have := hfm.1
          rw [h1] at this
          rw [this] at hi
          simp only [refIndex.mk.injEq] at hi
          have := hi
          simp only [Nat.zero_add] at this
          exact_mod_cast this
        subst hkk
        rw [hsf] at h2
        cases h2
        exact hexp c (List.mem_iff_get?.2 ⟨_, hc⟩) e1 hf
  obtain ⟨vs1, h1, h2, h3⟩ := copyOut_top fields scanned (loopMap fields rows.columns)
    (zeroFields fields) (loopMap_keys_nodup fields rows.columns) hall
  refine ⟨vs1, row, hrow, ?_, by rw [h2, zeroFields_length], ?_⟩
  · have hnew : New (.struct fields) =
        some { typ := .ptr (.struct fields), val := .ptr (some (.struct (zeroFields fields))) } := by
      simp [New, zero]
    rw [hnew, GetRowData_struct, hcl]
    simp only [Bool.false_eq_true, if_false, hscan]
    cases hm : loopMap fields rows.columns with
    | nil =>
      rw [hm] at h1
      simp only [copyOut, Result.ok.injEq, GoValue.struct.injEq] at h1
      simp [h1]
    | cons e rest =>
      rw [hm] at h1
      simp [h1]
  · intro i sf hsf
    have hlt : i < (zeroFields fields).length := by
      rw [zeroFields_length]
      exact (List.get?_eq_some.1 hsf).1
    have h3i := h3 i hlt
    rw [loopMap_lookup] at h3i
    constructor
    · intro n c sv hc hsv hres hlast
      have hres1 : (matchFields c fields 0).map Prod.fst = some ⟨(i : Int), -1⟩ := by
        rw [resolve_fst]; exact hres
      have hlc := lastColumn_last fields ⟨(i : Int), -1⟩ rows.columns 0 n c hc hres1
        (fun n1 c1 hlt1 hc1 => by rw [resolve_fst]; exact hlast n1 c1 hlt1 hc1)
      rw [hlc] at h3i
      simp only [Nat.zero_add] at h3i
      cases hmf : matchFields c fields 0 with
      | none => simp [hmf] at hres1
      | some r =>
        obtain ⟨idx, t⟩ := r
        have hidx : idx = ⟨(i : Int), -1⟩ := by simpa [hmf] using hres1
        subst hidx
        obtain ⟨_, k, sf1, hi, hsf1, ht⟩ := matchFields_flat c fields hflat 0 _ t hmf
        have hki : k = i := by
          simp only [Nat.zero_add] at hi
          exact_mod_cast hi.symm
        subst hki
        rw [hsf] at hsf1
        cases hsf1
        obtain ⟨v, sv1, hsv1, hconv, hv⟩ :=
          scanned_value conv rows fields scanned row hrow hscan n c _ t hc hmf
        rw [hsv] at hsv1
        cases hsv1
        rw [hv] at h3i
        simp only [Result.ok.injEq] at h3i
        rw [← h3i, ← hconv, ht]
    · intro hno
      have hln := lastColumn_none fields ⟨(i : Int), -1⟩ rows.columns 0
        (fun c hc => by rw [resolve_fst]; exact hno c hc)
      rw [hln] at h3i
      simp only at h3i
      rw [h3i]
      exact zeroFields_get? fields i sf hsf

/-- C2, amended, at a concrete input: a record with the exported fields
`Id` (hint `id`), `Name` and `Ok`, and a row with the columns `Name`, `id`. -/
theorem GetRowData_flat_record_witness :
    ∃ vs row, (rowsOn ["Name", "id"] [.string "x", .int64 7]).lastcols = some row ∧
      GetRowData exampleConv (rowsOn ["Name", "id"] [.string "x", .int64 7])
          (New (.struct [fld "Id" .int (some "id"), fld "Name" .string none, fld "Ok" .bool none]))
        = .ok (none, some {
            typ := .ptr (.struct [fld "Id" .int (some "id"), fld "Name" .string none,
              fld "Ok" .bool none]),
            val := .ptr (some (.struct vs)) }) ∧
      vs.length = [fld "Id" .int (some "id"), fld "Name" .string none, fld "Ok" .bool none].length ∧
      ∀ i sf, [fld "Id" .int (some "id"), fld "Name" .string none, fld "Ok" .bool none].get? i
          = some sf →
        (∀ n c sv, (rowsOn ["Name", "id"] [.string "x", .int64 7]).columns.get? n = some c →
          row.get? n = some sv →
          (firstMatch c [fld "Id" .int (some "id"), fld "Name" .string none,
            fld "Ok" .bool none]).map Prod.fst = some ⟨(i : Int), -1⟩ →
          (∀ n1 c1, n < n1 →
            (rowsOn ["Name", "id"] [.string "x", .int64 7]).columns.get? n1 = some c1 →
            (firstMatch c1 [fld "Id" .int (some "id"), fld "Name" .string none,
              fld "Ok" .bool none]).map Prod.fst ≠ some ⟨(i : Int), -1⟩) →
          exampleConv sf.Typ sv = .ok (vs.getD i .nil)) ∧
        ((∀ c ∈ (rowsOn ["Name", "id"] [.string "x", .int64 7]).columns,
            (firstMatch c [fld "Id" .int (some "id"), fld "Name" .string none,
              fld "Ok" .bool none]).map Prod.fst ≠ some ⟨(i : Int), -1⟩) →
          vs.get? i = some (zero sf.Typ)) :=
  GetRowData_flat_record exampleConv (rowsOn ["Name", "id"] [.string "x", .int64 7])
    [fld "Id" .int (some "id"), fld "Name" .string none, fld "Ok" .bool none]
    [some { typ := .ptr .string, val := .ptr (some (.str "x")) },
     some { typ := .ptr .int, val := .ptr (some (.int 7)) }]
    (by decide) (by rfl)
    (by
      intro c hc e he
      have h1 : firstMatch "Name" [fld "Id" .int (some "id"), fld "Name" .string none,
          fld "Ok" .bool none] = some (⟨1, -1⟩, fld "Name" .string none) := by rfl
      have h2 : firstMatch "id" [fld "Id" .int (some "id"), fld "Name" .string none,
          fld "Ok" .bool none] = some (⟨0, -1⟩, fld "Id" .int (some "id")) := by rfl
      simp only [rowsOn, List.mem_cons, List.mem_singleton, List.not_mem_nil, or_false] at hc
      rcases hc with hc | hc
      · subst hc; rw [h1] at he; cases he; rfl
      · subst hc; rw [h2] at he; cases he; rfl)

/-- C2 as stated fails at two concrete inputs. First, a flat record whose
only field `id` is unexported and a row with the column `id`: the scan
succeeds, and `GetRowData` aborts when it assigns the field instead of
returning. Second, a flat record with the field `A` and a row with the
columns `A`, `A` holding 1 and 2: the scan succeeds and column 0 is matched
to `A`, whose scanned value is 1, yet the field ends as 2. -/
theorem GetRowData_flat_record_counterexample :
    ((rowsOn ["id"] [.int64 7]).Scan exampleConv
        ((rowsOn ["id"] [.int64 7]).columns.map (holderFor [unexportedFld "id" .int none]))
      = .ok [some { typ := .ptr .int, val := .ptr (some (.int 7)) }] ∧
     GetRowData exampleConv (rowsOn ["id"] [.int64 7])
        (New (.struct [unexportedFld "id" .int none]))
      = .panic "reflect: reflect.Value.Set using value obtained using unexported field") ∧
    ((rowsOn ["A", "A"] [.int64 1, .int64 2]).Scan exampleConv
        ((rowsOn ["A", "A"] [.int64 1, .int64 2]).columns.map (holderFor [fld "A" .int none]))
      = .ok [some { typ := .ptr .int, val := .ptr (some (.int 1)) },
             some { typ := .ptr .int, val := .ptr (some (.int 2)) }] ∧
     (firstMatch "A" [fld "A" .int none]).map Prod.fst = some ⟨0, -1⟩ ∧
     exampleConv .int (.int64 1) = .ok (.int 1) ∧
     GetRowData exampleConv (rowsOn ["A", "A"] [.int64 1, .int64 2])
        (New (.struct [fld "A" .int none]))
      = .ok (none, some { typ := .ptr (.struct [fld "A" .int none]),
                          val := .ptr (some (.struct [.int 2])) })) :=
  ⟨⟨by rfl, by rfl⟩, by rfl, by rfl, by rfl, by rfl⟩

/-! ## GetDataFromDb -/

theorem sliceLoop_all (conv : Conv) (elemType : GoType) :
    ∀ (pending : List (List DriverValue)) (rows : Rows) (fuel : Nat) (acc vs : List GoValue),
      rows.closed = false → rows.pending = pending → pending.length < fuel →
      vs.length = pending.length →
      (∀ k, k < pending.length → GetRowData conv (cursorAt rows k) (New elemType)
        = .ok (none, some { typ := .ptr elemType, val := .ptr (some (vs.getD k .nil)) })) →
      (sliceLoop conv elemType fuel rows (some (.list acc))).1
        = .ok (none, some (.list (acc ++ vs))) := by
  intro pending
  induction pending with
  | nil =>
    intro rows fuel acc vs hcl hp hf hlen _
    cases fuel with
    | zero => simp at hf
    | succ f =>
      have hvs : vs = [] := List.length_eq_zero.1 hlen
      subst hvs
      simp [sliceLoop, Rows.Next, hcl, hp]
  | cons r rest ih =>
    intro rows fuel acc vs hcl hp hf hlen hdec
    cases fuel with
    | zero => simp at hf
    | succ f =>
      cases vs with
      | nil => simp at hlen
      | cons v vs1 =>
        have h0 := hdec 0 (by simp)
        have hc0 : cursorAt rows 0 = { rows with pending := rest, lastcols := some r } := by
          simp [cursorAt, hp]
        rw [hc0] at h0
        simp only [List.getD_cons_zero] at h0
        have hstep := ih { rows with pending := rest, lastcols := some r } f (acc ++ [v]) vs1
          hcl rfl (by simp only [List.length_cons] at hf; omega)
          (by simpa using hlen)
          (fun k hk => by
            have := hdec (k + 1) (by simp only [List.length_cons]; omega)
            have hck : cursorAt rows (k + 1)
                = cursorAt { rows with pending := rest, lastcols := some r } k := by
              simp [cursorAt, hp]
            rw [hck] at this
            simpa using this)
        have hnext : rows.Next = (true, { rows with pending := rest, lastcols := some r }) := by
          simp [Rows.Next, hcl, hp]
        simp only [sliceLoop, hnext, h0]
        simpa using hstep

/-- C4. For every pointer-to-slice destination with initial contents `s0`
and every cursor returned by the query that yields N rows which all decode
successfully (each into a fresh zero element), `GetDataFromDb` returns no
error and leaves the destination equal to `s0` followed by the N decoded
records in cursor order; so its length grows by N, an empty destination
ends with length N, and with N = 0 the destination is unchanged. -/
theorem GetDataFromDb_slice_appends (B : Backend) (w w1 : World) (db : Nat) (sqlCmd : String)
    (args : List DriverValue) (rows : Rows) (elemType : GoType) (s0 vs : List GoValue)
    (hq : dbQuery B w db sqlCmd args = (.ok (.ok rows), w1))
    (hN : vs.length = rows.yields.length)
    (hdec : ∀ k, k < rows.yields.length →
      GetRowData B.conv (cursorAt rows k) (New elemType)
        = .ok (none, some { typ := .ptr elemType, val := .ptr (some (vs.getD k .nil)) })) :
    (GetDataFromDb B w db
        (some { typ := .ptr (.slice elemType), val := .ptr (some (.list s0)) }) sqlCmd args).result
      = .ok (none, some { typ := .ptr (.slice elemType), val := .ptr (some (.list (s0 ++ vs))) }) ∧
    (s0 ++ vs).length = s0.length + rows.yields.length ∧
    (s0 = [] → (s0 ++ vs).length = rows.yields.length) ∧
    (rows.yields = [] → s0 ++ vs = s0) := by
  refine ⟨?_, by simp [hN], by intro h; simp [h, hN], ?_⟩
  · simp only [GetDataFromDb, hq, fetchRows, destElemType, TypeOf, Option.map_some',
      GoType.Elem]
    cases hcl : rows.closed with
    | true =>
      have hvs : vs = [] := List.length_eq_zero.1 (by simpa [Rows.yields, hcl] using hN)
      subst hvs
      simp [sliceLoop, Rows.Next, hcl]
    | false =>
      have hy : rows.yields = rows.pending := by simp [Rows.yields, hcl]
      rw [hy] at hN hdec
      have h := sliceLoop_all B.conv elemType rows.pending rows (rows.pending.length + 1) s0 vs
        hcl rfl (by omega) hN hdec
      cases hs : sliceLoop B.conv elemType (rows.pending.length + 1) rows (some (.list s0)) with
      | mk r rows1 =>
        rw [hs] at h
        simp only at h
        subst h
        rfl
  · intro h
    have hvs : vs = [] := List.length_eq_zero.1 (by simpa [h] using hN)
    simp [hvs]

/-- C4 at a concrete input: the query of the example database that yields
the rows (1, a) and (2, b), fetched into a slice that already holds one
record. -/
theorem GetDataFromDb_slice_appends_witness :
    (GetDataFromDb exampleBackend exampleWorld 0
        (some ⟨.ptr (.slice exampleRecord), .ptr (some (.list exampleInitial))⟩)
        "SELECT id, Name FROM t" []).result
      = .ok (none, some ⟨.ptr (.slice exampleRecord),
          .ptr (some (.list (exampleInitial ++ exampleDecoded)))⟩) ∧
    (exampleInitial ++ exampleDecoded).length
      = exampleInitial.length + (exampleCursor exampleRows).yields.length ∧
    (exampleInitial = [] →
      (exampleInitial ++ exampleDecoded).length = (exampleCursor exampleRows).yields.length) ∧
    ((exampleCursor exampleRows).yields = [] → exampleInitial ++ exampleDecoded = exampleInitial) :=
  GetDataFromDb_slice_appends exampleBackend exampleWorld
    (exampleWorld.call 0 (.Query "SELECT id, Name FROM t" [])) 0 "SELECT id, Name FROM t" []
    (exampleCursor exampleRows) exampleRecord exampleInitial exampleDecoded
    (by rfl) (by rfl)
    (by
      intro k hk
      have hk2 : k < 2 := hk
      interval_cases k <;> rfl)

theorem GetRowData_pending (conv : Conv) (rs : Rows) (p : List (List DriverValue)) (dest : Any) :
    GetRowData conv { rs with pending := p } dest = GetRowData conv rs dest := rfl

/-- C5. For every pointer-to-record destination and every query that
returns a cursor: when the cursor yields no row, `GetDataFromDb` returns no
error and the destination is as before the call; when it yields at least one
row, the outcome is that of `GetRowData` on the first row alone, whatever
rows follow. -/
theorem GetDataFromDb_record_first_row (B : Backend) (w w1 : World) (db : Nat)
    (sqlCmd : String) (args : List DriverValue) (rows : Rows)
    (fields : List (StructField GoType)) (target : Option GoValue)
    (hq : dbQuery B w db sqlCmd args = (.ok (.ok rows), w1)) :
    (rows.yields = [] →
      (GetDataFromDb B w db (some ⟨.ptr (.struct fields), .ptr target⟩) sqlCmd args).result
        = .ok (none, some ⟨.ptr (.struct fields), .ptr target⟩)) ∧
    (∀ r rest, rows.yields = r :: rest →
      (GetDataFromDb B w db (some ⟨.ptr (.struct fields), .ptr target⟩) sqlCmd args).result
        = GetRowData B.conv { rows with pending := [], lastcols := some r }
            (some ⟨.ptr (.struct fields), .ptr target⟩)) := by
  constructor
  · intro hy
    simp only [GetDataFromDb, hq, fetchRows, destElemType, TypeOf, Option.map_some',
      GoType.Elem]
    cases hcl : rows.closed with
    | true => simp [Rows.Next, hcl]
    | false =>
      have hp : rows.pending = [] := by simpa [Rows.yields, hcl] using hy
      simp [Rows.Next, hcl, hp]
  · intro r rest hy
    simp only [GetDataFromDb, hq, fetchRows, destElemType, TypeOf, Option.map_some',
      GoType.Elem]
    have hcl : rows.closed = false := by
      cases h : rows.closed with
      | true => simp [Rows.yields, h] at hy
      | false => rfl
    have hp : rows.pending = r :: rest := by simpa [Rows.yields, hcl] using hy
    have hnext : rows.Next = (true, { rows with pending := rest, lastcols := some r }) := by
      simp [Rows.Next, hcl, hp]
    simp only [hnext]
    rfl

/-- C5 at a concrete input: the example queries, one without rows and one
with two, fetched into a record that holds (9, z). -/
theorem GetDataFromDb_record_first_row_witness :
    (((exampleCursor []).yields = [] →
      (GetDataFromDb exampleBackend exampleWorld 0
          (some ⟨.ptr exampleRecord, .ptr (some (.struct [.int 9, .str "z"]))⟩)
          "SELECT id, Name FROM empty" []).result
        = .ok (none, some ⟨.ptr exampleRecord, .ptr (some (.struct [.int 9, .str "z"]))⟩)) ∧
     (∀ r rest, (exampleCursor []).yields = r :: rest →
      (GetDataFromDb exampleBackend exampleWorld 0
          (some ⟨.ptr exampleRecord, .ptr (some (.struct [.int 9, .str "z"]))⟩)
          "SELECT id, Name FROM empty" []).result
        = GetRowData exampleBackend.conv
            { exampleCursor [] with pending := [], lastcols := some r }
            (some ⟨.ptr exampleRecord, .ptr (some (.struct [.int 9, .str "z"]))⟩))) ∧
    (GetDataFromDb exampleBackend exampleWorld 0
        (some ⟨.ptr exampleRecord, .ptr (some (.struct [.int 9, .str "z"]))⟩)
        "SELECT id, Name FROM empty" []).result
      = .ok (none, some ⟨.ptr exampleRecord, .ptr (some (.struct [.int 9, .str "z"]))⟩) ∧
    (GetDataFromDb exampleBackend exampleWorld 0
        (some ⟨.ptr exampleRecord, .ptr (some (.struct [.int 9, .str "z"]))⟩)
        "SELECT id, Name FROM t" []).result
      = .ok (none, some ⟨.ptr exampleRecord, .ptr (some (.struct [.int 1, .str "a"]))⟩) :=
  ⟨GetDataFromDb_record_first_row exampleBackend exampleWorld
      (exampleWorld.call 0 (.Query "SELECT id, Name FROM empty" [])) 0
      "SELECT id, Name FROM empty" [] (exampleCursor [])
      [fld "Id" .int (some "id"), fld "Name" .string none] (some (.struct [.int 9, .str "z"]))
      (by rfl),
   by rfl, by rfl⟩

/-- C6, amended. For every query that returns a cursor and every
destination whose type has an element type (a pointer, or a slice, array,
map or channel passed by value) that is neither a record nor a growable
sequence, `GetDataFromDb` returns the error
"Type Error: expected Slice or Struct!" as an error value, and the
destination is as before the call. -/
theorem GetDataFromDb_other_shape (B : Backend) (w w1 : World) (db : Nat) (dest : Any)
    (sqlCmd : String) (args : List DriverValue) (rows : Rows) (t : GoType)
    (hq : dbQuery B w db sqlCmd args = (.ok (.ok rows), w1))
    (ht : destElemType dest = .ok t)
    (h1 : t.Kind ≠ Kind.Slice) (h2 : t.Kind ≠ Kind.Struct) :
    (GetDataFromDb B w db dest sqlCmd args).result
      = .ok (some (.msg "Type Error: expected Slice or Struct!"), dest) := by
  simp only [GetDataFromDb, hq, fetchRows, ht]
  cases t <;> first | rfl | exact absurd rfl h1 | exact absurd rfl h2

/-- C6, amended, at a concrete input: a pointer to an integer and the
example query. -/
theorem GetDataFromDb_other_shape_witness :
    (GetDataFromDb exampleBackend exampleWorld 0 (some ⟨.ptr .int, .ptr (some (.int 5))⟩)
        "SELECT id, Name FROM t" []).result
      = .ok (some (.msg "Type Error: expected Slice or Struct!"),
          some ⟨.ptr .int, .ptr (some (.int 5))⟩) :=
  GetDataFromDb_other_shape exampleBackend exampleWorld
    (exampleWorld.call 0 (.Query "SELECT id, Name FROM t" [])) 0
    (some ⟨.ptr .int, .ptr (some (.int 5))⟩) "SELECT id, Name FROM t" []
    (exampleCursor exampleRows) .int (by rfl) (by rfl) (by decide) (by decide)

/-- C6 as stated fails at two concrete inputs. A record passed by value is
neither a pointer to a record nor a sequence, and `GetDataFromDb` aborts
with a panic instead of returning the type error. A pointer to an integer
with a query that fails gets the error of the query, not the type error. -/
theorem GetDataFromDb_other_shape_counterexample :
    (GetDataFromDb exampleBackend exampleWorld 0
        (some ⟨exampleRecord, .struct [.int 9, .str "z"]⟩) "SELECT id, Name FROM t" []).result
      = .panic "reflect: Elem of invalid type" ∧
    (GetDataFromDb exampleBackend exampleWorld 0
        (some ⟨.ptr .int, .ptr (some (.int 5))⟩) "SELECT id FROM missing" []).result
      = .ok (some (.msg "Error 1146: Table doesn't exist"),
          some ⟨.ptr .int, .ptr (some (.int 5))⟩) :=
  ⟨by rfl, by rfl⟩

/-! ## Destinations that are not records -/

theorem Fields_non_struct (t : GoType) (h : t.Kind ≠ Kind.Struct) :
    t.Fields = .panic "reflect: NumField of non-struct type" := by
  cases t <;> first | rfl | exact absurd rfl h

/-- C7, amended. `GetRowData` does not check the shape of its destination:
when the element type of the destination is not a record (a pointer to an
integer or string, say) and the open cursor has at least one column, it
aborts with the panic "reflect: NumField of non-struct type" instead of
returning an error. Consequently `GetDataFromDb` into a pointer to a
sequence whose element type is not a record, over a cursor that yields at
least one row and has at least one column, aborts with that panic. -/
theorem GetRowData_non_record_aborts (conv : Conv) (rows : Rows) (dest : Any) (t : GoType)
    (ht : destElemType dest = .ok t) (hk : t.Kind ≠ Kind.Struct)
    (hopen : rows.closed = false) (hcols : rows.columns ≠ []) :
    GetRowData conv rows dest = .panic "reflect: NumField of non-struct type" ∧
    (∀ (B : Backend) (w w1 : World) (db : Nat) (sqlCmd : String) (args : List DriverValue)
      (target : Option GoValue),
      dbQuery B w db sqlCmd args = (.ok (.ok rows), w1) → rows.pending ≠ [] →
      (GetDataFromDb B w db (some ⟨.ptr (.slice t), .ptr target⟩) sqlCmd args).result
        = .panic "reflect: NumField of non-struct type") := by
  have hmap : ∀ n m ri, mapColumns t rows.columns n m ri
      = .panic "reflect: NumField of non-struct type" := by
    intro n m ri
    cases hc : rows.columns with
    | nil => exact absurd hc hcols
    | cons c rest => simp [mapColumns, matchColumn, Fields_non_struct t hk]
  have hrow : ∀ (rs : Rows) (d : Any), rs.closed = false → rs.columns = rows.columns →
      destElemType d = .ok t →
      GetRowData conv rs d = .panic "reflect: NumField of non-struct type" := by
    intro rs d h1 h2 h3
    simp [GetRowData, Rows.Columns, h1, h2, h3, hmap]
  refine ⟨hrow rows dest hopen rfl ht, ?_⟩
  intro B w w1 db sqlCmd args target hq hp
  cases hpe : rows.pending with
  | nil => exact absurd hpe hp
  | cons r rest =>
    have hnext : rows.Next = (true, { rows with pending := rest, lastcols := some r }) := by
      simp [Rows.Next, hopen, hpe]
    have hrd : GetRowData B.conv { rows with pending := rest, lastcols := some r } (New t)
        = .panic "reflect: NumField of non-struct type" := by
      have hmapB : ∀ n m ri, mapColumns t rows.columns n m ri
          = .panic "reflect: NumField of non-struct type" := hmap
      simp [GetRowData, Rows.Columns, hopen, destElemType, TypeOf, New, GoType.Elem, hmapB]
    simp only [GetDataFromDb, hq, fetchRows, destElemType, TypeOf, Option.map_some',
      GoType.Elem, hpe, List.length_cons, sliceLoop, hnext, hrd]

/-- C7, amended, at a concrete input: a pointer to an integer as the
destination of a row with the column `id`. -/
theorem GetRowData_non_record_aborts_witness :
    GetRowData exampleConv (rowsOn ["id"] [.int64 7]) (New .int)
      = .panic "reflect: NumField of non-struct type" ∧
    (∀ (B : Backend) (w w1 : World) (db : Nat) (sqlCmd : String) (args : List DriverValue)
      (target : Option GoValue),
      dbQuery B w db sqlCmd args = (.ok (.ok (rowsOn ["id"] [.int64 7])), w1) →
      (rowsOn ["id"] [.int64 7]).pending ≠ [] →
      (GetDataFromDb B w db (some ⟨.ptr (.slice .int), .ptr target⟩) sqlCmd args).result
        = .panic "reflect: NumField of non-struct type") :=
  GetRowData_non_record_aborts exampleConv (rowsOn ["id"] [.int64 7]) (New .int) .int
    (by rfl) (by decide) (by rfl) (by decide)

/-- C7 as stated fails: `GetRowData` into a pointer to an integer, and
`GetDataFromDb` into a pointer to a sequence of integers over the example
query with two rows, abort with a panic; neither returns an error. -/
theorem GetRowData_non_record_counterexample :
    GetRowData exampleConv (rowsOn ["id"] [.int64 7]) (some ⟨.ptr .int, .ptr (some (.int 0))⟩)
      = .panic "reflect: NumField of non-struct type" ∧
    (GetDataFromDb exampleBackend exampleWorld 0
        (some ⟨.ptr (.slice .int), .ptr (some (.list []))⟩) "SELECT id, Name FROM t" []).result
      = .panic "reflect: NumField of non-struct type" :=
  ⟨by rfl, by rfl⟩

/-! ## The registry -/

theorem GetDataFromDb_world (B : Backend) (w : World) (db : Nat) (dest : Any) (sqlCmd : String)
    (args : List DriverValue) :
    (GetDataFromDb B w db dest sqlCmd args).world = (dbQuery B w db sqlCmd args).2 := by
  rcases h : dbQuery B w db sqlCmd args with ⟨r, w1⟩
  rcases r with (_ | _) | _ <;> simp [GetDataFromDb, h]

/-- C8. For every registry state and every tag that is not registered,
`Query` and `Exec` each return the error "Cannot find db with tag[<tag>]"
(`Exec` with a nil result); the world, and with it the calls recorded on
every handle, is as before, so no primitive was invoked, and the destination
is as before. Neither method returns or changes the registry. For a
registered tag, `Query` is `GetDataFromDb` on that handle and `Exec` the
`Exec` primitive of that handle; when the handle exists, exactly one call is
recorded, on that handle, and every other handle is as before. -/
theorem Query_Exec_by_tag (B : Backend) (s : mgr) (w : World) (dest : Any) (tag : String)
    (sqlCmd : String) (args : List DriverValue) :
    (Load s.clients tag = none →
      (mgr.Query B s w dest tag sqlCmd args).result
        = .ok (some (.msg ("Cannot find db with tag[" ++ tag ++ "]")), dest) ∧
      (mgr.Query B s w dest tag sqlCmd args).world = w ∧
      (mgr.Query B s w dest tag sqlCmd args).cursor = none ∧
      mgr.Exec B s w tag sqlCmd args
        = (.ok (none, some (.msg ("Cannot find db with tag[" ++ tag ++ "]"))), w)) ∧
    (∀ db, Load s.clients tag = some db →
      mgr.Query B s w dest tag sqlCmd args = GetDataFromDb B w db dest sqlCmd args ∧
      (mgr.Exec B s w tag sqlCmd args).1
        = (match (dbExec B w db sqlCmd args).1 with
           | .panic t => .panic t
           | .ok (.ok res) => .ok (some res, none)
           | .ok (.error err) => .ok (none, some err)) ∧
      (db < w.handles.length →
        (mgr.Query B s w dest tag sqlCmd args).world = w.call db (.Query sqlCmd args) ∧
        (mgr.Exec B s w tag sqlCmd args).2 = w.call db (.Exec sqlCmd args) ∧
        ∀ other, other ≠ db →
          (mgr.Query B s w dest tag sqlCmd args).world.handles.get? other = w.handles.get? other ∧
          (mgr.Exec B s w tag sqlCmd args).2.handles.get? other = w.handles.get? other)) := by
  constructor
  · intro h
    simp [mgr.Query, mgr.Exec, h]
  · intro db h
    have hq : mgr.Query B s w dest tag sqlCmd args = GetDataFromDb B w db dest sqlCmd args := by
      simp [mgr.Query, h]
    have he : mgr.Exec B s w tag sqlCmd args
        = (match dbExec B w db sqlCmd args with
           | (.panic t, w1) => (.panic t, w1)
           | (.ok (.ok res), w1) => (.ok (some res, none), w1)
           | (.ok (.error err), w1) => (.ok (none, some err), w1)) := by
      simp [mgr.Exec, h]
    refine ⟨hq, ?_, ?_⟩
    · rw [he]
      rcases hx : dbExec B w db sqlCmd args with ⟨r, w1⟩
      rcases r with (_ | _) | _ <;> rfl
    · intro hlt
      obtain ⟨hnd, hget⟩ : ∃ hnd, w.handles[db]? = some hnd :=
        ⟨w.handles[db], by simp [List.getElem?_eq_getElem hlt]⟩
      have hqw : (mgr.Query B s w dest tag sqlCmd args).world = w.call db (.Query sqlCmd args) := by
        rw [hq, GetDataFromDb_world]
        simp [dbQuery, hget]
      have hew : (mgr.Exec B s w tag sqlCmd args).2 = w.call db (.Exec sqlCmd args) := by
        rw [he]
        rcases hx : dbExec B w db sqlCmd args with ⟨r, w1⟩
        have hw1 : w1 = w.call db (.Exec sqlCmd args) := by
          have := congrArg Prod.snd hx
          simpa [dbExec, hget] using this.symm
        rcases r with (_ | _) | _ <;> simp [hw1]
      refine ⟨hqw, hew, ?_⟩
      intro other hne
      rw [hqw, hew]
      have hne1 : db ≠ other := fun h => hne h.symm
      simp [World.call, List.get?_eq_getElem?, List.getElem?_modify_ne _ _ hne1]

/-- C8 at a concrete input: the tag `t9` is not registered in the example
registry, and `t2` is registered on handle 1. -/
theorem Query_Exec_by_tag_witness :
    ((mgr.Query exampleBackend exampleMgr exampleWorld2
        (some ⟨.ptr exampleRecord, .ptr (some (.struct [.int 9, .str "z"]))⟩)
        "t9" "SELECT id, Name FROM t" []).result
      = .ok (some (.msg "Cannot find db with tag[t9]"),
          some ⟨.ptr exampleRecord, .ptr (some (.struct [.int 9, .str "z"]))⟩) ∧
     (mgr.Query exampleBackend exampleMgr exampleWorld2
        (some ⟨.ptr exampleRecord, .ptr (some (.struct [.int 9, .str "z"]))⟩)
        "t9" "SELECT id, Name FROM t" []).world = exampleWorld2 ∧
     (mgr.Query exampleBackend exampleMgr exampleWorld2
        (some ⟨.ptr exampleRecord, .ptr (some (.struct [.int 9, .str "z"]))⟩)
        "t9" "SELECT id, Name FROM t" []).cursor = none ∧
     mgr.Exec exampleBackend exampleMgr exampleWorld2 "t9" "DELETE FROM t" []
      = (.ok (none, some (.msg "Cannot find db with tag[t9]")), exampleWorld2)) ∧
    (mgr.Query exampleBackend exampleMgr exampleWorld2
        (some ⟨.ptr exampleRecord, .ptr (some (.struct [.int 9, .str "z"]))⟩)
        "t2" "SELECT id, Name FROM t" []).world
      = exampleWorld2.call 1 (.Query "SELECT id, Name FROM t" []) :=
  ⟨by
    have h := (Query_Exec_by_tag exampleBackend exampleMgr exampleWorld2
      (some ⟨.ptr exampleRecord, .ptr (some (.struct [.int 9, .str "z"]))⟩)
      "t9" "SELECT id, Name FROM t" []).1 (by rfl)
    have h2 := (Query_Exec_by_tag exampleBackend exampleMgr exampleWorld2 none
      "t9" "DELETE FROM t" []).1 (by rfl)
    exact ⟨h.1, h.2.1, h.2.2.1, h2.2.2.2⟩,
   ((Query_Exec_by_tag exampleBackend exampleMgr exampleWorld2
      (some ⟨.ptr exampleRecord, .ptr (some (.struct [.int 9, .str "z"]))⟩)
      "t2" "SELECT id, Name FROM t" []).2 1 (by rfl)).2.2 (by decide) |>.1⟩

theorem Load_Store (clients : List (String × Nat)) (tag tag1 : String) (db : Nat) :
    Load (Store clients tag db) tag1 = if tag1 = tag then some db else Load clients tag1 := by
  unfold Load Store
  by_cases h : tag1 = tag
  · subst h; simp [List.lookup]
  · have hb : (tag1 == tag) = false := by simpa using h
    simp only [List.lookup, hb, h, if_false]
    induction clients with
    | nil => rfl
    | cons e rest ih =>
      obtain ⟨k, v⟩ := e
      by_cases hk : k = tag
      · subst hk
        simp [List.filter, List.lookup, hb, ih]
      · have hk1 : (k != tag) = true := by simpa using hk
        simp only [List.filter, hk1, List.lookup]
        cases hq : (tag1 == k) <;> simp [ih]

theorem modify_append_last {α : Type} (f : α → α) (l : List α) (a : α) :
    (l ++ [a]).modify f l.length = l ++ [f a] := by
  induction l with
  | nil => rfl
  | cons x rest ih => simp [ih]

theorem call_new_handle (hs : List DB) (d : Option Nat) (h : DB) (c : DBCall)
    (hc : (c == DBCall.Close) = false) :
    ({ handles := hs ++ [h], dial := d } : World).call hs.length c
      = { handles := hs ++ [{ h with calls := h.calls ++ [c] }], dial := d } := by
  simp [World.call, modify_append_last, hc]

theorem Init_cons_ok (B : Backend) (dailer : Option Nat) (cfg : DbConfig)
    (rest : List DbConfig) (s : mgr) (w : World) (h : configError B cfg = none) :
    mgr.Init B dailer (cfg :: rest) s w
      = mgr.Init B dailer rest { clients := Store s.clients cfg.Tag w.handles.length }
          (initWorld dailer cfg w) := by
  unfold configError at h
  rcases hd : getDataSourceName cfg with ⟨dsn, e⟩
  rw [hd] at h
  cases e with
  | some err => simp at h
  | none =>
    simp only at h
    have hw : ∀ w0 : World, w0.handles = w.handles →
        (match sqlOpen B w0 cfg.DbType dsn with
          | .error err => (some err, s, w0)
          | .ok (db, w2) =>
            mgr.Init B dailer rest { clients := Store s.clients cfg.Tag db }
              (((if cfg.MaxOpenConns > 0 then w2.call db (.SetMaxOpenConns cfg.MaxOpenConns)
                  else w2).call db (.SetMaxIdleConns cfg.MaxIdleConns)).call db
                (.SetConnMaxLifetime (5 * Minute))))
        = mgr.Init B dailer rest { clients := Store s.clients cfg.Tag w.handles.length }
            { handles := w.handles ++ [initHandle cfg], dial := w0.dial } := by
      intro w0 hw0
      simp only [sqlOpen, h, hw0]
      congr 1
      by_cases hm : cfg.MaxOpenConns > 0
      · simp only [hm, if_true]
        rw [call_new_handle _ _ _ _ (by simp), call_new_handle _ _ _ _ (by simp),
          call_new_handle _ _ _ _ (by simp)]
        simp [initHandle, initCalls, hm, hd]
      · simp only [hm, if_false]
        rw [call_new_handle _ _ _ _ (by simp), call_new_handle _ _ _ _ (by simp)]
        simp [initHandle, initCalls, hm, hd]
    cases dailer with
    | none =>
      simp only [mgr.Init, hd]
      exact hw w rfl
    | some d =>
      simp only [mgr.Init, hd, RegistDialer]
      exact hw { w with dial := some d } rfl

theorem Init_cons_fail (B : Backend) (dailer : Option Nat) (cfg : DbConfig)
    (rest : List DbConfig) (s : mgr) (w : World) (e : Err) (h : configError B cfg = some e) :
    ∃ w1, mgr.Init B dailer (cfg :: rest) s w = (some e, s, w1) ∧ w1.handles = w.handles := by
  unfold configError at h
  rcases hd : getDataSourceName cfg with ⟨dsn, e1⟩
  rw [hd] at h
  cases e1 with
  | some err =>
    simp only [Option.some.injEq] at h
    subst h
    exact ⟨w, by simp [mgr.Init, hd], rfl⟩
  | none =>
    simp only at h
    cases dailer with
    | none => exact ⟨w, by simp [mgr.Init, hd, sqlOpen, h], rfl⟩
    | some d =>
      exact ⟨{ w with dial := some d }, by simp [mgr.Init, hd, sqlOpen, h, RegistDialer], rfl⟩

theorem Init_all_ok (B : Backend) (dailer : Option Nat) :
    ∀ (cfgs : List DbConfig) (s : mgr) (w : World),
      (∀ c ∈ cfgs, configError B c = none) →
      ∃ s1 w1, mgr.Init B dailer cfgs s w = (none, s1, w1) ∧
        w1.handles = w.handles ++ cfgs.map initHandle ∧
        ∀ tag, Load s1.clients tag =
          match lastConfig tag cfgs w.handles.length with
          | some p => some p
          | none => Load s.clients tag := by
  intro cfgs
  induction cfgs with
  | nil =>
    intro s w _
    exact ⟨s, w, rfl, by simp, fun tag => by simp [lastConfig]⟩
  | cons cfg rest ih =>
    intro s w h
    obtain ⟨s1, w1, h1, h2, h3⟩ :=
      ih { clients := Store s.clients cfg.Tag w.handles.length } (initWorld dailer cfg w)
        (fun c hc => h c (List.mem_cons_of_mem _ hc))
    refine ⟨s1, w1, ?_, ?_, ?_⟩
    · rw [Init_cons_ok B dailer cfg rest s w (h cfg (List.mem_cons_self _ _)), h1]
    · rw [h2]; simp [initWorld]
    · intro tag
      rw [h3 tag]
      simp only [initWorld, List.length_append, List.length_singleton, lastConfig, Load_Store]
      cases lastConfig tag rest (w.handles.length + 1) with
      | some p => rfl
      | none =>
        by_cases ht : tag = cfg.Tag
        · subst ht; simp
        · have : ¬ cfg.Tag = tag := fun h => ht h.symm
          simp [ht, this]

theorem Init_append_fail (B : Backend) (dailer : Option Nat) (e : Err) (ck : DbConfig)
    (post : List DbConfig) (hk : configError B ck = some e) :
    ∀ (pre : List DbConfig) (s : mgr) (w : World),
      (∀ c ∈ pre, configError B c = none) →
      ∃ w2, mgr.Init B dailer (pre ++ ck :: post) s w
          = (some e, (mgr.Init B dailer pre s w).2.1, w2) ∧
        w2.handles = (mgr.Init B dailer pre s w).2.2.handles := by
  intro pre
  induction pre with
  | nil =>
    intro s w _
    obtain ⟨w1, h1, h2⟩ := Init_cons_fail B dailer ck post s w e hk
    exact ⟨w1, by simpa [mgr.Init] using h1, by simpa [mgr.Init] using h2⟩
  | cons cfg rest ih =>
    intro s w h
    have hc := h cfg (List.mem_cons_self _ _)
    obtain ⟨w2, h1, h2⟩ :=
      ih { clients := Store s.clients cfg.Tag w.handles.length } (initWorld dailer cfg w)
        (fun c hc => h c (List.mem_cons_of_mem _ hc))
    refine ⟨w2, ?_, ?_⟩
    · rw [List.cons_append, Init_cons_ok B dailer cfg _ s w hc, h1,
        Init_cons_ok B dailer cfg rest s w hc]
    · rw [h2, Init_cons_ok B dailer cfg rest s w hc]

theorem lastConfig_none (tag : String) :
    ∀ (cfgs : List DbConfig) (n : Nat), (∀ c ∈ cfgs, c.Tag ≠ tag) →
      lastConfig tag cfgs n = none := by
  intro cfgs
  induction cfgs with
  | nil => intro n _; rfl
  | cons c rest ih =>
    intro n h
    have h1 := ih (n + 1) (fun x hx => h x (List.mem_cons_of_mem _ hx))
    have h2 := h c (List.mem_cons_self _ _)
    simp [lastConfig, h1, h2]

theorem lastConfig_last (tag : String) :
    ∀ (cfgs : List DbConfig) (n k : Nat) (c : DbConfig), cfgs.get? k = some c → c.Tag = tag →
      (∀ k1 c1, k < k1 → cfgs.get? k1 = some c1 → c1.Tag ≠ tag) →
      lastConfig tag cfgs n = some (n + k) := by
  intro cfgs
  induction cfgs with
  | nil => intro n k c h; simp at h
  | cons c0 rest ih =>
    intro n k c hk ht hlast
    cases k with
    | zero =>
      simp only [List.get?_cons_zero, Option.some.injEq] at hk
      subst hk
      have hnone : lastConfig tag rest (n + 1) = none := by
        apply lastConfig_none
        intro x hx
        obtain ⟨k1, hk1⟩ := List.get?_of_mem hx
        exact hlast (k1 + 1) x (by omega) (by simpa using hk1)
      simp [lastConfig, hnone, ht]
    | succ k0 =>
      simp only [List.get?_cons_succ] at hk
      have := ih (n + 1) k0 c hk ht (fun k1 c1 hlt hc1 =>
        hlast (k1 + 1) c1 (by omega) (by simpa using hc1))
      simp only [lastConfig, this]
      congr 1
      omega

theorem lastConfig_some (tag : String) :
    ∀ (cfgs : List DbConfig) (n p : Nat), lastConfig tag cfgs n = some p →
      ∃ k c, p = n + k ∧ cfgs.get? k = some c ∧ c.Tag = tag := by
  intro cfgs
  induction cfgs with
  | nil => intro n p h; simp [lastConfig] at h
  | cons c0 rest ih =>
    intro n p h
    simp only [lastConfig] at h
    cases hr : lastConfig tag rest (n + 1) with
    | some q =>
      rw [hr] at h
      simp only [Option.some.injEq] at h
      subst h
      obtain ⟨k, c, h1, h2, h3⟩ := ih (n + 1) q hr
      exact ⟨k + 1, c, by omega, by simpa using h2, h3⟩
    | none =>
      rw [hr] at h
      by_cases ht : c0.Tag = tag
      · simp only [ht, if_true, Option.some.injEq] at h
        exact ⟨0, c0, by omega, by simp, ht⟩
      · simp [ht] at h

theorem lastConfig_of_mem (tag : String) :
    ∀ (cfgs : List DbConfig) (n : Nat), (∃ c ∈ cfgs, c.Tag = tag) →
      ∃ p, lastConfig tag cfgs n = some p := by
  intro cfgs n h
  cases hl : lastConfig tag cfgs n with
  | some p => exact ⟨p, rfl⟩
  | none =>
    exfalso
    obtain ⟨c, hc, ht⟩ := h
    induction cfgs generalizing n with
    | nil => cases hc
    | cons c0 rest ih =>
      simp only [lastConfig] at hl
      cases hr : lastConfig tag rest (n + 1) with
      | some q => simp [hr] at hl
      | none =>
        rw [hr] at hl
        rcases List.mem_cons.1 hc with h1 | h1
        · subst h1; simp [ht] at hl
        · exact ih (n + 1) hr h1

theorem handles_get?_new (hs : List DB) (cfgs : List DbConfig) (k : Nat) (c : DbConfig)
    (h : cfgs.get? k = some c) :
    (hs ++ cfgs.map initHandle).get? (hs.length + k) = some (initHandle c) := by
  simp only [List.get?_eq_getElem?] at h ⊢
  rw [List.getElem?_append_right (by omega)]
  simp [h]

/-- C9. If `Init` is given configurations of which `ck` is the first whose
connection-string build or open fails (those before it, `pre`, all build and
open), it returns the error of `ck`. The handles opened during the call are
one per configuration of `pre`, in order, and none for `ck` or a later
configuration. The registry is the one that `Init` over `pre` alone leaves:
every tag of `pre` is registered, on an open handle that was made from a
configuration of `pre` carrying that tag (from the last such configuration,
so from its own when no later one of `pre` repeats the tag), tags that `pre`
does not carry are as before the call, and nothing is rolled back. -/
theorem Init_fails_fast (B : Backend) (dailer : Option Nat) (pre : List DbConfig)
    (ck : DbConfig) (post : List DbConfig) (s : mgr) (w : World) (e : Err)
    (hpre : ∀ c ∈ pre, configError B c = none) (hk : configError B ck = some e) :
    (mgr.Init B dailer (pre ++ ck :: post) s w).1 = some e ∧
    (mgr.Init B dailer (pre ++ ck :: post) s w).2.2.handles
      = w.handles ++ pre.map initHandle ∧
    (mgr.Init B dailer (pre ++ ck :: post) s w).2.1 = (mgr.Init B dailer pre s w).2.1 ∧
    (∀ c ∈ pre, ∃ j cj, pre.get? j = some cj ∧ cj.Tag = c.Tag ∧
      Load (mgr.Init B dailer (pre ++ ck :: post) s w).2.1.clients c.Tag
        = some (w.handles.length + j) ∧
      (mgr.Init B dailer (pre ++ ck :: post) s w).2.2.handles.get? (w.handles.length + j)
        = some (initHandle cj) ∧ (initHandle cj).closed = false) ∧
    (∀ i c, pre.get? i = some c →
      (∀ j cj, i < j → pre.get? j = some cj → cj.Tag ≠ c.Tag) →
      Load (mgr.Init B dailer (pre ++ ck :: post) s w).2.1.clients c.Tag
        = some (w.handles.length + i)) ∧
    (∀ tag, (∀ c ∈ pre, c.Tag ≠ tag) →
      Load (mgr.Init B dailer (pre ++ ck :: post) s w).2.1.clients tag = Load s.clients tag) := by
  obtain ⟨w2, h1, h2⟩ := Init_append_fail B dailer e ck post hk pre s w hpre
  obtain ⟨s1, w1, h3, h4, h5⟩ := Init_all_ok B dailer pre s w hpre
  have hs1 : (mgr.Init B dailer pre s w).2.1 = s1 := by rw [h3]
  have hw1 : (mgr.Init B dailer pre s w).2.2 = w1 := by rw [h3]
  have hr1 : (mgr.Init B dailer (pre ++ ck :: post) s w).1 = some e := by rw [h1]
  have hr2 : (mgr.Init B dailer (pre ++ ck :: post) s w).2.1 = s1 := by rw [h1, hs1]
  have hr3 : (mgr.Init B dailer (pre ++ ck :: post) s w).2.2.handles
      = w.handles ++ pre.map initHandle := by rw [h1]; exact h2.trans (by rw [hw1, h4])
  rw [hr2, hr3, hs1]
  refine ⟨hr1, rfl, rfl, ?_, ?_, ?_⟩
  · intro c hc
    obtain ⟨p, hp⟩ := lastConfig_of_mem c.Tag pre w.handles.length ⟨c, hc, rfl⟩
    obtain ⟨j, cj, hj1, hj2, hj3⟩ := lastConfig_some c.Tag pre w.handles.length p hp
    refine ⟨j, cj, hj2, hj3, ?_, handles_get?_new w.handles pre j cj hj2, rfl⟩
    rw [h5 c.Tag, hp, hj1]
  · intro i c hi hlast
    rw [h5 c.Tag, lastConfig_last c.Tag pre w.handles.length i c hi rfl hlast]
  · intro tag hno
    rw [h5 tag, lastConfig_none tag pre w.handles.length hno]

/-- C9 at a concrete input: the configurations `t1` (mysql), `t2` (mysql),
`t3` (postgres, which the connection-string build refuses), `t4` (mysql), on
a new registry. -/
theorem Init_fails_fast_witness :
    (mgr.Init exampleBackend none
        ([exampleConfig "mysql" "t1", exampleConfig "mysql" "t2"] ++
          exampleConfig "postgres" "t3" :: [exampleConfig "mysql" "t4"])
        NewSqlDBMgr.1 exampleWorld).1 = some (.msg "expect db type [mysql]") ∧
    (mgr.Init exampleBackend none
        ([exampleConfig "mysql" "t1", exampleConfig "mysql" "t2"] ++
          exampleConfig "postgres" "t3" :: [exampleConfig "mysql" "t4"])
        NewSqlDBMgr.1 exampleWorld).2.1 = { clients := [("t2", 2), ("t1", 1)] } ∧
    (mgr.Init exampleBackend none
        ([exampleConfig "mysql" "t1", exampleConfig "mysql" "t2"] ++
          exampleConfig "postgres" "t3" :: [exampleConfig "mysql" "t4"])
        NewSqlDBMgr.1 exampleWorld).2.2.handles.length = 3 :=
  ⟨(Init_fails_fast exampleBackend none
      [exampleConfig "mysql" "t1", exampleConfig "mysql" "t2"]
      (exampleConfig "postgres" "t3") [exampleConfig "mysql" "t4"]
      NewSqlDBMgr.1 exampleWorld (.msg "expect db type [mysql]")
      (by decide) (by decide)).1,
   by decide, by decide⟩

theorem Init_ok_configs (B : Backend) (dailer : Option Nat) :
    ∀ (cfgs : List DbConfig) (s : mgr) (w : World),
      (mgr.Init B dailer cfgs s w).1 = none → ∀ c ∈ cfgs, configError B c = none := by
  intro cfgs
  induction cfgs with
  | nil => intro s w _ c hc; cases hc
  | cons cfg rest ih =>
    intro s w h c hc
    cases hce : configError B cfg with
    | some e =>
      obtain ⟨w1, h1, _⟩ := Init_cons_fail B dailer cfg rest s w e hce
      rw [h1] at h
      cases h
    | none =>
      rw [Init_cons_ok B dailer cfg rest s w hce] at h
      rcases List.mem_cons.1 hc with h1 | h1
      · rw [h1]; exact hce
      · exact ih _ _ h c h1

theorem GetDB_eq_Load (s : mgr) (tag : String) : s.GetDB tag = Load s.clients tag := by
  unfold mgr.GetDB
  cases Load s.clients tag <;> rfl

theorem tags_nodup_index :
    ∀ (cfgs : List DbConfig), (cfgs.map DbConfig.Tag).Nodup →
      ∀ i j ci cj, cfgs.get? i = some ci → cfgs.get? j = some cj → ci.Tag = cj.Tag → i = j := by
  intro cfgs
  induction cfgs with
  | nil => intro _ i j ci cj h; simp at h
  | cons c rest ih =>
    intro hnd i j ci cj hi hj ht
    simp only [List.map_cons, List.nodup_cons] at hnd
    cases i with
    | zero =>
      cases j with
      | zero => rfl
      | succ j0 =>
        exfalso
        simp only [List.get?_cons_zero, Option.some.injEq, List.get?_cons_succ] at hi hj
        subst hi
        exact hnd.1 (List.mem_map.2 ⟨cj, List.mem_iff_get?.2 ⟨j0, hj⟩, ht.symm⟩)
    | succ i0 =>
      cases j with
      | zero =>
        exfalso
        simp only [List.get?_cons_zero, Option.some.injEq, List.get?_cons_succ] at hi hj
        subst hj
        exact hnd.1 (List.mem_map.2 ⟨ci, List.mem_iff_get?.2 ⟨i0, hi⟩, ht⟩)
      | succ j0 =>
        simp only [List.get?_cons_succ] at hi hj
        rw [ih hnd.2 i0 j0 ci cj hi hj ht]

/-- C10. After a successful `Init` of a new registry over configurations
with pairwise distinct tags, `GetDB` returns for the tag of each
configuration the handle that was opened from that configuration (the
handles of two configurations differ, so never another tag's handle), and
nil for every tag that no configuration carries. -/
theorem GetDB_after_Init (B : Backend) (dailer : Option Nat) (cfgs : List DbConfig)
    (w : World)
    (hok : (mgr.Init B dailer cfgs NewSqlDBMgr.1 w).1 = none)
    (hnd : (cfgs.map DbConfig.Tag).Nodup) :
    (∀ i c, cfgs.get? i = some c →
      (mgr.Init B dailer cfgs NewSqlDBMgr.1 w).2.1.GetDB c.Tag = some (w.handles.length + i) ∧
      (mgr.Init B dailer cfgs NewSqlDBMgr.1 w).2.2.handles.get? (w.handles.length + i)
        = some (initHandle c)) ∧
    (∀ i j ci cj, cfgs.get? i = some ci → cfgs.get? j = some cj → i ≠ j →
      (mgr.Init B dailer cfgs NewSqlDBMgr.1 w).2.1.GetDB ci.Tag
        ≠ (mgr.Init B dailer cfgs NewSqlDBMgr.1 w).2.1.GetDB cj.Tag) ∧
    (∀ tag, tag ∉ cfgs.map DbConfig.Tag →
      (mgr.Init B dailer cfgs NewSqlDBMgr.1 w).2.1.GetDB tag = none) := by
  have hall := Init_ok_configs B dailer cfgs NewSqlDBMgr.1 w hok
  obtain ⟨s1, w1, h1, h2, h3⟩ := Init_all_ok B dailer cfgs NewSqlDBMgr.1 w hall
  have hs : (mgr.Init B dailer cfgs NewSqlDBMgr.1 w).2.1 = s1 := by rw [h1]
  have hw : (mgr.Init B dailer cfgs NewSqlDBMgr.1 w).2.2 = w1 := by rw [h1]
  rw [hs, hw]
  have hget : ∀ i c, cfgs.get? i = some c → s1.GetDB c.Tag = some (w.handles.length + i) := by
    intro i c hi
    rw [GetDB_eq_Load, h3 c.Tag,
      lastConfig_last c.Tag cfgs w.handles.length i c hi rfl
        (fun j cj hlt hj ht => by
          have := tags_nodup_index cfgs hnd j i cj c hj hi ht
          omega)]
  refine ⟨?_, ?_, ?_⟩
  · intro i c hi
    exact ⟨hget i c hi, by rw [h2]; exact handles_get?_new w.handles cfgs i c hi⟩
  · intro i j ci cj hi hj hne
    rw [hget i ci hi, hget j cj hj]
    intro h
    simp only [Option.some.injEq] at h
    omega
  · intro tag hno
    rw [GetDB_eq_Load, h3 tag, lastConfig_none tag cfgs w.handles.length
      (fun c hc ht => hno (List.mem_map.2 ⟨c, hc, ht⟩))]
    rfl

/-- C10 at a concrete input: a new registry initialised with the
configurations `t1` and `t2`. -/
theorem GetDB_after_Init_witness :
    ((mgr.Init exampleBackend none [exampleConfig "mysql" "t1", exampleConfig "mysql" "t2"]
        NewSqlDBMgr.1 exampleWorld).2.1.GetDB "t2" = some 2 ∧
     (mgr.Init exampleBackend none [exampleConfig "mysql" "t1", exampleConfig "mysql" "t2"]
        NewSqlDBMgr.1 exampleWorld).2.2.handles.get? 2
        = some (initHandle (exampleConfig "mysql" "t2"))) ∧
    (mgr.Init exampleBackend none [exampleConfig "mysql" "t1", exampleConfig "mysql" "t2"]
        NewSqlDBMgr.1 exampleWorld).2.1.GetDB "t3" = none :=
  ⟨(GetDB_after_Init exampleBackend none
      [exampleConfig "mysql" "t1", exampleConfig "mysql" "t2"] exampleWorld
      (by decide) (by decide)).1 1 (exampleConfig "mysql" "t2") (by rfl),
   (GetDB_after_Init exampleBackend none
      [exampleConfig "mysql" "t1", exampleConfig "mysql" "t2"] exampleWorld
      (by decide) (by decide)).2.2 "t3" (by decide)⟩

/-! ## Teardown -/

theorem call_get? (w : World) (db i : Nat) (c : DBCall) :
    (w.call db c).handles.get? i =
      if i = db then (w.handles.get? i).map
        (fun h => { h with calls := h.calls ++ [c], closed := h.closed || c == DBCall.Close })
      else w.handles.get? i := by
  simp only [World.call, List.get?_eq_getElem?, List.getElem?_modify]
  by_cases h : i = db
  · subst h
    cases w.handles[i]? <;> simp
  · have h1 : ¬ db = i := fun e => h e.symm
    cases w.handles[i]? <;> simp [h, h1]

theorem Destory_get? (closeErr : World → Nat → Option Err) :
    ∀ (clients : List (String × Nat)) (w : World) (i : Nat),
      (clients.map Prod.snd).Nodup →
      (mgr.Destory closeErr { clients := clients } w).handles.get? i =
        if i ∈ clients.map Prod.snd then (w.handles.get? i).map DB.closedOnce
        else w.handles.get? i := by
  intro clients
  induction clients with
  | nil => intro w i _; simp [mgr.Destory]
  | cons e rest ih =>
    intro w i hnd
    simp only [List.map_cons, List.nodup_cons] at hnd
    have hstep : mgr.Destory closeErr { clients := e :: rest } w
        = mgr.Destory closeErr { clients := rest } (w.call e.2 .Close) := by
      simp [mgr.Destory, dbClose]
    rw [hstep, ih (w.call e.2 .Close) i hnd.2, call_get?]
    by_cases hi : i = e.2
    · subst hi
      have hnot : e.2 ∉ rest.map Prod.snd := hnd.1
      simp only [hnot, if_false, if_true, List.map_cons, List.mem_cons, true_or]
      cases w.handles.get? e.2 <;> simp [DB.closedOnce]
    · simp only [hi, if_false, List.map_cons, List.mem_cons, false_or]

theorem Load_eq_some_iff (clients : List (String × Nat)) (tag : String) (db : Nat)
    (hnd : (clients.map Prod.fst).Nodup) :
    Load clients tag = some db ↔ (tag, db) ∈ clients := by
  unfold Load
  induction clients with
  | nil => simp [List.lookup]
  | cons e rest ih =>
    obtain ⟨k, v⟩ := e
    simp only [List.map_cons, List.nodup_cons] at hnd
    by_cases hk : tag = k
    · subst hk
      simp only [List.lookup, beq_self_eq_true, Option.some.injEq, List.mem_cons,
        Prod.mk.injEq, true_and]
      constructor
      · intro h; exact Or.inl h.symm
      · rintro (h | h)
        · exact h.symm
        · exact absurd (List.mem_map.2 ⟨(tag, db), h, rfl⟩) hnd.1
    · have hb : (tag == k) = false := by simpa using hk
      simp only [List.lookup, hb, List.mem_cons, Prod.mk.injEq, hk, false_and, false_or]
      exact ih hnd.2

theorem Store_RegistryOK (s : mgr) (w : World) (dailer : Option Nat) (cfg : DbConfig)
    (h : RegistryOK s w) :
    RegistryOK { clients := Store s.clients cfg.Tag w.handles.length } (initWorld dailer cfg w) := by
  obtain ⟨h1, h2, h3⟩ := h
  refine ⟨?_, ?_, ?_⟩
  · simp only [Store, List.map_cons, List.nodup_cons]
    constructor
    · intro hmem
      obtain ⟨e, he, hk⟩ := List.mem_map.1 hmem
      have := (List.mem_filter.1 he).2
      simp [hk] at this
    · exact h1.sublist ((List.filter_sublist s.clients).map Prod.fst)
  · simp only [Store, List.map_cons, List.nodup_cons]
    constructor
    · intro hmem
      obtain ⟨e, he, hk⟩ := List.mem_map.1 hmem
      have := h3 e (List.mem_filter.1 he).1
      omega
    · exact h2.sublist ((List.filter_sublist s.clients).map Prod.snd)
  · intro e he
    simp only [Store, List.mem_cons] at he
    simp only [initWorld, List.length_append, List.length_singleton]
    rcases he with he | he
    · subst he; simp
    · have := h3 e (List.mem_filter.1 he).1
      omega

theorem Init_RegistryOK (B : Backend) (dailer : Option Nat) :
    ∀ (cfgs : List DbConfig) (s : mgr) (w : World), RegistryOK s w →
      RegistryOK (mgr.Init B dailer cfgs s w).2.1 (mgr.Init B dailer cfgs s w).2.2 := by
  intro cfgs
  induction cfgs with
  | nil => intro s w h; exact h
  | cons cfg rest ih =>
    intro s w h
    cases hce : configError B cfg with
    | some e =>
      obtain ⟨w1, h1, h2⟩ := Init_cons_fail B dailer cfg rest s w e hce
      rw [h1]
      exact ⟨h.1, h.2.1, fun x hx => by rw [h2]; exact h.2.2 x hx⟩
    | none =>
      rw [Init_cons_ok B dailer cfg rest s w hce]
      exact ih _ _ (Store_RegistryOK s w dailer cfg h)

theorem new_RegistryOK (w : World) : RegistryOK NewSqlDBMgr.1 w :=
  ⟨by simp [NewSqlDBMgr], by simp [NewSqlDBMgr], by simp [NewSqlDBMgr]⟩

/-- Effect of `Destory` on the handles of a well-formed registry: a handle
registered under some tag gets one more `Close`, every other handle stays. -/
theorem Destory_registered (closeErr : World → Nat → Option Err) (s : mgr) (w0 w : World)
    (hs : RegistryOK s w0) (i : Nat) :
    ((∃ tag, s.GetDB tag = some i) →
      (mgr.Destory closeErr s w).handles.get? i = (w.handles.get? i).map DB.closedOnce) ∧
    ((¬ ∃ tag, s.GetDB tag = some i) →
      (mgr.Destory closeErr s w).handles.get? i = w.handles.get? i) := by
  have hmem : i ∈ s.clients.map Prod.snd ↔ ∃ tag, s.GetDB tag = some i := by
    constructor
    · intro h
      obtain ⟨e, he, hi⟩ := List.mem_map.1 h
      refine ⟨e.1, ?_⟩
      rw [GetDB_eq_Load, Load_eq_some_iff _ _ _ hs.1, ← hi]
      exact he
    · rintro ⟨tag, h⟩
      rw [GetDB_eq_Load, Load_eq_some_iff _ _ _ hs.1] at h
      exact List.mem_map.2 ⟨(tag, i), h, rfl⟩
  have hd := Destory_get? closeErr s.clients w i hs.2.1
  constructor
  · intro h
    rw [hd, if_pos (hmem.2 h)]
  · intro h
    rw [hd, if_neg (fun hm => h (hmem.1 hm))]

theorem Init_GetDB_index (B : Backend) (dailer : Option Nat) (cfgs : List DbConfig) (w : World)
    (hok : (mgr.Init B dailer cfgs NewSqlDBMgr.1 w).1 = none)
    (hnd : (cfgs.map DbConfig.Tag).Nodup) (i : Nat) (c : DbConfig)
    (hi : cfgs.get? i = some c) :
    (mgr.Init B dailer cfgs NewSqlDBMgr.1 w).2.1.GetDB c.Tag = some (w.handles.length + i) := by
  have hall := Init_ok_configs B dailer cfgs NewSqlDBMgr.1 w hok
  obtain ⟨s1, w1, h1, _, h3⟩ := Init_all_ok B dailer cfgs NewSqlDBMgr.1 w hall
  have hs : (mgr.Init B dailer cfgs NewSqlDBMgr.1 w).2.1 = s1 := by rw [h1]
  rw [hs, GetDB_eq_Load, h3 c.Tag,
    lastConfig_last c.Tag cfgs w.handles.length i c hi rfl
      (fun j cj hlt hj ht => by
        have := tags_nodup_index cfgs hnd j i cj c hj hi ht
        omega)]

/-- C11. `Destory` after a successful `Init` of a new registry, in whatever
state the handles are by then (some may have been closed from outside):
every handle that is registered under a tag gets exactly one more `Close`
and is closed, every other handle is left as it is; with pairwise distinct
tags these are all the handles that `Init` opened, one per configuration.
The outcome is the same whatever errors the individual `Close` calls return,
and `Destory` itself returns nothing. -/
theorem Destory_closes_each_once (B : Backend) (dailer : Option Nat) (cfgs : List DbConfig)
    (w0 w : World) (closeErr : World → Nat → Option Err)
    (hok : (mgr.Init B dailer cfgs NewSqlDBMgr.1 w0).1 = none) :
    (∀ i, (∃ tag, (mgr.Init B dailer cfgs NewSqlDBMgr.1 w0).2.1.GetDB tag = some i) →
      (mgr.Destory closeErr (mgr.Init B dailer cfgs NewSqlDBMgr.1 w0).2.1 w).handles.get? i
        = (w.handles.get? i).map DB.closedOnce) ∧
    (∀ i, (¬ ∃ tag, (mgr.Init B dailer cfgs NewSqlDBMgr.1 w0).2.1.GetDB tag = some i) →
      (mgr.Destory closeErr (mgr.Init B dailer cfgs NewSqlDBMgr.1 w0).2.1 w).handles.get? i
        = w.handles.get? i) ∧
    ((cfgs.map DbConfig.Tag).Nodup → ∀ k, k < cfgs.length →
      (mgr.Destory closeErr (mgr.Init B dailer cfgs NewSqlDBMgr.1 w0).2.1 w).handles.get?
          (w0.handles.length + k)
        = (w.handles.get? (w0.handles.length + k)).map DB.closedOnce) ∧
    (∀ closeErr1 : World → Nat → Option Err,
      mgr.Destory closeErr1 (mgr.Init B dailer cfgs NewSqlDBMgr.1 w0).2.1 w
        = mgr.Destory closeErr (mgr.Init B dailer cfgs NewSqlDBMgr.1 w0).2.1 w) := by
  have hreg := Init_RegistryOK B dailer cfgs NewSqlDBMgr.1 w0 (new_RegistryOK w0)
  refine ⟨?_, ?_, ?_, ?_⟩
  · intro i h
    exact (Destory_registered closeErr _ _ w hreg i).1 h
  · intro i h
    exact (Destory_registered closeErr _ _ w hreg i).2 h
  · intro hnd k hk
    have hget : cfgs.get? k = some cfgs[k] := by
      simp [List.get?_eq_getElem?, List.getElem?_eq_getElem hk]
    exact (Destory_registered closeErr _ _ w hreg (w0.handles.length + k)).1
      ⟨cfgs[k].Tag, Init_GetDB_index B dailer cfgs w0 hok hnd k _ hget⟩
  · intro closeErr1
    rfl

/-- C11 at a concrete input: three configurations with the tags `t1`, `t2`,
`t3` on a new registry (handles 1, 2, 3), handle 2 closed from outside
before the teardown, and `Close` calls that all fail. Each of the three
handles has one `Close` more than before. -/
theorem Destory_closes_each_once_witness :
    ((mgr.Destory (fun _ _ => some (.msg "close failed"))
        (mgr.Init exampleBackend none
          [exampleConfig "mysql" "t1", exampleConfig "mysql" "t2", exampleConfig "mysql" "t3"]
          NewSqlDBMgr.1 exampleWorld).2.1
        ((mgr.Init exampleBackend none
          [exampleConfig "mysql" "t1", exampleConfig "mysql" "t2", exampleConfig "mysql" "t3"]
          NewSqlDBMgr.1 exampleWorld).2.2.call 2 .Close)).handles.get? (exampleWorld.handles.length + 1)
      = (((mgr.Init exampleBackend none
          [exampleConfig "mysql" "t1", exampleConfig "mysql" "t2", exampleConfig "mysql" "t3"]
          NewSqlDBMgr.1 exampleWorld).2.2.call 2 .Close).handles.get?
            (exampleWorld.handles.length + 1)).map DB.closedOnce) ∧
    (mgr.Destory (fun _ _ => some (.msg "close failed"))
        (mgr.Init exampleBackend none
          [exampleConfig "mysql" "t1", exampleConfig "mysql" "t2", exampleConfig "mysql" "t3"]
          NewSqlDBMgr.1 exampleWorld).2.1
        ((mgr.Init exampleBackend none
          [exampleConfig "mysql" "t1", exampleConfig "mysql" "t2", exampleConfig "mysql" "t3"]
          NewSqlDBMgr.1 exampleWorld).2.2.call 2 .Close)).handles.map
        (fun h => (h.closed, h.calls.count DBCall.Close))
      = [(false, 0), (true, 1), (true, 2), (true, 1)] :=
  ⟨(Destory_closes_each_once exampleBackend none
      [exampleConfig "mysql" "t1", exampleConfig "mysql" "t2", exampleConfig "mysql" "t3"]
      exampleWorld
      ((mgr.Init exampleBackend none
        [exampleConfig "mysql" "t1", exampleConfig "mysql" "t2", exampleConfig "mysql" "t3"]
        NewSqlDBMgr.1 exampleWorld).2.2.call 2 .Close)
      (fun _ _ => some (.msg "close failed")) (by decide)).2.2.1 (by decide) 1 (by decide),
   by decide⟩

/-! ## Backend error unwrapping and connection strings -/

/-- C12. Evaluation of `GetMysqlErrorInfo`. A driver error with code `c` and
message `m` gives `(c, m, nil)`, a nil `*mysql.MySQLError` pointer gives
`(0, "ok", nil)`, and a value of another type gives an error that names the
type. The claim fails for the nil interface, which is what a nil `error`
is when it is passed as the argument: the type assertion does not hold for
it, so the result is `(1, "", error)` and not `(0, "ok", nil)`. -/
theorem GetMysqlErrorInfo_cases :
    (∀ c m, GetMysqlErrorInfo (.mysqlError (some { Number := c, Message := m })) = (c, m, none)) ∧
    GetMysqlErrorInfo (.mysqlError (some { Number := 1146, Message := "table doesn't exist" }))
      = (1146, "table doesn't exist", none) ∧
    GetMysqlErrorInfo (.mysqlError none) = (0, "ok", none) ∧
    GetMysqlErrorInfo .nilInterface
      = (1, "", some (.msg "expected *mysql.MySQLError, got <nil>")) ∧
    (∀ typeName, GetMysqlErrorInfo (.other typeName)
      = (1, "", some (.msg ("expected *mysql.MySQLError, got " ++ typeName)))) :=
  ⟨fun _ _ => rfl, rfl, rfl, rfl, fun _ => rfl⟩

theorem utf8ByteSize_eq_zero (s : String) : s.utf8ByteSize = 0 ↔ s = "" := by
  obtain ⟨l⟩ := s
  cases l with
  | nil => simp [String.utf8ByteSize, String.utf8ByteSize.go]
  | cons c cs =>
    have hpos := Char.utf8Size_pos c
    constructor
    · intro h
      simp only [String.utf8ByteSize, String.utf8ByteSize.go] at h
      omega
    · intro h
      have := congrArg String.data h
      simp at this

theorem digitChar_lt_ten (d : Nat) (h : d < 10) : Nat.digitChar d = Char.ofNat (48 + d) := by
  interval_cases d <;> rfl

theorem toDigitsCore_digits :
    ∀ (fuel n : Nat) (acc : List Char), 0 < n → n < fuel →
      Nat.toDigitsCore 10 fuel n acc
        = (Nat.digits 10 n).reverse.map (fun d => Char.ofNat (48 + d)) ++ acc := by
  intro fuel
  induction fuel with
  | zero => intro n acc _ h; omega
  | succ f ih =>
    intro n acc hpos hlt
    have hd : Nat.digits 10 n = n % 10 :: Nat.digits 10 (n / 10) :=
      Nat.digits_def' (by decide) hpos
    have hdc := digitChar_lt_ten (n % 10) (Nat.mod_lt _ (by decide))
    simp only [Nat.toDigitsCore]
    by_cases h0 : n / 10 = 0
    · simp [h0, hd, hdc]
    · have h1 : 0 < n / 10 := Nat.pos_of_ne_zero h0
      have h2 : n / 10 < f := by omega
      simp only [h0, if_false]
      rw [ih (n / 10) _ h1 h2, hd, hdc]
      simp

/-- The verb `%d` writes the decimal numeral of the specification. -/
theorem fmtInt_eq_decimal (n : Int) : fmtInt n = decimal n := by
  have hnat : ∀ m : Nat, 0 < m →
      Nat.repr m = String.mk ((Nat.digits 10 m).reverse.map (fun d => Char.ofNat (48 + d))) := by
    intro m hm
    simp only [Nat.repr, Nat.toDigits, List.asString]
    rw [toDigitsCore_digits (m + 1) m [] hm (by omega)]
    simp
  cases n with
  | ofNat m =>
    cases m with
    | zero => rfl
    | succ k =>
      have h1 : ¬ ((Int.ofNat (k + 1)) < 0) := by simp; omega
      have h2 : ¬ (Int.ofNat (k + 1) = 0) := by simp; omega
      show Nat.repr (k + 1) = _
      simp only [decimal, h1, h2, if_false, List.nil_append]
      exact hnat (k + 1) (by omega)
  | negSucc k =>
    have h1 : (Int.negSucc k) < 0 := Int.negSucc_lt_zero k
    have h2 : ¬ (Int.negSucc k = 0) := by simp
    show "-" ++ Nat.repr (k + 1) = _
    simp only [decimal, h1, h2, if_true, if_false]
    rw [hnat (k + 1) (by omega)]
    rfl

/-- C13. `getDataSourceName` fails, with the empty string and an error,
exactly when the type of the configuration is not `mysql`. Otherwise it
returns no error and the string
`<user>:<password>@(<ip>:<port>)/<dbname>?`, the port written as a decimal
numeral, followed by the five parameters of `dsnParams` joined by `&`, in
that order: charset (`utf8mb4` for an empty one), timeout (`5s` for a
negative one, else the decimal numeral of the value followed by `ms`), time
zone, `parseTime=true`, `interpolateParams=true`; a timeout of zero is
written `0ms`. -/
theorem getDataSourceName_format (cfg : DbConfig) :
    ((getDataSourceName cfg).2 ≠ none ↔ cfg.DbType ≠ "mysql") ∧
    (cfg.DbType ≠ "mysql" →
      getDataSourceName cfg = ("", some (.msg "expect db type [mysql]"))) ∧
    (cfg.DbType = "mysql" →
      getDataSourceName cfg
        = (cfg.Username ++ ":" ++ cfg.Password ++ "@(" ++ cfg.IP ++ ":" ++ decimal cfg.Port
            ++ ")/" ++ cfg.DbName ++ "?" ++ Join (dsnParams cfg) "&", none)) ∧
    (dsnParams cfg).length = 5 ∧
    (Join (dsnParams cfg) "&"
      = "charset=" ++ (if cfg.Charset = "" then "utf8mb4" else cfg.Charset) ++ "&"
        ++ ("timeout=" ++ (if cfg.Timeout < 0 then "5s" else decimal cfg.Timeout ++ "ms")) ++ "&"
        ++ "loc=Asia%2FShanghai" ++ "&" ++ "parseTime=true" ++ "&" ++ "interpolateParams=true") ∧
    (cfg.Timeout = 0 → (dsnParams cfg).get? 1 = some "timeout=0ms") := by
  have hloc : QueryEscape "Asia/Shanghai" = "Asia%2FShanghai" := by decide
  have hbad : cfg.DbType ≠ "mysql" →
      getDataSourceName cfg = ("", some (.msg "expect db type [mysql]")) := by
    intro h
    simp [getDataSourceName, h]
  have hgood : cfg.DbType = "mysql" →
      getDataSourceName cfg
        = (cfg.Username ++ ":" ++ cfg.Password ++ "@(" ++ cfg.IP ++ ":" ++ decimal cfg.Port
            ++ ")/" ++ cfg.DbName ++ "?" ++ Join (dsnParams cfg) "&", none) := by
    intro h
    by_cases hc : cfg.Charset = "" <;> by_cases ht : cfg.Timeout < 0 <;>
      simp [getDataSourceName, h, dsnParams, hc, ht, hloc, utf8ByteSize_eq_zero, Join,
        String.append_assoc, fmtInt_eq_decimal]
  refine ⟨?_, hbad, hgood, rfl, ?_, ?_⟩
  · constructor
    · intro h hm
      rw [hgood hm] at h
      exact h rfl
    · intro h
      rw [hbad h]
      simp
  · simp [dsnParams, Join, String.append_assoc]
  · intro h
    simp only [dsnParams, h, List.get?_cons_succ, List.get?_cons_zero, Option.some.injEq]
    rfl

/-- C13 at concrete inputs: the example configuration (port 1234, timeout
2000, no charset), and one with the charset `latin1`, a negative timeout and
the port 3306. -/
theorem getDataSourceName_format_witness :
    getDataSourceName (exampleConfig "mysql" "t1")
      = ("yy:123456@(1.1.1.1:1234)/db0?charset=utf8mb4&timeout=2000ms&loc=Asia%2FShanghai&parseTime=true&interpolateParams=true",
         none) ∧
    getDataSourceName
        { exampleConfig "mysql" "t1" with Charset := "latin1", Timeout := -1, Port := 3306 }
      = ("yy:123456@(1.1.1.1:3306)/db0?charset=latin1&timeout=5s&loc=Asia%2FShanghai&parseTime=true&interpolateParams=true",
         none) ∧
    decimal 1234 = "1234" ∧ decimal 2000 = "2000" ∧ decimal 0 = "0" ∧ decimal (-15) = "-15" :=
  ⟨((getDataSourceName_format (exampleConfig "mysql" "t1")).2.2.1 (by decide)).trans
      (by simp only [dsnParams, ← fmtInt_eq_decimal]; decide),
   ((getDataSourceName_format
      { exampleConfig "mysql" "t1" with Charset := "latin1", Timeout := -1, Port := 3306 }).2.2.1
      (by decide)).trans (by simp only [dsnParams, ← fmtInt_eq_decimal]; decide),
   by rw [← fmtInt_eq_decimal]; decide, by rw [← fmtInt_eq_decimal]; decide,
   by rw [← fmtInt_eq_decimal]; decide, by rw [← fmtInt_eq_decimal]; decide⟩

/-! ## The registry invariant -/

theorem call_keeps_closed (w : World) (db i : Nat) (c : DBCall) (hc : (c == DBCall.Close) = false)
    (h : DB) (hi : w.handles.get? i = some h) :
    ∃ h1, (w.call db c).handles.get? i = some h1 ∧ h1.closed = h.closed := by
  rw [call_get?, hi]
  by_cases hd : i = db <;> simp [hd, hc]

theorem call_length (w : World) (db : Nat) (c : DBCall) :
    (w.call db c).handles.length = w.handles.length := by
  simp [World.call]

theorem dbQuery_world (B : Backend) (w : World) (db : Nat) (sqlCmd : String)
    (args : List DriverValue) :
    (dbQuery B w db sqlCmd args).2 = w ∨
      (dbQuery B w db sqlCmd args).2 = w.call db (.Query sqlCmd args) := by
  unfold dbQuery
  cases w.handles.get? db with
  | none => exact Or.inl rfl
  | some h => exact Or.inr rfl

theorem Query_world (B : Backend) (s : mgr) (w : World) (dest : Any) (tag sqlCmd : String)
    (args : List DriverValue) :
    (mgr.Query B s w dest tag sqlCmd args).world = w ∨
      ∃ db, (mgr.Query B s w dest tag sqlCmd args).world = w.call db (.Query sqlCmd args) := by
  unfold mgr.Query
  cases Load s.clients tag with
  | none => exact Or.inl rfl
  | some db =>
    simp only [GetDataFromDb_world]
    rcases dbQuery_world B w db sqlCmd args with h | h
    · exact Or.inl h
    · exact Or.inr ⟨db, h⟩

theorem dbExec_world (B : Backend) (w : World) (db : Nat) (sqlCmd : String)
    (args : List DriverValue) :
    (dbExec B w db sqlCmd args).2 = w ∨
      (dbExec B w db sqlCmd args).2 = w.call db (.Exec sqlCmd args) := by
  unfold dbExec
  cases w.handles.get? db with
  | none => exact Or.inl rfl
  | some h => exact Or.inr rfl

theorem Exec_world (B : Backend) (s : mgr) (w : World) (tag sqlCmd : String)
    (args : List DriverValue) :
    (mgr.Exec B s w tag sqlCmd args).2 = w ∨
      ∃ db, (mgr.Exec B s w tag sqlCmd args).2 = w.call db (.Exec sqlCmd args) := by
  unfold mgr.Exec
  cases Load s.clients tag with
  | none => exact Or.inl rfl
  | some db =>
    have hsnd : (match dbExec B w db sqlCmd args with
        | (.panic t, w1) => ((.panic t, w1) : Result (Option ExecResult × Option Err) × World)
        | (.ok (.ok res), w1) => (.ok (some res, none), w1)
        | (.ok (.error err), w1) => (.ok (none, some err), w1)).2
        = (dbExec B w db sqlCmd args).2 := by
      rcases dbExec B w db sqlCmd args with ⟨r, w1⟩
      rcases r with (_ | _) | _ <;> rfl
    simp only [hsnd]
    rcases dbExec_world B w db sqlCmd args with h | h
    · exact Or.inl h
    · exact Or.inr ⟨db, h⟩

theorem Init_keeps_handles (B : Backend) (dailer : Option Nat) :
    ∀ (cfgs : List DbConfig) (s : mgr) (w : World) (i : Nat) (h : DB),
      w.handles.get? i = some h → (mgr.Init B dailer cfgs s w).2.2.handles.get? i = some h := by
  intro cfgs
  induction cfgs with
  | nil => intro s w i h hi; exact hi
  | cons cfg rest ih =>
    intro s w i h hi
    cases hce : configError B cfg with
    | some e =>
      obtain ⟨w1, h1, h2⟩ := Init_cons_fail B dailer cfg rest s w e hce
      rw [h1]
      simp only [h2]
      exact hi
    | none =>
      rw [Init_cons_ok B dailer cfg rest s w hce]
      apply ih
      have hlt : i < w.handles.length := (List.get?_eq_some.1 hi).1
      simp only [initWorld, List.get?_eq_getElem?] at hi ⊢
      rw [List.getElem?_append_left hlt]
      exact hi

theorem Init_Live (B : Backend) (dailer : Option Nat) :
    ∀ (cfgs : List DbConfig) (s : mgr) (w : World), Live s w →
      Live (mgr.Init B dailer cfgs s w).2.1 (mgr.Init B dailer cfgs s w).2.2 := by
  intro cfgs
  induction cfgs with
  | nil => intro s w h; exact h
  | cons cfg rest ih =>
    intro s w h
    cases hce : configError B cfg with
    | some e =>
      obtain ⟨w1, h1, h2⟩ := Init_cons_fail B dailer cfg rest s w e hce
      rw [h1]
      exact ⟨h.1, fun tag db hl => by simp only [h2]; exact h.2 tag db hl⟩
    | none =>
      rw [Init_cons_ok B dailer cfg rest s w hce]
      apply ih
      refine ⟨?_, ?_⟩
      · simp only [Store, List.map_cons, List.nodup_cons]
        constructor
        · intro hmem
          obtain ⟨e, he, hk⟩ := List.mem_map.1 hmem
          have := (List.mem_filter.1 he).2
          simp [hk] at this
        · exact h.1.sublist ((List.filter_sublist s.clients).map Prod.fst)
      · intro tag db hl
        simp only [Load_Store] at hl
        by_cases ht : tag = cfg.Tag
        · simp only [ht, if_true, Option.some.injEq] at hl
          subst hl
          refine ⟨initHandle cfg, ?_, rfl⟩
          simp [initWorld, List.get?_eq_getElem?]
        · simp only [ht, if_false] at hl
          obtain ⟨hd, h1, h2⟩ := h.2 tag db hl
          refine ⟨hd, ?_, h2⟩
          have hlt : db < w.handles.length := (List.get?_eq_some.1 h1).1
          simp only [initWorld, List.get?_eq_getElem?] at h1 ⊢
          rw [List.getElem?_append_left hlt]
          exact h1

theorem step_keeps_closed (B : Backend) (closeErr : World → Nat → Option Err) (op : Op)
    (st : mgr × World) (hop : op ≠ Op.Destory) (i : Nat) (h : DB)
    (hi : st.2.handles.get? i = some h) :
    ∃ h1, (step B closeErr op st).2.handles.get? i = some h1 ∧ h1.closed = h.closed := by
  cases op with
  | Init cfgs dailer => exact ⟨h, Init_keeps_handles B dailer cfgs st.1 st.2 i h hi, rfl⟩
  | Query dest tag sqlCmd args =>
    simp only [step]
    rcases Query_world B st.1 st.2 dest tag sqlCmd args with hw | ⟨db, hw⟩
    · rw [hw]; exact ⟨h, hi, rfl⟩
    · rw [hw]; exact call_keeps_closed st.2 db i _ (by simp) h hi
  | Exec tag sqlCmd args =>
    simp only [step]
    rcases Exec_world B st.1 st.2 tag sqlCmd args with hw | ⟨db, hw⟩
    · rw [hw]; exact ⟨h, hi, rfl⟩
    · rw [hw]; exact call_keeps_closed st.2 db i _ (by simp) h hi
  | GetDB tag => exact ⟨h, hi, rfl⟩
  | Destory => exact absurd rfl hop

theorem step_registry (B : Backend) (closeErr : World → Nat → Option Err) (op : Op)
    (st : mgr × World) (hop : ∀ cfgs dailer, op ≠ Op.Init cfgs dailer) :
    (step B closeErr op st).1 = st.1 := by
  cases op with
  | Init cfgs dailer => exact absurd rfl (hop cfgs dailer)
  | Query dest tag sqlCmd args => rfl
  | Exec tag sqlCmd args => rfl
  | GetDB tag => rfl
  | Destory => rfl

theorem step_Live (B : Backend) (closeErr : World → Nat → Option Err) (op : Op)
    (st : mgr × World) (hop : op ≠ Op.Destory) (hl : Live st.1 st.2) :
    Live (step B closeErr op st).1 (step B closeErr op st).2 := by
  cases op with
  | Init cfgs dailer => exact Init_Live B dailer cfgs st.1 st.2 hl
  | GetDB tag => exact hl
  | Destory => exact absurd rfl hop
  | Query dest tag sqlCmd args =>
    refine ⟨hl.1, ?_⟩
    intro tg db hload
    obtain ⟨h, h1, h2⟩ := hl.2 tg db hload
    obtain ⟨h3, h4, h5⟩ := step_keeps_closed B closeErr (.Query dest tag sqlCmd args) st
      (by simp) db h h1
    exact ⟨h3, h4, h5.trans h2⟩
  | Exec tag sqlCmd args =>
    refine ⟨hl.1, ?_⟩
    intro tg db hload
    obtain ⟨h, h1, h2⟩ := hl.2 tg db hload
    obtain ⟨h3, h4, h5⟩ := step_keeps_closed B closeErr (.Exec tag sqlCmd args) st
      (by simp) db h h1
    exact ⟨h3, h4, h5.trans h2⟩

theorem step_RegistryOK (B : Backend) (closeErr : World → Nat → Option Err) (op : Op)
    (st : mgr × World) (hr : RegistryOK st.1 st.2) :
    RegistryOK (step B closeErr op st).1 (step B closeErr op st).2 := by
  have hlen : ∀ w1 : World, w1.handles.length = st.2.handles.length → RegistryOK st.1 w1 :=
    fun w1 h => ⟨hr.1, hr.2.1, fun e he => by rw [h]; exact hr.2.2 e he⟩
  cases op with
  | Init cfgs dailer => exact Init_RegistryOK B dailer cfgs st.1 st.2 hr
  | GetDB tag => exact hr
  | Query dest tag sqlCmd args =>
    apply hlen
    simp only [step]
    rcases Query_world B st.1 st.2 dest tag sqlCmd args with hw | ⟨db, hw⟩ <;> rw [hw]
    exact call_length _ _ _
  | Exec tag sqlCmd args =>
    apply hlen
    simp only [step]
    rcases Exec_world B st.1 st.2 tag sqlCmd args with hw | ⟨db, hw⟩ <;> rw [hw]
    exact call_length _ _ _
  | Destory =>
    apply hlen
    simp only [step, mgr.Destory, dbClose]
    generalize st.1.clients = l
    generalize st.2 = w
    induction l generalizing w with
    | nil => rfl
    | cons e rest ih => simp only [List.foldl_cons]; rw [ih]; exact call_length _ _ _

theorem run_invariants (B : Backend) (closeErr : World → Nat → Option Err) :
    ∀ (ops : List Op) (st : mgr × World), (∀ op ∈ ops, op ≠ Op.Destory) →
      Live st.1 st.2 → RegistryOK st.1 st.2 →
      Live (run B closeErr ops st).1 (run B closeErr ops st).2 ∧
      RegistryOK (run B closeErr ops st).1 (run B closeErr ops st).2 := by
  intro ops
  induction ops with
  | nil => intro st _ h1 h2; exact ⟨h1, h2⟩
  | cons op rest ih =>
    intro st hno h1 h2
    simp only [run, List.foldl_cons]
    exact ih (step B closeErr op st) (fun o ho => hno o (List.mem_cons_of_mem _ ho))
      (step_Live B closeErr op st (hno op (List.mem_cons_self _ _)) h1)
      (step_RegistryOK B closeErr op st h2)

/-- C14, amended. In every state reachable from a new registry by any
sequence of `Init`, `Query`, `Exec` and `GetDB` calls, every tag present in
the registry maps to exactly one handle and that handle is live (open, not
closed). No call other than `Destory` closes a handle: it leaves every
existing handle as open or closed as it was. `Destory` closes the handle of
every tag present and keeps the tag in the registry, on that handle. -/
theorem registry_invariant_until_teardown (B : Backend) (closeErr : World → Nat → Option Err)
    (w0 : World) (ops : List Op) (hno : ∀ op ∈ ops, op ≠ Op.Destory) :
    Live (run B closeErr ops (NewSqlDBMgr.1, w0)).1 (run B closeErr ops (NewSqlDBMgr.1, w0)).2 ∧
    (∀ (op : Op) (st : mgr × World), op ≠ Op.Destory →
      ∀ i h, st.2.handles.get? i = some h →
        ∃ h1, (step B closeErr op st).2.handles.get? i = some h1 ∧ h1.closed = h.closed) ∧
    (∀ tag db, Load (run B closeErr ops (NewSqlDBMgr.1, w0)).1.clients tag = some db →
      Load (step B closeErr .Destory (run B closeErr ops (NewSqlDBMgr.1, w0))).1.clients tag
        = some db ∧
      ∃ h, (step B closeErr .Destory (run B closeErr ops (NewSqlDBMgr.1, w0))).2.handles.get? db
          = some h ∧ h.closed = true) := by
  have hlive0 : Live (NewSqlDBMgr.1, w0).1 (NewSqlDBMgr.1, w0).2 :=
    ⟨by simp [NewSqlDBMgr], fun tag db h => by simp [NewSqlDBMgr, Load, List.lookup] at h⟩
  obtain ⟨hl, hr⟩ := run_invariants B closeErr ops (NewSqlDBMgr.1, w0) hno hlive0
    (new_RegistryOK w0)
  refine ⟨hl, fun op st hop i h hi => step_keeps_closed B closeErr op st hop i h hi, ?_⟩
  intro tag db hload
  refine ⟨hload, ?_⟩
  obtain ⟨h, h1, _⟩ := hl.2 tag db hload
  have hd := (Destory_registered closeErr _ _ (run B closeErr ops (NewSqlDBMgr.1, w0)).2 hr db).1
    ⟨tag, by rw [GetDB_eq_Load]; exact hload⟩
  refine ⟨h.closedOnce, ?_, rfl⟩
  simp only [step]
  rw [hd, h1]
  rfl

/-- C14, amended, at a concrete input: a new registry after `Init` with the
tags `t1` and `t2`, a query and a statement on `t1`, and a `GetDB`. -/
theorem registry_invariant_until_teardown_witness :
    Live
      (run exampleBackend (fun _ _ => none)
        [.Init [exampleConfig "mysql" "t1", exampleConfig "mysql" "t2"] none,
         .Query none "t1" "SELECT id, Name FROM t" [],
         .Exec "t1" "DELETE FROM t" [],
         .GetDB "t2"] (NewSqlDBMgr.1, exampleWorld)).1
      (run exampleBackend (fun _ _ => none)
        [.Init [exampleConfig "mysql" "t1", exampleConfig "mysql" "t2"] none,
         .Query none "t1" "SELECT id, Name FROM t" [],
         .Exec "t1" "DELETE FROM t" [],
         .GetDB "t2"] (NewSqlDBMgr.1, exampleWorld)).2 :=
  (registry_invariant_until_teardown exampleBackend (fun _ _ => none) exampleWorld
    [.Init [exampleConfig "mysql" "t1", exampleConfig "mysql" "t2"] none,
     .Query none "t1" "SELECT id, Name FROM t" [],
     .Exec "t1" "DELETE FROM t" [],
     .GetDB "t2"]
    (by
      intro op hop
      simp only [List.mem_cons, List.mem_singleton, List.not_mem_nil, or_false] at hop
      rcases hop with h | h | h | h <;> simp [h])).1

/-- C14 as stated fails: after `Init` with the tag `t1` and then `Destory`,
a state reachable from a new registry, the tag `t1` is still present, on
handle 1, and that handle is closed; the invariant does not hold there. -/
theorem registry_invariant_counterexample :
    (run exampleBackend (fun _ _ => none)
        [.Init [exampleConfig "mysql" "t1"] none, .Destory]
        (NewSqlDBMgr.1, exampleWorld)).1.GetDB "t1" = some 1 ∧
    ((run exampleBackend (fun _ _ => none)
        [.Init [exampleConfig "mysql" "t1"] none, .Destory]
        (NewSqlDBMgr.1, exampleWorld)).2.handles.get? 1).map DB.closed = some true ∧
    ¬ Live
      (run exampleBackend (fun _ _ => none)
        [.Init [exampleConfig "mysql" "t1"] none, .Destory] (NewSqlDBMgr.1, exampleWorld)).1
      (run exampleBackend (fun _ _ => none)
        [.Init [exampleConfig "mysql" "t1"] none, .Destory] (NewSqlDBMgr.1, exampleWorld)).2 := by
  refine ⟨by decide, by decide, ?_⟩
  intro hl
  obtain ⟨h, h1, h2⟩ := hl.2 "t1" 1 (by decide)
  have h3 : ((run exampleBackend (fun _ _ => none)
      [.Init [exampleConfig "mysql" "t1"] none, .Destory]
      (NewSqlDBMgr.1, exampleWorld)).2.handles.get? 1).map DB.closed = some true := by decide
  rw [h1] at h3
  simp only [Option.map_some', Option.some.injEq] at h3
  rw [h2] at h3
  cases h3

/-! ## Copy-out into nested records -/

theorem matchNested_loc (colName : String) (i : Nat) :
    ∀ (fs2 : List (StructField GoType)) (j0 : Nat) (idx : refIndex) (t : GoType),
      matchNested colName i fs2 j0 = some (idx, t) →
      idx.i = (i : Int) ∧ ∃ k sf2, idx.j = ((j0 + k : Nat) : Int) ∧ fs2.get? k = some sf2 ∧
        sf2.Typ = t ∧ isMatch colName sf2 = true ∧
        ∀ k1 sf1, k1 < k → fs2.get? k1 = some sf1 → isMatch colName sf1 = false := by
  intro fs2
  induction fs2 with
  | nil => intro j0 idx t h; simp [matchNested] at h
  | cons sf rest ih =>
    intro j0 idx t h
    simp only [matchNested] at h
    cases hm : isMatch colName sf with
    | true =>
      simp only [hm, if_true, Option.some.injEq, Prod.mk.injEq] at h
      obtain ⟨h1, h2⟩ := h
      subst h1
      exact ⟨rfl, 0, sf, by simp, by simp, h2, hm, fun k1 sf1 hk => by omega⟩
    | false =>
      simp only [hm, Bool.false_eq_true, if_false] at h
      obtain ⟨hi, k, sf2, h1, h2, h3, h4, h5⟩ := ih (j0 + 1) idx t h
      refine ⟨hi, k + 1, sf2, by rw [h1]; congr 1; omega, by simpa using h2, h3, h4, ?_⟩
      intro k1 sf1 hk hget
      cases k1 with
      | zero =>
        simp only [List.get?_cons_zero, Option.some.injEq] at hget
        subst hget; exact hm
      | succ k0 =>
        simp only [List.get?_cons_succ] at hget
        exact h5 k0 sf1 (by omega) hget

theorem matchNested_none (colName : String) (i : Nat) :
    ∀ (fs2 : List (StructField GoType)) (j0 : Nat),
      matchNested colName i fs2 j0 = none →
      ∀ sf ∈ fs2, isMatch colName sf = false := by
  intro fs2
  induction fs2 with
  | nil => intro j0 _ sf hsf; cases hsf
  | cons sf0 rest ih =>
    intro j0 h sf hsf
    simp only [matchNested] at h
    cases hm : isMatch colName sf0 with
    | true => simp [hm] at h
    | false =>
      simp only [hm, Bool.false_eq_true, if_false] at h
      rcases List.mem_cons.1 hsf with h1 | h1
      · rw [h1]; exact hm
      · exact ih (j0 + 1) h sf h1

theorem matchFields_loc (colName : String) :
    ∀ (fs : List (StructField GoType)) (s : Nat) (idx : refIndex) (t : GoType),
      matchFields colName fs s = some (idx, t) →
      ∃ k sf, idx.i = ((s + k : Nat) : Int) ∧ fs.get? k = some sf ∧
        ((idx.j = -1 ∧ ¬ (sf.Typ.Kind = Kind.Struct ∧ sf.Tag = none) ∧ sf.Typ = t) ∨
         (sf.Typ.Kind = Kind.Struct ∧ sf.Tag = none ∧
          ∃ (j : Nat) (sf2 : StructField GoType), idx.j = (j : Int) ∧
            (nestedFields sf.Typ).get? j = some sf2 ∧ sf2.Typ = t)) := by
  intro fs
  induction fs with
  | nil => intro s idx t h; simp [matchFields] at h
  | cons sf rest ih =>
    intro s idx t h
    have next : matchFields colName rest (s + 1) = some (idx, t) →
        ∃ k sf1, idx.i = ((s + k : Nat) : Int) ∧ (sf :: rest).get? k = some sf1 ∧
        ((idx.j = -1 ∧ ¬ (sf1.Typ.Kind = Kind.Struct ∧ sf1.Tag = none) ∧ sf1.Typ = t) ∨
         (sf1.Typ.Kind = Kind.Struct ∧ sf1.Tag = none ∧
          ∃ (j : Nat) (sf2 : StructField GoType), idx.j = (j : Int) ∧
            (nestedFields sf1.Typ).get? j = some sf2 ∧ sf2.Typ = t)) := by
      intro h1
      obtain ⟨k, sf1, a, b, c⟩ := ih (s + 1) idx t h1
      exact ⟨k + 1, sf1, by rw [a]; congr 1; omega, by simpa using b, c⟩
    simp only [matchFields] at h
    by_cases hk : sf.Typ.Kind = Kind.Struct
    · simp only [hk, if_true] at h
      cases htag : sf.Tag with
      | some tg =>
        simp only [htag, Option.isSome_some, if_true] at h
        cases hm : isMatch colName sf with
        | true =>
          simp only [hm, if_true, Option.some.injEq, Prod.mk.injEq] at h
          obtain ⟨h1, h2⟩ := h
          subst h1
          exact ⟨0, sf, by simp, by simp, Or.inl ⟨rfl, by simp [htag], h2⟩⟩
        | false =>
          simp only [hm, Bool.false_eq_true, if_false] at h
          exact next h
      | none =>
        simp only [htag, Option.isSome_none, Bool.false_eq_true, if_false] at h
        cases hn : matchNested colName s (nestedFields sf.Typ) 0 with
        | some r =>
          simp only [hn, Option.some.injEq] at h
          subst h
          obtain ⟨hi, j, sf2, hj, hget, ht, _, _⟩ := matchNested_loc colName s _ 0 idx t hn
          exact ⟨0, sf, by simpa using hi, by simp,
            Or.inr ⟨hk, htag, j, sf2, by simpa using hj, hget, ht⟩⟩
        | none =>
          simp only [hn] at h
          exact next h
    · simp only [hk, if_false] at h
      cases hm : isMatch colName sf with
      | true =>
        simp only [hm, if_true, Option.some.injEq, Prod.mk.injEq] at h
        obtain ⟨h1, h2⟩ := h
        subst h1
        exact ⟨0, sf, by simp, by simp, Or.inl ⟨rfl, by simp [hk], h2⟩⟩
      | false =>
        simp only [hm, Bool.false_eq_true, if_false] at h
        exact next h

theorem matchFields_valid (colName : String) (fs : List (StructField GoType))
    (idx : refIndex) (t : GoType) (h : matchFields colName fs 0 = some (idx, t)) :
    ValidLoc fs idx := by
  obtain ⟨k, sf, h1, h2, h3⟩ := matchFields_loc colName fs 0 idx t h
  refine ⟨k, sf, by simpa using h1, h2, ?_⟩
  rcases h3 with ⟨a, b, _⟩ | ⟨a, b, j, sf2, c, d, _⟩
  · exact Or.inl ⟨a, b⟩
  · exact Or.inr ⟨a, b, j, sf2, c, d⟩

theorem loopMap_valid (fs : List (StructField GoType)) (cols : List String) :
    ∀ e ∈ loopMap fs cols, ValidLoc fs e.1 := by
  intro e he
  obtain ⟨c, _, hm⟩ := loopMap_mem fs cols e he
  cases hmf : matchFields c fs 0 with
  | none => simp [hmf] at hm
  | some r =>
    obtain ⟨idx, t⟩ := r
    have hidx : idx = e.1 := by simpa [hmf] using hm
    subst hidx
    exact matchFields_valid c fs _ t hmf

theorem setField_ok (fs : List (StructField GoType)) (d d1 : GoValue) (i : Nat) (v : GoValue)
    (h : setField fs d i v = .ok d1) :
    ∃ vs sf, d = .struct vs ∧ fs.get? i = some sf ∧ sf.IsExported = true ∧
      d1 = .struct (vs.set i v) := by
  unfold setField at h
  split at h
  · rename_i vs sf hsf
    split at h
    · rename_i hexp
      exact ⟨vs, sf, rfl, hsf, hexp, by cases h; rfl⟩
    · cases h
  · cases h
  · cases h

theorem setField_eq (fs : List (StructField GoType)) (vs : List GoValue) (i : Nat) (v : GoValue)
    (sf : StructField GoType) (hsf : fs.get? i = some sf) (hexp : sf.IsExported = true) :
    setField fs (.struct vs) i v = .ok (.struct (vs.set i v)) := by
  unfold setField
  simp only [hsf, hexp, if_true]

theorem setNestedField_ok (fs : List (StructField GoType)) (d d1 : GoValue) (i j : Nat)
    (v : GoValue) (h : setNestedField fs d i j v = .ok d1) :
    ∃ vs sf ws sf2, d = .struct vs ∧ fs.get? i = some sf ∧ vs.getD i .nil = .struct ws ∧
      (nestedFields sf.Typ).get? j = some sf2 ∧
      (sf2.IsExported && (sf.IsExported || sf.Anonymous)) = true ∧
      d1 = .struct (vs.set i (.struct (ws.set j v))) := by
  unfold setNestedField at h
  split at h
  · rename_i vs sf hsf
    split at h
    · rename_i ws sf2 hws hsf2
      split at h
      · rename_i hexp
        exact ⟨vs, sf, ws, sf2, rfl, hsf, hws, hsf2, hexp, by cases h; rfl⟩
      · cases h
    · cases h
    · cases h
  · cases h
  · cases h

theorem setNestedField_eq (fs : List (StructField GoType)) (vs ws : List GoValue) (i j : Nat)
    (v : GoValue) (sf sf2 : StructField GoType) (hsf : fs.get? i = some sf)
    (hws : vs.getD i .nil = .struct ws) (hsf2 : (nestedFields sf.Typ).get? j = some sf2)
    (hexp : (sf2.IsExported && (sf.IsExported || sf.Anonymous)) = true) :
    setNestedField fs (.struct vs) i j v = .ok (.struct (vs.set i (.struct (ws.set j v)))) := by
  unfold setNestedField
  simp only [hsf, hws, hsf2, hexp, if_true]

theorem getD_struct_lt (vs ws : List GoValue) (i : Nat) (h : vs.getD i .nil = .struct ws) :
    i < vs.length ∧ vs.get? i = some (.struct ws) := by
  by_cases hlt : i < vs.length
  · refine ⟨hlt, ?_⟩
    simp only [List.getD_eq_getElem?_getD, List.getElem?_eq_getElem hlt, Option.getD_some] at h
    simp [List.get?_eq_getElem?, List.getElem?_eq_getElem hlt, h]
  · exfalso
    have : vs.getD i .nil = .nil := by
      simp [List.getD_eq_getElem?_getD, List.getElem?_eq_none (Nat.le_of_not_lt hlt)]
    rw [this] at h
    cases h

theorem getD_of_get? (vs : List GoValue) (i : Nat) (x : GoValue) (h : vs.get? i = some x) :
    vs.getD i .nil = x := by
  simp [List.getD_eq_getElem?_getD, ← List.get?_eq_getElem?, h]

theorem fieldAt_top (vs : List GoValue) (k : Nat) :
    fieldAt (.struct vs) ⟨(k : Int), -1⟩ = vs.get? k := by
  simp [fieldAt]

theorem fieldAt_nested (vs : List GoValue) (k j : Nat) :
    fieldAt (.struct vs) ⟨(k : Int), (j : Int)⟩ =
      match vs.get? k with
      | some (.struct ws) => ws.get? j
      | _ => none := by
  have hj : ¬ ((j : Int) < 0) := by omega
  simp only [fieldAt, hj, if_false, Int.toNat_ofNat]

theorem assignAt_top (fs : List (StructField GoType)) (d : GoValue) (k : Nat) (v : GoValue) :
    assignAt fs d ⟨(k : Int), -1⟩ v = setField fs d k v := by
  simp [assignAt]

theorem assignAt_nested (fs : List (StructField GoType)) (d : GoValue) (k j : Nat)
    (v : GoValue) :
    assignAt fs d ⟨(k : Int), (j : Int)⟩ v = setNestedField fs d k j v := by
  have hj : ¬ ((j : Int) < 0) := by omega
  simp only [assignAt, hj, if_false, Int.toNat_ofNat]

/-- One assignment of the copy-out loop at a location of the scan order, on a
well-shaped record value: the value keeps its shape, the located field holds
the assigned value, and the field at every other location is as before. -/
theorem assignAt_spec (fs : List (StructField GoType)) (d d1 : GoValue) (a : refIndex)
    (v : GoValue) (ha : ValidLoc fs a) (hd : WellShaped fs d)
    (h : assignAt fs d a v = .ok d1) :
    WellShaped fs d1 ∧ fieldAt d1 a = some v ∧
      ∀ b, ValidLoc fs b → b ≠ a → fieldAt d1 b = fieldAt d b := by
  obtain ⟨k, sf, hi, hsf, hcase⟩ := ha
  obtain ⟨vs0, hd0, hlen, hshape⟩ := hd
  subst hd0
  have hk : k < fs.length := (List.get?_eq_some.1 hsf).1
  obtain ⟨ai, aj⟩ := a
  simp only at hi hcase
  subst hi
  rcases hcase with ⟨hj, hnot⟩ | ⟨hst, htag, j, sf2, hj, hsf2⟩
  · -- a top-level location
    subst hj
    rw [assignAt_top] at h
    obtain ⟨vs, sf1, hdv, _, _, hd1⟩ := setField_ok fs _ d1 k v h
    cases hdv
    subst hd1
    refine ⟨⟨vs0.set k v, rfl, by simpa using hlen, ?_⟩, ?_, ?_⟩
    · intro i sfi hsfi hki hti
      have hne : k ≠ i := by
        intro e
        subst e
        rw [hsf] at hsfi
        cases hsfi
        exact hnot ⟨hki, hti⟩
      obtain ⟨ws, hws, hwl⟩ := hshape i sfi hsfi hki hti
      exact ⟨ws, by simpa [List.get?_eq_getElem?, List.getElem?_set, hne] using hws, hwl⟩
    · rw [fieldAt_top]
      simp [List.get?_eq_getElem?, List.getElem?_set, hlen, hk]
    · intro b hb hne
      obtain ⟨kb, sfb, hbi, hsfb, hbcase⟩ := hb
      obtain ⟨bi, bj⟩ := b
      simp only at hbi hbcase
      subst hbi
      by_cases hkk : kb = k
      · exfalso
        subst hkk
        rw [hsf] at hsfb
        cases hsfb
        rcases hbcase with ⟨hbj, _⟩ | ⟨h1, h2, _⟩
        · exact hne (by rw [hbj])
        · exact hnot ⟨h1, h2⟩
      · have hkk1 : k ≠ kb := fun e => hkk e.symm
        rcases hbcase with ⟨hbj, _⟩ | ⟨_, _, jb, _, hbj, _⟩
        · subst hbj
          simp [fieldAt_top, List.get?_eq_getElem?, List.getElem?_set, hkk1]
        · subst hbj
          simp [fieldAt_nested, List.get?_eq_getElem?, List.getElem?_set, hkk1]
  · -- an inner field of a nested record
    subst hj
    rw [assignAt_nested] at h
    obtain ⟨vs, sf1, ws, sf3, hdv, hsf1, hws, hsf3, _, hd1⟩ := setNestedField_ok fs _ d1 k j v h
    cases hdv
    subst hd1
    obtain ⟨hklt, hget⟩ := getD_struct_lt vs0 ws k hws
    obtain ⟨ws0, hws0, hwl0⟩ := hshape k sf hsf hst htag
    rw [hget] at hws0
    cases hws0
    have hjlt : j < ws.length := by
      rw [hwl0]
      exact (List.get?_eq_some.1 hsf2).1
    refine ⟨⟨_, rfl, by simpa using hlen, ?_⟩, ?_, ?_⟩
    · intro i sfi hsfi hki hti
      by_cases hik : k = i
      · subst hik
        rw [hsf] at hsfi
        cases hsfi
        exact ⟨ws.set j v, by simp [List.get?_eq_getElem?, List.getElem?_set, hklt],
          by simpa using hwl0⟩
      · obtain ⟨wsi, hwsi, hwli⟩ := hshape i sfi hsfi hki hti
        exact ⟨wsi, by simpa [List.get?_eq_getElem?, List.getElem?_set, hik] using hwsi, hwli⟩
    · rw [fieldAt_nested]
      simp [List.get?_eq_getElem?, List.getElem?_set, hklt, hjlt]
    · intro b hb hne
      obtain ⟨kb, sfb, hbi, hsfb, hbcase⟩ := hb
      obtain ⟨bi, bj⟩ := b
      simp only at hbi hbcase
      subst hbi
      by_cases hkk : kb = k
      · subst hkk
        rw [hsf] at hsfb
        cases hsfb
        rcases hbcase with ⟨_, hn⟩ | ⟨_, _, jb, _, hbj, _⟩
        · exact absurd ⟨hst, htag⟩ hn
        · subst hbj
          have hjj : j ≠ jb := by
            intro e
            subst e
            exact hne rfl
          rw [fieldAt_nested, fieldAt_nested, hget]
          simp [List.get?_eq_getElem?, List.getElem?_set, hklt, hjj]
      · have hkk1 : k ≠ kb := fun e => hkk e.symm
        rcases hbcase with ⟨hbj, _⟩ | ⟨_, _, jb, _, hbj, _⟩
        · subst hbj
          simp [fieldAt_top, List.get?_eq_getElem?, List.getElem?_set, hkk1]
        · subst hbj
          simp [fieldAt_nested, List.get?_eq_getElem?, List.getElem?_set, hkk1]

theorem copyOut_cons_ok (fs : List (StructField GoType)) (scanned : List Any)
    (idx : refIndex) (n : Nat) (rest : List (refIndex × Nat)) (d r : GoValue)
    (h : copyOut fs scanned ((idx, n) :: rest) d = .ok r) :
    ∃ v d1, holderValue scanned n = .ok v ∧ assignAt fs d idx v = .ok d1 ∧
      copyOut fs scanned rest d1 = .ok r := by
  simp only [copyOut] at h
  cases hv : holderValue scanned n with
  | panic t => simp [hv] at h
  | ok v =>
    simp only [hv] at h
    cases ha : assignAt fs d idx v with
    | panic t =>
      simp only [assignAt] at ha
      simp [ha] at h
    | ok d1 =>
      refine ⟨v, d1, rfl, ha, ?_⟩
      simp only [assignAt] at ha
      simpa [ha] using h

theorem copyOut_cons_of (fs : List (StructField GoType)) (scanned : List Any)
    (idx : refIndex) (n : Nat) (rest : List (refIndex × Nat)) (d d1 r : GoValue) (v : GoValue)
    (hv : holderValue scanned n = .ok v) (ha : assignAt fs d idx v = .ok d1)
    (hr : copyOut fs scanned rest d1 = .ok r) :
    copyOut fs scanned ((idx, n) :: rest) d = .ok r := by
  simp only [assignAt] at ha
  simp only [copyOut, hv, ha, hr]

/-- The copy-out loop over a map whose keys are distinct locations of the
scan order, on a well-shaped record value, when it completes: the value
keeps its shape, the field at each key holds the value of the holder of the
key's column, and the field at every other location is as before. -/
theorem copyOut_fieldAt (fs : List (StructField GoType)) (scanned : List Any) :
    ∀ (m : List (refIndex × Nat)) (d r : GoValue),
      (m.map Prod.fst).Nodup → (∀ e ∈ m, ValidLoc fs e.1) → WellShaped fs d →
      copyOut fs scanned m d = .ok r →
      WellShaped fs r ∧ ∀ idx, ValidLoc fs idx →
        (∀ n, m.lookup idx = some n →
          ∃ v, holderValue scanned n = .ok v ∧ fieldAt r idx = some v) ∧
        (m.lookup idx = none → fieldAt r idx = fieldAt d idx) := by
  intro m
  induction m with
  | nil =>
    intro d r _ _ hd h
    simp only [copyOut, Result.ok.injEq] at h
    subst h
    exact ⟨hd, fun idx _ => ⟨fun n hn => by simp [List.lookup] at hn, fun _ => rfl⟩⟩
  | cons e rest ih =>
    intro d r hnd hval hd h
    obtain ⟨a, n⟩ := e
    obtain ⟨v, d1, hv, ha, hr⟩ := copyOut_cons_ok fs scanned a n rest d r h
    simp only [List.map_cons, List.nodup_cons] at hnd
    obtain ⟨hs1, hself, hframe⟩ :=
      assignAt_spec fs d d1 a v (hval (a, n) (List.mem_cons_self _ _)) hd ha
    obtain ⟨hsr, hall⟩ := ih d1 r hnd.2 (fun x hx => hval x (List.mem_cons_of_mem _ hx)) hs1 hr
    refine ⟨hsr, ?_⟩
    intro idx hidx
    by_cases hia : idx = a
    · subst hia
      have hnone : rest.lookup idx = none := by
        rw [List.lookup_eq_none_iff]
        intro x hx
        simp only [bne_iff_ne, ne_eq]
        intro hk
        exact hnd.1 (List.mem_map.2 ⟨x, hx, hk.symm⟩)
      constructor
      · intro n1 hn1
        simp only [List.lookup, beq_self_eq_true, Option.some.injEq] at hn1
        subst hn1
        exact ⟨v, hv, by rw [(hall idx hidx).2 hnone]; exact hself⟩
      · intro hl
        simp [List.lookup] at hl
    · have hb : (idx == a) = false := by simpa using hia
      simp only [List.lookup, hb]
      constructor
      · intro n1 hn1
        exact (hall idx hidx).1 n1 hn1
      · intro hl
        rw [(hall idx hidx).2 hl]
        exact hframe idx hidx hia

theorem getD_set_ne (vs : List GoValue) (i k : Nat) (x : GoValue) (h : i ≠ k) :
    (vs.set i x).getD k .nil = vs.getD k .nil := by
  simp [List.getD_eq_getElem?_getD, List.getElem?_set, h]

theorem getD_set_self (vs : List GoValue) (i : Nat) (x : GoValue) (h : i < vs.length) :
    (vs.set i x).getD i .nil = x := by
  simp [List.getD_eq_getElem?_getD, List.getElem?_set, h]

/-- Two assignments of the copy-out loop at locations that are apart can be
made in either order: when one order completes, so does the other, with the
same value. -/
theorem assignAt_comm (fs : List (StructField GoType)) (d d1 d2 : GoValue) (a b : refIndex)
    (va vb : GoValue) (hab : Apart a b)
    (h1 : assignAt fs d a va = .ok d1) (h2 : assignAt fs d1 b vb = .ok d2) :
    ∃ e1, assignAt fs d b vb = .ok e1 ∧ assignAt fs e1 a va = .ok d2 := by
  unfold assignAt at h1 h2 ⊢
  by_cases haj : a.j < 0 <;> by_cases hbj : b.j < 0
  · -- both top-level
    simp only [haj, hbj, if_true] at h1 h2 ⊢
    have hne : a.i.toNat ≠ b.i.toNat := by
      rcases hab with h | ⟨h, _, _⟩
      · exact h
      · exact absurd haj h
    obtain ⟨vs, sfa, hd, hsfa, hexa, hd1⟩ := setField_ok fs d d1 _ va h1
    subst hd hd1
    obtain ⟨vs1, sfb, hd, hsfb, hexb, hd2⟩ := setField_ok fs _ d2 _ vb h2
    cases hd
    subst hd2
    refine ⟨_, setField_eq fs vs _ vb sfb hsfb hexb, ?_⟩
    rw [setField_eq fs _ _ va sfa hsfa hexa, List.set_comm _ _ _ hne]
  · -- a top-level, b nested
    simp only [haj, hbj, if_true, if_false] at h1 h2 ⊢
    have hne : a.i.toNat ≠ b.i.toNat := by
      rcases hab with h | ⟨h, _, _⟩
      · exact h
      · exact absurd haj h
    obtain ⟨vs, sfa, hd, hsfa, hexa, hd1⟩ := setField_ok fs d d1 _ va h1
    subst hd hd1
    obtain ⟨vs1, sfb, ws, sf2, hd, hsfb, hws, hsf2, hexb, hd2⟩ :=
      setNestedField_ok fs _ d2 _ _ vb h2
    cases hd
    subst hd2
    rw [getD_set_ne vs _ _ va hne] at hws
    refine ⟨_, setNestedField_eq fs vs ws _ _ vb sfb sf2 hsfb hws hsf2 hexb, ?_⟩
    rw [setField_eq fs _ _ va sfa hsfa hexa, List.set_comm _ _ _ hne]
  · -- a nested, b top-level
    simp only [haj, hbj, if_true, if_false] at h1 h2 ⊢
    have hne : a.i.toNat ≠ b.i.toNat := by
      rcases hab with h | ⟨_, h, _⟩
      · exact h
      · exact absurd hbj h
    obtain ⟨vs, sfa, ws, sf2, hd, hsfa, hws, hsf2, hexa, hd1⟩ :=
      setNestedField_ok fs d d1 _ _ va h1
    subst hd hd1
    obtain ⟨vs1, sfb, hd, hsfb, hexb, hd2⟩ := setField_ok fs _ d2 _ vb h2
    cases hd
    subst hd2
    refine ⟨_, setField_eq fs vs _ vb sfb hsfb hexb, ?_⟩
    have hws1 : (vs.set b.i.toNat vb).getD a.i.toNat .nil = .struct ws := by
      rw [getD_set_ne vs _ _ vb (fun e => hne e.symm)]; exact hws
    rw [setNestedField_eq fs _ ws _ _ va sfa sf2 hsfa hws1 hsf2 hexa,
      List.set_comm _ _ _ hne]
  · -- both nested
    simp only [haj, hbj, if_false] at h1 h2 ⊢
    obtain ⟨vs, sfa, ws, sf2, hd, hsfa, hws, hsf2, hexa, hd1⟩ :=
      setNestedField_ok fs d d1 _ _ va h1
    subst hd hd1
    obtain ⟨vs1, sfb, wsb, sf3, hd, hsfb, hwsb, hsf3, hexb, hd2⟩ :=
      setNestedField_ok fs _ d2 _ _ vb h2
    cases hd
    subst hd2
    by_cases hne : a.i.toNat = b.i.toNat
    · -- two inner fields of the same nested record
      have hjj : a.j.toNat ≠ b.j.toNat := by
        rcases hab with h | ⟨_, _, h⟩
        · exact absurd hne h
        · exact h
      obtain ⟨hlt, _⟩ := getD_struct_lt vs ws _ hws
      rw [← hne, getD_set_self vs _ _ hlt] at hwsb
      cases hwsb
      rw [← hne] at hsfb
      rw [hsfa] at hsfb
      cases hsfb
      have hws2 : vs.getD b.i.toNat .nil = .struct ws := by rw [← hne]; exact hws
      refine ⟨_, setNestedField_eq fs vs ws _ _ vb sfa sf3 (by rw [← hne]; exact hsfa)
        hws2 hsf3 hexb, ?_⟩
      have hws3 : (vs.set b.i.toNat (.struct (ws.set b.j.toNat vb))).getD a.i.toNat .nil
          = .struct (ws.set b.j.toNat vb) := by
        rw [hne]; exact getD_set_self vs _ _ (by rw [← hne]; exact hlt)
      rw [setNestedField_eq fs _ _ _ _ va sfa sf2 hsfa hws3 hsf2 hexa]
      rw [← hne, List.set_set, List.set_set, List.set_comm _ _ _ hjj]
    · rw [getD_set_ne vs _ _ _ hne] at hwsb
      refine ⟨_, setNestedField_eq fs vs wsb _ _ vb sfb sf3 hsfb hwsb hsf3 hexb, ?_⟩
      have hws1 : (vs.set b.i.toNat (.struct (wsb.set b.j.toNat vb))).getD a.i.toNat .nil
          = .struct ws := by
        rw [getD_set_ne vs _ _ _ (fun e => hne e.symm)]; exact hws
      rw [setNestedField_eq fs _ ws _ _ va sfa sf2 hsfa hws1 hsf2 hexa,
        List.set_comm _ _ _ hne]

theorem Apart.symm {a b : refIndex} (h : Apart a b) : Apart b a := by
  rcases h with h | ⟨h1, h2, h3⟩
  · exact Or.inl (fun e => h e.symm)
  · exact Or.inr ⟨h2, h1, fun e => h3 e.symm⟩

theorem ValidLoc.apart {fs : List (StructField GoType)} {a b : refIndex}
    (ha : ValidLoc fs a) (hb : ValidLoc fs b) (hne : a ≠ b) : Apart a b := by
  obtain ⟨ka, sfa, hai, hsfa, hca⟩ := ha
  obtain ⟨kb, sfb, hbi, hsfb, hcb⟩ := hb
  obtain ⟨ai, aj⟩ := a
  obtain ⟨bi, bj⟩ := b
  simp only at hai hbi hca hcb
  subst hai hbi
  by_cases hk : ka = kb
  · subst hk
    rw [hsfa] at hsfb
    cases hsfb
    rcases hca with ⟨haj, hna⟩ | ⟨h1, h2, ja, _, haj, _⟩
    · rcases hcb with ⟨hbj, _⟩ | ⟨h3, h4, _⟩
      · exact absurd (by rw [haj, hbj]) hne
      · exact absurd ⟨h3, h4⟩ hna
    · rcases hcb with ⟨_, hnb⟩ | ⟨_, _, jb, _, hbj, _⟩
      · exact absurd ⟨h1, h2⟩ hnb
      · subst haj hbj
        refine Or.inr ⟨by simp, by simp, ?_⟩
        simp only [Int.toNat_ofNat]
        intro e
        exact hne (by rw [e])
  · exact Or.inl (by simpa using hk)

theorem copyOut_perm (fs : List (StructField GoType)) (scanned : List Any)
    {m m1 : List (refIndex × Nat)} (hp : m.Perm m1) :
    m.Pairwise (fun x y => Apart x.1 y.1) →
    ∀ d r, copyOut fs scanned m d = .ok r → copyOut fs scanned m1 d = .ok r := by
  have hsymm : ∀ {x y : refIndex × Nat}, Apart x.1 y.1 → Apart y.1 x.1 := fun h => h.symm
  induction hp with
  | nil => intro _ d r h; exact h
  | cons x p ih =>
    intro hpw d r h
    obtain ⟨a, n⟩ := x
    obtain ⟨v, d1, hv, ha, hr⟩ := copyOut_cons_ok fs scanned a n _ d r h
    exact copyOut_cons_of fs scanned a n _ d d1 r v hv ha
      (ih (List.pairwise_cons.1 hpw).2 d1 r hr)
  | swap x y l =>
    intro hpw d r h
    obtain ⟨a, n⟩ := x
    obtain ⟨b, k⟩ := y
    obtain ⟨vb, d1, hvb, hb, hr1⟩ := copyOut_cons_ok fs scanned b k _ d r h
    obtain ⟨va, d2, hva, ha, hr2⟩ := copyOut_cons_ok fs scanned a n _ d1 r hr1
    have hab : Apart b a := (List.pairwise_cons.1 hpw).1 (a, n) (List.mem_cons_self _ _)
    obtain ⟨e1, he1, he2⟩ := assignAt_comm fs d d1 d2 b a vb va hab hb ha
    exact copyOut_cons_of fs scanned a n _ d e1 r va hva he1
      (copyOut_cons_of fs scanned b k _ e1 d2 r vb hvb he2 hr2)
  | trans p1 _ ih1 ih2 =>
    intro hpw d r h
    exact ih2 ((p1.pairwise_iff hsymm).1 hpw) d r (ih1 hpw d r h)

theorem loopMap_pairwise (fs : List (StructField GoType)) (cols : List String) :
    (loopMap fs cols).Pairwise (fun x y => Apart x.1 y.1) := by
  have hnd := loopMap_keys_nodup fs cols
  have hval := loopMap_valid fs cols
  rw [List.Nodup, List.pairwise_map] at hnd
  exact hnd.imp_of_mem (fun hx hy hne => (hval _ hx).apart (hval _ hy) hne)

/-- A successful `GetRowData` on a pointer to a record value: the cursor is
open, the scan of the row succeeded, and the copy-out loop completed with
the new record value. -/
theorem GetRowData_ok_inv (conv : Conv) (rows : Rows) (fields : List (StructField GoType))
    (d0 : GoValue) (dest1 : Any)
    (hok : GetRowData conv rows (some ⟨.ptr (.struct fields), .ptr (some d0)⟩)
      = .ok (none, dest1)) :
    ∃ scanned d1, rows.Scan conv (rows.columns.map (holderFor fields)) = .ok scanned ∧
      copyOut fields scanned (loopMap fields rows.columns) d0 = .ok d1 ∧
      dest1 = some ⟨.ptr (.struct fields), .ptr (some d1)⟩ := by
  rw [GetRowData_struct] at hok
  cases hcl : rows.closed with
  | true => simp [hcl] at hok
  | false =>
    simp only [hcl, Bool.false_eq_true, if_false] at hok
    cases hs : rows.Scan conv (rows.columns.map (holderFor fields)) with
    | error e => simp [hs] at hok
    | ok scanned =>
      simp only [hs] at hok
      cases hm : loopMap fields rows.columns with
      | nil =>
        simp only [hm, Result.ok.injEq, Prod.mk.injEq, true_and] at hok
        exact ⟨scanned, d0, rfl, rfl, hok.symm⟩
      | cons e rest =>
        simp only [hm] at hok
        cases hc : copyOut fields scanned (e :: rest) d0 with
        | panic t => simp [hc] at hok
        | ok d1 =>
          simp only [hc, Result.ok.injEq, Prod.mk.injEq, true_and] at hok
          exact ⟨scanned, d1, rfl, hc, hok.symm⟩

/-- C15. If two result columns at positions `m < n` both resolve to the same
destination field, top-level or nested, and no later column resolves to it,
then after a successful `GetRowData` on a well-shaped record that field
holds the value scanned for column `n`; and the copy-out loop yields the same
record in whatever order it visits the entries of the map. -/
theorem last_column_wins (conv : Conv) (rows : Rows) (fields : List (StructField GoType))
    (vs : List GoValue) (dest1 : Any) (m n : Nat) (cm cn : String) (idx : refIndex)
    (hshape : WellShaped fields (.struct vs))
    (hok : GetRowData conv rows (some ⟨.ptr (.struct fields), .ptr (some (.struct vs))⟩)
      = .ok (none, dest1))
    (hmn : m < n)
    (hm : rows.columns.get? m = some cm) (hn : rows.columns.get? n = some cn)
    (hrm : (firstMatch cm fields).map Prod.fst = some idx)
    (hrn : (firstMatch cn fields).map Prod.fst = some idx)
    (hlast : ∀ k c, n < k → rows.columns.get? k = some c →
      (firstMatch c fields).map Prod.fst ≠ some idx) :
    ∃ vs1 row sv t v scanned,
      dest1 = some ⟨.ptr (.struct fields), .ptr (some (.struct vs1))⟩ ∧
      rows.lastcols = some row ∧ row.get? n = some sv ∧
      matchFields cn fields 0 = some (idx, t) ∧ conv t sv = .ok v ∧
      fieldAt (.struct vs1) idx = some v ∧
      rows.Scan conv (rows.columns.map (holderFor fields)) = .ok scanned ∧
      ∀ order : List (refIndex × Nat), order.Perm (loopMap fields rows.columns) →
        copyOut fields scanned order (.struct vs) = .ok (.struct vs1) := by
  have _ : m ≠ n := Nat.ne_of_lt hmn
  have _ := hm
  have _ := hrm
  obtain ⟨scanned, d1, hscan, hcopy, hd1⟩ := GetRowData_ok_inv conv rows fields _ dest1 hok
  obtain ⟨_, row, hrow, _, _⟩ := Scan_ok conv rows _ scanned hscan
  obtain ⟨hs1, hall⟩ := copyOut_fieldAt fields scanned (loopMap fields rows.columns) _ d1
    (loopMap_keys_nodup fields rows.columns) (loopMap_valid fields rows.columns) hshape hcopy
  obtain ⟨vs1, hvs1, _, _⟩ := hs1
  subst hvs1
  have hrn1 : (matchFields cn fields 0).map Prod.fst = some idx := by rw [resolve_fst]; exact hrn
  cases hmf : matchFields cn fields 0 with
  | none => simp [hmf] at hrn1
  | some r =>
    obtain ⟨idx1, t⟩ := r
    have hidx : idx1 = idx := by simpa [hmf] using hrn1
    subst hidx
    have hvalid := matchFields_valid cn fields idx1 t hmf
    have hlc := lastColumn_last fields idx1 rows.columns 0 n cn hn hrn1
      (fun k c hlt hc => by rw [resolve_fst]; exact hlast k c hlt hc)
    simp only [Nat.zero_add] at hlc
    obtain ⟨v, hv, hfield⟩ := (hall idx1 hvalid).1 n (by rw [loopMap_lookup]; exact hlc)
    obtain ⟨v1, sv, hsv, hconv, hv1⟩ :=
      scanned_value conv rows fields scanned row hrow hscan n cn idx1 t hn hmf
    rw [hv] at hv1
    cases hv1
    refine ⟨vs1, row, sv, t, v, scanned, hd1, hrow, hsv, rfl, hconv, hfield, hscan, ?_⟩
    intro order hperm
    exact copyOut_perm fields scanned hperm.symm (loopMap_pairwise fields rows.columns) _ _ hcopy

/-- C15 at a concrete input: a record with the field `A` and a nested record
`In` with the field `X`, and a row with the columns `X`, `A`, `X` holding
1, 5, 2; both `X` columns resolve to the inner field, which ends as 2. -/
theorem last_column_wins_witness :
    ∃ vs1 row sv t v scanned,
      (some ⟨.ptr (.struct [fld "A" .int none, fld "In" (.struct [fld "X" .int none]) none]),
          .ptr (some (.struct [.int 5, .struct [.int 2]]))⟩ : Any)
        = some ⟨.ptr (.struct [fld "A" .int none, fld "In" (.struct [fld "X" .int none]) none]),
            .ptr (some (.struct vs1))⟩ ∧
      (rowsOn ["X", "A", "X"] [.int64 1, .int64 5, .int64 2]).lastcols = some row ∧
      row.get? 2 = some sv ∧
      matchFields "X" [fld "A" .int none, fld "In" (.struct [fld "X" .int none]) none] 0
        = some (⟨1, 0⟩, t) ∧
      exampleConv t sv = .ok v ∧
      fieldAt (.struct vs1) ⟨1, 0⟩ = some v ∧
      (rowsOn ["X", "A", "X"] [.int64 1, .int64 5, .int64 2]).Scan exampleConv
        ((rowsOn ["X", "A", "X"] [.int64 1, .int64 5, .int64 2]).columns.map
          (holderFor [fld "A" .int none, fld "In" (.struct [fld "X" .int none]) none]))
        = .ok scanned ∧
      ∀ order : List (refIndex × Nat),
        order.Perm (loopMap [fld "A" .int none, fld "In" (.struct [fld "X" .int none]) none]
          (rowsOn ["X", "A", "X"] [.int64 1, .int64 5, .int64 2]).columns) →
        copyOut [fld "A" .int none, fld "In" (.struct [fld "X" .int none]) none] scanned order
          (.struct [.int 0, .struct [.int 0]]) = .ok (.struct vs1) :=
  last_column_wins exampleConv (rowsOn ["X", "A", "X"] [.int64 1, .int64 5, .int64 2])
    [fld "A" .int none, fld "In" (.struct [fld "X" .int none]) none]
    [.int 0, .struct [.int 0]] _ 0 2 "X" "X" ⟨1, 0⟩
    (by
      refine ⟨_, rfl, rfl, ?_⟩
      intro i sf hsf hk ht
      match i, hsf with
      | 0, hsf => simp [fld] at hsf; subst hsf; simp [GoType.Kind] at hk
      | 1, hsf => simp [fld] at hsf; subst hsf; exact ⟨[.int 0], rfl, rfl⟩
      | (k + 2), hsf => simp at hsf)
    (by rfl) (by decide) (by rfl) (by rfl) (by rfl) (by rfl)
    (by
      intro k c hk hc
      have : (rowsOn ["X", "A", "X"] [.int64 1, .int64 5, .int64 2]).columns.get? k = none := by
        simp only [rowsOn, List.get?_eq_getElem?]
        apply List.getElem?_eq_none
        simp
        omega
      rw [this] at hc
      cases hc)

/-! ## Nested record against top-level field -/

theorem matchFields_first (colName : String) :
    ∀ (fs : List (StructField GoType)) (s : Nat) (idx : refIndex) (t : GoType),
      matchFields colName fs s = some (idx, t) →
      ∃ k sf, idx.i = ((s + k : Nat) : Int) ∧ fs.get? k = some sf ∧
        (∀ k1 sf1, k1 < k → fs.get? k1 = some sf1 → fieldHasMatch colName sf1 = false) ∧
        ((idx.j = -1 ∧ ¬ (sf.Typ.Kind = Kind.Struct ∧ sf.Tag = none) ∧ sf.Typ = t ∧
            isMatch colName sf = true) ∨
         (sf.Typ.Kind = Kind.Struct ∧ sf.Tag = none ∧
          ∃ (j : Nat) (sf2 : StructField GoType), idx.j = (j : Int) ∧
            (nestedFields sf.Typ).get? j = some sf2 ∧ sf2.Typ = t ∧
            isMatch colName sf2 = true ∧
            ∀ j1 sf1, j1 < j → (nestedFields sf.Typ).get? j1 = some sf1 →
              isMatch colName sf1 = false)) := by
  intro fs
  induction fs with
  | nil => intro s idx t h; simp [matchFields] at h
  | cons sf rest ih =>
    intro s idx t h
    have next : fieldHasMatch colName sf = false →
        matchFields colName rest (s + 1) = some (idx, t) →
        ∃ k sf0, idx.i = ((s + k : Nat) : Int) ∧ (sf :: rest).get? k = some sf0 ∧
        (∀ k1 sf1, k1 < k → (sf :: rest).get? k1 = some sf1 →
          fieldHasMatch colName sf1 = false) ∧
        ((idx.j = -1 ∧ ¬ (sf0.Typ.Kind = Kind.Struct ∧ sf0.Tag = none) ∧ sf0.Typ = t ∧
            isMatch colName sf0 = true) ∨
         (sf0.Typ.Kind = Kind.Struct ∧ sf0.Tag = none ∧
          ∃ (j : Nat) (sf2 : StructField GoType), idx.j = (j : Int) ∧
            (nestedFields sf0.Typ).get? j = some sf2 ∧ sf2.Typ = t ∧
            isMatch colName sf2 = true ∧
            ∀ j1 sf1, j1 < j → (nestedFields sf0.Typ).get? j1 = some sf1 →
              isMatch colName sf1 = false)) := by
      intro hhead h1
      obtain ⟨k, sf0, a, b, c, d⟩ := ih (s + 1) idx t h1
      refine ⟨k + 1, sf0, by rw [a]; congr 1; omega, by simpa using b, ?_, d⟩
      intro k1 sf1 hk hget
      cases k1 with
      | zero =>
        simp only [List.get?_cons_zero, Option.some.injEq] at hget
        subst hget; exact hhead
      | succ k0 =>
        simp only [List.get?_cons_succ] at hget
        exact c k0 sf1 (by omega) hget
    simp only [matchFields] at h
    by_cases hk : sf.Typ.Kind = Kind.Struct
    · simp only [hk, if_true] at h
      cases htag : sf.Tag with
      | some tg =>
        simp only [htag, Option.isSome_some, if_true] at h
        cases hm : isMatch colName sf with
        | true =>
          simp only [hm, if_true, Option.some.injEq, Prod.mk.injEq] at h
          obtain ⟨h1, h2⟩ := h
          subst h1
          exact ⟨0, sf, by simp, by simp, fun k1 _ hk1 => by omega,
            Or.inl ⟨rfl, by simp [htag], h2, hm⟩⟩
        | false =>
          simp only [hm, Bool.false_eq_true, if_false] at h
          exact next (by simp [fieldHasMatch, htag, hm]) h
      | none =>
        simp only [htag, Option.isSome_none, Bool.false_eq_true, if_false] at h
        cases hn : matchNested colName s (nestedFields sf.Typ) 0 with
        | some r =>
          simp only [hn, Option.some.injEq] at h
          subst h
          obtain ⟨hi, j, sf2, hj, hget, ht, hmj, hfirst⟩ :=
            matchNested_loc colName s _ 0 idx t hn
          exact ⟨0, sf, by simpa using hi, by simp, fun k1 _ hk1 => by omega,
            Or.inr ⟨hk, htag, j, sf2, by simpa using hj, hget, ht, hmj, hfirst⟩⟩
        | none =>
          simp only [hn] at h
          refine next ?_ h
          have hall := matchNested_none colName s _ 0 hn
          simp only [fieldHasMatch, hk, htag, and_self, if_true, List.any_eq_false]
          intro x hx
          simp [hall x hx]
    · simp only [hk, if_false] at h
      cases hm : isMatch colName sf with
      | true =>
        simp only [hm, if_true, Option.some.injEq, Prod.mk.injEq] at h
        obtain ⟨h1, h2⟩ := h
        subst h1
        exact ⟨0, sf, by simp, by simp, fun k1 _ hk1 => by omega,
          Or.inl ⟨rfl, by simp [hk], h2, hm⟩⟩
      | false =>
        simp only [hm, Bool.false_eq_true, if_false] at h
        exact next (by simp [fieldHasMatch, hk, hm]) h

theorem matchFields_none (colName : String) :
    ∀ (fs : List (StructField GoType)) (s : Nat), matchFields colName fs s = none →
      ∀ sf ∈ fs, fieldHasMatch colName sf = false := by
  intro fs
  induction fs with
  | nil => intro s _ sf hsf; cases hsf
  | cons sf0 rest ih =>
    intro s h sf hsf
    simp only [matchFields] at h
    have hhead : fieldHasMatch colName sf0 = false ∧ matchFields colName rest (s + 1) = none := by
      by_cases hk : sf0.Typ.Kind = Kind.Struct
      · simp only [hk, if_true] at h
        cases htag : sf0.Tag with
        | some tg =>
          simp only [htag, Option.isSome_some, if_true] at h
          cases hm : isMatch colName sf0 with
          | true => simp [hm] at h
          | false =>
            simp only [hm, Bool.false_eq_true, if_false] at h
            exact ⟨by simp [fieldHasMatch, htag, hm], h⟩
        | none =>
          simp only [htag, Option.isSome_none, Bool.false_eq_true, if_false] at h
          cases hn : matchNested colName s (nestedFields sf0.Typ) 0 with
          | some r => simp [hn] at h
          | none =>
            simp only [hn] at h
            refine ⟨?_, h⟩
            have hall := matchNested_none colName s _ 0 hn
            simp only [fieldHasMatch, hk, htag, and_self, if_true, List.any_eq_false]
            intro x hx
            simp [hall x hx]
      · simp only [hk, if_false] at h
        cases hm : isMatch colName sf0 with
        | true => simp [hm] at h
        | false =>
          simp only [hm, Bool.false_eq_true, if_false] at h
          exact ⟨by simp [fieldHasMatch, hk, hm], h⟩
    rcases List.mem_cons.1 hsf with h1 | h1
    · rw [h1]; exact hhead.1
    · exact ih (s + 1) hhead.2 sf h1

/-- Resolution of a column that matches the inner field `j` of the nested
record at position `a` and the top-level field at position `b`, when no
field declared before both has a match: the one declared first wins. -/
theorem nested_or_top_resolution (c : String) (fields : List (StructField GoType))
    (a b j : Nat) (sub top inn : StructField GoType)
    (ha : fields.get? a = some sub)
    (hsub : sub.Typ.Kind = Kind.Struct ∧ sub.Tag = none)
    (hb : fields.get? b = some top)
    (htop : ¬ (top.Typ.Kind = Kind.Struct ∧ top.Tag = none))
    (hj : (nestedFields sub.Typ).get? j = some inn)
    (hmi : isMatch c inn = true)
    (hfirstj : ∀ j1 sf1, j1 < j → (nestedFields sub.Typ).get? j1 = some sf1 →
      isMatch c sf1 = false)
    (hmt : isMatch c top = true)
    (hbefore : ∀ k sf, k < a → k < b → fields.get? k = some sf →
      fieldHasMatch c sf = false) :
    (a < b → matchFields c fields 0 = some (⟨(a : Int), (j : Int)⟩, inn.Typ)) ∧
    (b < a → matchFields c fields 0 = some (⟨(b : Int), -1⟩, top.Typ)) := by
  have htopm : fieldHasMatch c top = true := by
    simp only [fieldHasMatch, htop, if_false]; exact hmt
  have hsubm : fieldHasMatch c sub = true := by
    simp only [fieldHasMatch, hsub, and_self, if_true, List.any_eq_true]
    exact ⟨inn, List.get?_mem hj, hmi⟩
  cases hmf : matchFields c fields 0 with
  | none =>
    have := matchFields_none c fields 0 hmf top (List.get?_mem hb)
    rw [htopm] at this; cases this
  | some r =>
    obtain ⟨idx, t⟩ := r
    obtain ⟨k, sf, hi, hget, hprev, hcase⟩ := matchFields_first c fields 0 idx t hmf
    simp only [Nat.zero_add] at hi
    have hsfm : fieldHasMatch c sf = true := by
      rcases hcase with ⟨_, hns, _, hm⟩ | ⟨hk, htg, j1, sf2, _, hg2, _, hm2, _⟩
      · simp only [fieldHasMatch, hns, if_false]; exact hm
      · simp only [fieldHasMatch, hk, htg, and_self, if_true, List.any_eq_true]
        exact ⟨sf2, List.get?_mem hg2, hm2⟩
    have hka : ¬ a < k := by
      intro hlt
      have := hprev a sub hlt ha
      rw [hsubm] at this; cases this
    have hkb : ¬ b < k := by
      intro hlt
      have := hprev b top hlt hb
      rw [htopm] at this; cases this
    have hkmin : ¬ (k < a ∧ k < b) := by
      rintro ⟨h1, h2⟩
      have := hbefore k sf h1 h2 hget
      rw [hsfm] at this; cases this
    constructor
    · intro hab
      have hk : k = a := by omega
      subst hk
      rw [ha] at hget
      cases hget
      rcases hcase with ⟨_, hns, _, _⟩ | ⟨_, _, j1, sf2, hj1, hg2, ht, hm2, hfirst⟩
      · exact absurd hsub hns
      · have hjj : j1 = j := by
          rcases Nat.lt_trichotomy j1 j with h | h | h
          · have := hfirstj j1 sf2 h hg2
            rw [hm2] at this; cases this
          · exact h
          · have := hfirst j inn h hj
            rw [hmi] at this; cases this
        subst hjj
        rw [hj] at hg2
        cases hg2
        cases idx
        simp only at hi hj1
        subst hi; subst hj1; subst ht
        rfl
    · intro hba
      have hk : k = b := by omega
      subst hk
      rw [hb] at hget
      cases hget
      rcases hcase with ⟨hj1, _, ht, _⟩ | ⟨hk1, htg, _⟩
      · cases idx
        simp only at hi hj1
        subst hi; subst hj1; subst ht
        rfl
      · exact absurd ⟨hk1, htg⟩ htop

/-- After a successful copy-out, when column `n` is the only column that
resolves to either of two locations and it resolves to `win`: the field at
`win` holds the value scanned for the column and the field at `lose` is as
before. -/
theorem one_column_two_fields (conv : Conv) (rows : Rows)
    (fields : List (StructField GoType)) (d0 d1 : GoValue) (scanned : List Any)
    (row : List DriverValue)
    (hshape : WellShaped fields d0)
    (hrow : rows.lastcols = some row)
    (hscan : rows.Scan conv (rows.columns.map (holderFor fields)) = .ok scanned)
    (hcopy : copyOut fields scanned (loopMap fields rows.columns) d0 = .ok d1)
    (n : Nat) (c : String) (win lose : refIndex) (t : GoType)
    (hn : rows.columns.get? n = some c)
    (hres : matchFields c fields 0 = some (win, t))
    (hlose : ValidLoc fields lose) (hne : win ≠ lose)
    (hother : ∀ k ck, k ≠ n → rows.columns.get? k = some ck →
      (matchFields ck fields 0).map Prod.fst ≠ some win ∧
      (matchFields ck fields 0).map Prod.fst ≠ some lose) :
    ∃ sv v, row.get? n = some sv ∧ conv t sv = .ok v ∧
      fieldAt d1 win = some v ∧ fieldAt d1 lose = fieldAt d0 lose := by
  obtain ⟨_, hall⟩ := copyOut_fieldAt fields scanned (loopMap fields rows.columns) d0 d1
    (loopMap_keys_nodup fields rows.columns) (loopMap_valid fields rows.columns) hshape hcopy
  have hwin := matchFields_valid c fields win t hres
  have hlc := lastColumn_last fields win rows.columns 0 n c hn (by simp [hres])
    (fun k ck hlt hck => (hother k ck (by omega) hck).1)
  simp only [Nat.zero_add] at hlc
  obtain ⟨v, hv, hfield⟩ := (hall win hwin).1 n (by rw [loopMap_lookup]; exact hlc)
  obtain ⟨v1, sv, hsv, hconv, hv1⟩ :=
    scanned_value conv rows fields scanned row hrow hscan n c win t hn hres
  rw [hv] at hv1
  cases hv1
  have hnone : lastColumn fields lose rows.columns 0 = none := by
    apply lastColumn_none
    intro c1 hc1
    obtain ⟨k, hk⟩ := List.mem_iff_get?.1 hc1
    by_cases hkn : k = n
    · subst hkn
      rw [hn] at hk
      cases hk
      simp only [hres, Option.map_some', ne_eq, Option.some.injEq]
      exact hne
    · exact (hother k c1 hkn hk).2
  exact ⟨sv, v, hsv, hconv, hfield,
    (hall lose hlose).2 (by rw [loopMap_lookup]; exact hnone)⟩

/-- C16. In a record whose field at position `a` is a nested record without
a hint and whose field at position `b` is an ordinary top-level field, let a
column match the inner field `j` of the nested record (its first matching
inner field) and the top-level field `b`, with no match in a field declared
before both, and let it be the only column of the row resolving to either
field. After a successful `GetRowData` exactly one of the two is populated
with the value scanned for the column and the other is unchanged: the inner
field when `a < b`, the top-level field when `b < a`. -/
theorem nested_or_top_level_first_declared (conv : Conv) (rows : Rows)
    (fields : List (StructField GoType)) (vs : List GoValue) (dest1 : Any)
    (a b j n : Nat) (sub top inn : StructField GoType) (c : String)
    (hshape : WellShaped fields (.struct vs))
    (hok : GetRowData conv rows (some ⟨.ptr (.struct fields), .ptr (some (.struct vs))⟩)
      = .ok (none, dest1))
    (ha : fields.get? a = some sub)
    (hsub : sub.Typ.Kind = Kind.Struct ∧ sub.Tag = none)
    (hb : fields.get? b = some top)
    (htop : ¬ (top.Typ.Kind = Kind.Struct ∧ top.Tag = none))
    (hj : (nestedFields sub.Typ).get? j = some inn)
    (hmi : isMatch c inn = true)
    (hfirstj : ∀ j1 sf1, j1 < j → (nestedFields sub.Typ).get? j1 = some sf1 →
      isMatch c sf1 = false)
    (hmt : isMatch c top = true)
    (hbefore : ∀ k sf, k < a → k < b → fields.get? k = some sf →
      fieldHasMatch c sf = false)
    (hn : rows.columns.get? n = some c)
    (hother : ∀ k ck, k ≠ n → rows.columns.get? k = some ck →
      (firstMatch ck fields).map Prod.fst ≠ some ⟨(a : Int), (j : Int)⟩ ∧
      (firstMatch ck fields).map Prod.fst ≠ some ⟨(b : Int), -1⟩) :
    ∃ vs1 row sv,
      dest1 = some ⟨.ptr (.struct fields), .ptr (some (.struct vs1))⟩ ∧
      rows.lastcols = some row ∧ row.get? n = some sv ∧
      (a < b → ∃ v, matchFields c fields 0 = some (⟨(a : Int), (j : Int)⟩, inn.Typ) ∧
        conv inn.Typ sv = .ok v ∧
        fieldAt (.struct vs1) ⟨(a : Int), (j : Int)⟩ = some v ∧
        fieldAt (.struct vs1) ⟨(b : Int), -1⟩ = fieldAt (.struct vs) ⟨(b : Int), -1⟩) ∧
      (b < a → ∃ v, matchFields c fields 0 = some (⟨(b : Int), -1⟩, top.Typ) ∧
        conv top.Typ sv = .ok v ∧
        fieldAt (.struct vs1) ⟨(b : Int), -1⟩ = some v ∧
        fieldAt (.struct vs1) ⟨(a : Int), (j : Int)⟩
          = fieldAt (.struct vs) ⟨(a : Int), (j : Int)⟩) := by
  obtain ⟨scanned, d1, hscan, hcopy, hd1⟩ := GetRowData_ok_inv conv rows fields _ dest1 hok
  obtain ⟨_, row, hrow, _, _⟩ := Scan_ok conv rows _ scanned hscan
  obtain ⟨hs1, _⟩ := copyOut_fieldAt fields scanned (loopMap fields rows.columns) _ d1
    (loopMap_keys_nodup fields rows.columns) (loopMap_valid fields rows.columns) hshape hcopy
  obtain ⟨vs1, hvs1, _, _⟩ := hs1
  subst hvs1
  obtain ⟨hres1, hres2⟩ := nested_or_top_resolution c fields a b j sub top inn
    ha hsub hb htop hj hmi hfirstj hmt hbefore
  have hva : ValidLoc fields ⟨(a : Int), (j : Int)⟩ :=
    ⟨a, sub, rfl, ha, Or.inr ⟨hsub.1, hsub.2, j, inn, rfl, hj⟩⟩
  have hvb : ValidLoc fields ⟨(b : Int), -1⟩ := ⟨b, top, rfl, hb, Or.inl ⟨rfl, htop⟩⟩
  have hne : (⟨(a : Int), (j : Int)⟩ : refIndex) ≠ ⟨(b : Int), -1⟩ := by
    intro h
    have h2 : (j : Int) = -1 := congrArg refIndex.j h
    omega
  have hsv : ∃ sv, row.get? n = some sv := by
    have hsome : ∃ r, matchFields c fields 0 = some r := by
      cases hmf : matchFields c fields 0 with
      | some r => exact ⟨r, rfl⟩
      | none =>
        have := matchFields_none c fields 0 hmf top (List.get?_mem hb)
        simp only [fieldHasMatch, htop, if_false] at this
        rw [hmt] at this; cases this
    obtain ⟨⟨idx, t⟩, hr⟩ := hsome
    obtain ⟨_, sv, h1, _, _⟩ :=
      scanned_value conv rows fields scanned row hrow hscan n c idx t hn hr
    exact ⟨sv, h1⟩
  obtain ⟨sv, hsv⟩ := hsv
  refine ⟨vs1, row, sv, hd1, hrow, hsv, ?_, ?_⟩
  · intro hab
    obtain ⟨sv1, v, h1, h2, h3, h4⟩ := one_column_two_fields conv rows fields _ _ scanned row
      hshape hrow hscan hcopy n c _ _ _ hn (hres1 hab) hvb hne
      (fun k ck hk hck => by
        have := hother k ck hk hck
        rw [resolve_fst]; exact this)
    rw [hsv] at h1
    cases h1
    exact ⟨v, hres1 hab, h2, h3, h4⟩
  · intro hba
    obtain ⟨sv1, v, h1, h2, h3, h4⟩ := one_column_two_fields conv rows fields _ _ scanned row
      hshape hrow hscan hcopy n c _ _ _ hn (hres2 hba) hva (Ne.symm hne)
      (fun k ck hk hck => by
        have := hother k ck hk hck
        rw [resolve_fst]; exact ⟨this.2, this.1⟩)
    rw [hsv] at h1
    cases h1
    exact ⟨v, hres2 hba, h2, h3, h4⟩

/-- C16 at two concrete inputs, a record declaring the nested record `In`
(with the inner field `X`) before the top-level field `X`, and a record
declaring them in the other order, each with one row holding 7 in the column
`X`: the first ends as `In.X = 7, X = 0`, the second as `X = 7, In.X = 0`. -/
theorem nested_or_top_level_first_declared_witness :
    (∃ vs1 row sv,
      (some ⟨.ptr (.struct [fld "In" (.struct [fld "X" .int none]) none, fld "X" .int none]),
          .ptr (some (.struct [.struct [.int 7], .int 0]))⟩ : Any)
        = some ⟨.ptr (.struct [fld "In" (.struct [fld "X" .int none]) none, fld "X" .int none]),
            .ptr (some (.struct vs1))⟩ ∧
      (rowsOn ["X"] [.int64 7]).lastcols = some row ∧ row.get? 0 = some sv ∧
      (0 < 1 → ∃ v,
        matchFields "X" [fld "In" (.struct [fld "X" .int none]) none, fld "X" .int none] 0
          = some (⟨((0 : Nat) : Int), ((0 : Nat) : Int)⟩, (fld "X" .int none).Typ) ∧
        exampleConv (fld "X" .int none).Typ sv = .ok v ∧
        fieldAt (.struct vs1) ⟨((0 : Nat) : Int), ((0 : Nat) : Int)⟩ = some v ∧
        fieldAt (.struct vs1) ⟨((1 : Nat) : Int), -1⟩
          = fieldAt (.struct [.struct [.int 0], .int 0]) ⟨((1 : Nat) : Int), -1⟩) ∧
      (1 < 0 → ∃ v,
        matchFields "X" [fld "In" (.struct [fld "X" .int none]) none, fld "X" .int none] 0
          = some (⟨((1 : Nat) : Int), -1⟩, (fld "X" .int none).Typ) ∧
        exampleConv (fld "X" .int none).Typ sv = .ok v ∧
        fieldAt (.struct vs1) ⟨((1 : Nat) : Int), -1⟩ = some v ∧
        fieldAt (.struct vs1) ⟨((0 : Nat) : Int), ((0 : Nat) : Int)⟩
          = fieldAt (.struct [.struct [.int 0], .int 0])
              ⟨((0 : Nat) : Int), ((0 : Nat) : Int)⟩)) ∧
    (∃ vs1 row sv,
      (some ⟨.ptr (.struct [fld "X" .int none, fld "In" (.struct [fld "X" .int none]) none]),
          .ptr (some (.struct [.int 7, .struct [.int 0]]))⟩ : Any)
        = some ⟨.ptr (.struct [fld "X" .int none, fld "In" (.struct [fld "X" .int none]) none]),
            .ptr (some (.struct vs1))⟩ ∧
      (rowsOn ["X"] [.int64 7]).lastcols = some row ∧ row.get? 0 = some sv ∧
      (1 < 0 → ∃ v,
        matchFields "X" [fld "X" .int none, fld "In" (.struct [fld "X" .int none]) none] 0
          = some (⟨((1 : Nat) : Int), ((0 : Nat) : Int)⟩, (fld "X" .int none).Typ) ∧
        exampleConv (fld "X" .int none).Typ sv = .ok v ∧
        fieldAt (.struct vs1) ⟨((1 : Nat) : Int), ((0 : Nat) : Int)⟩ = some v ∧
        fieldAt (.struct vs1) ⟨((0 : Nat) : Int), -1⟩
          = fieldAt (.struct [.int 0, .struct [.int 0]]) ⟨((0 : Nat) : Int), -1⟩) ∧
      (0 < 1 → ∃ v,
        matchFields "X" [fld "X" .int none, fld "In" (.struct [fld "X" .int none]) none] 0
          = some (⟨((0 : Nat) : Int), -1⟩, (fld "X" .int none).Typ) ∧
        exampleConv (fld "X" .int none).Typ sv = .ok v ∧
        fieldAt (.struct vs1) ⟨((0 : Nat) : Int), -1⟩ = some v ∧
        fieldAt (.struct vs1) ⟨((1 : Nat) : Int), ((0 : Nat) : Int)⟩
          = fieldAt (.struct [.int 0, .struct [.int 0]])
              ⟨((1 : Nat) : Int), ((0 : Nat) : Int)⟩)) :=
  ⟨nested_or_top_level_first_declared exampleConv (rowsOn ["X"] [.int64 7])
      [fld "In" (.struct [fld "X" .int none]) none, fld "X" .int none]
      [.struct [.int 0], .int 0] _ 0 1 0 0
      (fld "In" (.struct [fld "X" .int none]) none) (fld "X" .int none) (fld "X" .int none) "X"
      (by
        refine ⟨_, rfl, rfl, ?_⟩
        intro i sf hsf hk ht
        match i, hsf with
        | 0, hsf => simp [fld] at hsf; subst hsf; exact ⟨[.int 0], rfl, rfl⟩
        | 1, hsf => simp [fld] at hsf; subst hsf; simp [GoType.Kind] at hk
        | (k + 2), hsf => simp at hsf)
      (by rfl) (by rfl) ⟨by rfl, by rfl⟩ (by rfl) (by simp [fld, GoType.Kind])
      (by rfl) (by decide) (fun j1 _ h => by omega) (by decide)
      (fun k _ h => by omega) (by rfl)
      (by
        intro k ck hk hck
        have : (rowsOn ["X"] [.int64 7]).columns.get? k = none := by
          simp only [rowsOn, List.get?_eq_getElem?]
          apply List.getElem?_eq_none
          simp
          omega
        rw [this] at hck
        cases hck),
   nested_or_top_level_first_declared exampleConv (rowsOn ["X"] [.int64 7])
      [fld "X" .int none, fld "In" (.struct [fld "X" .int none]) none]
      [.int 0, .struct [.int 0]] _ 1 0 0 0
      (fld "In" (.struct [fld "X" .int none]) none) (fld "X" .int none) (fld "X" .int none) "X"
      (by
        refine ⟨_, rfl, rfl, ?_⟩
        intro i sf hsf hk ht
        match i, hsf with
        | 0, hsf => simp [fld] at hsf; subst hsf; simp [GoType.Kind] at hk
        | 1, hsf => simp [fld] at hsf; subst hsf; exact ⟨[.int 0], rfl, rfl⟩
        | (k + 2), hsf => simp at hsf)
      (by rfl) (by rfl) ⟨by rfl, by rfl⟩ (by rfl) (by simp [fld, GoType.Kind])
      (by rfl) (by decide) (fun j1 _ h => by omega) (by decide)
      (fun k _ _ h => by omega) (by rfl)
      (by
        intro k ck hk hck
        have : (rowsOn ["X"] [.int64 7]).columns.get? k = none := by
          simp only [rowsOn, List.get?_eq_getElem?]
          apply List.getElem?_eq_none
          simp
          omega
        rw [this] at hck
        cases hck)⟩

/-! ## Pool settings applied by Init -/

theorem Init_append_ok (B : Backend) (dailer : Option Nat) :
    ∀ (l1 l2 : List DbConfig) (s : mgr) (w : World),
      (∀ c ∈ l1, configError B c = none) →
      mgr.Init B dailer (l1 ++ l2) s w
        = mgr.Init B dailer l2 (mgr.Init B dailer l1 s w).2.1 (mgr.Init B dailer l1 s w).2.2 := by
  intro l1
  induction l1 with
  | nil => intro l2 s w _; rfl
  | cons c rest ih =>
    intro l2 s w h
    have hc := h c (List.mem_cons_self _ _)
    rw [List.cons_append, Init_cons_ok B dailer c _ s w hc, Init_cons_ok B dailer c _ s w hc]
    exact ih l2 _ _ (fun x hx => h x (List.mem_cons_of_mem _ hx))

theorem Init_prefix_handles (B : Backend) (dailer : Option Nat) (pre post : List DbConfig)
    (s : mgr) (w : World) (hpre : ∀ c ∈ pre, configError B c = none)
    (i : Nat) (cfg : DbConfig) (hi : pre.get? i = some cfg) :
    (mgr.Init B dailer (pre ++ post) s w).2.2.handles.get? (w.handles.length + i)
      = some (initHandle cfg) := by
  rw [Init_append_ok B dailer pre post s w hpre]
  apply Init_keeps_handles
  obtain ⟨s1, w1, h1, h2, _⟩ := Init_all_ok B dailer pre s w hpre
  rw [h1]
  simp only
  rw [h2]
  exact handles_get?_new w.handles pre i cfg hi

theorem initCalls_lifetime (cfg : DbConfig) (d : Int) :
    DBCall.SetConnMaxLifetime d ∈ initCalls cfg ↔ d = 300000000000 := by
  unfold initCalls
  split <;> simp [Minute]

theorem initCalls_idle (cfg : DbConfig) (n : Int) :
    DBCall.SetMaxIdleConns n ∈ initCalls cfg ↔ n = cfg.MaxIdleConns := by
  unfold initCalls
  split <;> simp

theorem initCalls_open (cfg : DbConfig) (n : Int) :
    DBCall.SetMaxOpenConns n ∈ initCalls cfg ↔ cfg.MaxOpenConns > 0 ∧ n = cfg.MaxOpenConns := by
  unfold initCalls
  split
  · rename_i h; simp [h]
  · rename_i h; simp [h]

theorem Init_registers_at (B : Backend) (dailer : Option Nat) (pre : List DbConfig)
    (s : mgr) (w : World) (hpre : ∀ c ∈ pre, configError B c = none)
    (i : Nat) (cfg : DbConfig) (hi : pre.get? i = some cfg) :
    Load (mgr.Init B dailer (pre.take (i + 1)) s w).2.1.clients cfg.Tag
      = some (w.handles.length + i) := by
  have hmem : ∀ c ∈ pre.take (i + 1), configError B c = none :=
    fun c hc => hpre c (List.mem_of_mem_take hc)
  obtain ⟨s1, w1, h1, _, h3⟩ := Init_all_ok B dailer (pre.take (i + 1)) s w hmem
  rw [h1]
  simp only
  rw [h3 cfg.Tag]
  have hget : (pre.take (i + 1)).get? i = some cfg := by
    rw [List.get?_eq_getElem?, List.getElem?_take_of_lt (by omega), ← List.get?_eq_getElem?]
    exact hi
  rw [lastConfig_last cfg.Tag (pre.take (i + 1)) w.handles.length i cfg hget rfl]
  intro k1 c1 hk hc1
  have hlen : (pre.take (i + 1)).length ≤ i + 1 := by
    rw [List.length_take]; omega
  have : k1 < (pre.take (i + 1)).length := by
    rw [List.get?_eq_getElem?] at hc1
    exact (List.getElem?_eq_some_iff.1 hc1).1
  omega

/-- C17. Let `pre` be configurations that all build and open, followed by
any configurations `post`. The handle that `Init` opens for the
configuration at position `i` of `pre` is stored under the tag of the
configuration when the loop handles it, and at the return of `Init` the calls
issued on it are: `SetMaxOpenConns` with the configured value exactly when
that value is positive, then `SetMaxIdleConns` with the configured value
whatever it is, then `SetConnMaxLifetime` with 5 minutes (300000000000 ns)
whatever the configuration. When `Init` succeeds and no later configuration
carries the tag, the handle is the one registered under the tag. -/
theorem Init_pool_settings (B : Backend) (dailer : Option Nat) (pre post : List DbConfig)
    (s : mgr) (w : World) (hpre : ∀ c ∈ pre, configError B c = none)
    (i : Nat) (cfg : DbConfig) (hi : pre.get? i = some cfg) :
    Load (mgr.Init B dailer (pre.take (i + 1)) s w).2.1.clients cfg.Tag
      = some (w.handles.length + i) ∧
    ((mgr.Init B dailer (pre ++ post) s w).1 = none →
      (∀ j cj, i < j → (pre ++ post).get? j = some cj → cj.Tag ≠ cfg.Tag) →
      (mgr.Init B dailer (pre ++ post) s w).2.1.GetDB cfg.Tag = some (w.handles.length + i)) ∧
    ∃ h, (mgr.Init B dailer (pre ++ post) s w).2.2.handles.get? (w.handles.length + i) = some h ∧
      h.closed = false ∧
      h.calls =
        (if cfg.MaxOpenConns > 0 then [DBCall.SetMaxOpenConns cfg.MaxOpenConns] else []) ++
          [DBCall.SetMaxIdleConns cfg.MaxIdleConns, DBCall.SetConnMaxLifetime 300000000000] ∧
      (∀ d, DBCall.SetConnMaxLifetime d ∈ h.calls ↔ d = 300000000000) ∧
      (∀ n, DBCall.SetMaxIdleConns n ∈ h.calls ↔ n = cfg.MaxIdleConns) ∧
      (∀ n, DBCall.SetMaxOpenConns n ∈ h.calls ↔
        cfg.MaxOpenConns > 0 ∧ n = cfg.MaxOpenConns) := by
  refine ⟨Init_registers_at B dailer pre s w hpre i cfg hi, ?_, initHandle cfg,
    Init_prefix_handles B dailer pre post s w hpre i cfg hi, rfl, ?_,
    initCalls_lifetime cfg, initCalls_idle cfg, initCalls_open cfg⟩
  · intro hok hlast
    have hall := Init_ok_configs B dailer (pre ++ post) s w hok
    obtain ⟨s1, w1, h1, _, h3⟩ := Init_all_ok B dailer (pre ++ post) s w hall
    rw [GetDB_eq_Load, h1]
    simp only
    rw [h3 cfg.Tag]
    have hget : (pre ++ post).get? i = some cfg := by
      have hlt : i < pre.length := by
        rw [List.get?_eq_getElem?] at hi
        exact (List.getElem?_eq_some_iff.1 hi).1
      rw [List.get?_eq_getElem?, List.getElem?_append_left hlt, ← List.get?_eq_getElem?]
      exact hi
    rw [lastConfig_last cfg.Tag (pre ++ post) w.handles.length i cfg hget rfl hlast]
  · show initCalls cfg = _
    unfold initCalls
    simp [Minute]

/-- C17 at a concrete input: a configuration with max-open 0 and max-idle 0,
then the configuration `t2` (max-open 10, max-idle 5), then one that fails to
open. The handle of the first carries `SetMaxIdleConns 0` and the 5-minute
lifetime and no `SetMaxOpenConns`. -/
theorem Init_pool_settings_witness :
    ∃ h, (mgr.Init exampleBackend none
        ([{ exampleConfig "mysql" "t1" with MaxOpenConns := 0, MaxIdleConns := 0 },
          exampleConfig "mysql" "t2"] ++ [exampleConfig "postgres" "t3"])
        NewSqlDBMgr.1 exampleWorld).2.2.handles.get? (exampleWorld.handles.length + 0) = some h ∧
      h.closed = false ∧
      h.calls = [DBCall.SetMaxIdleConns 0, DBCall.SetConnMaxLifetime 300000000000] ∧
      (∀ d, DBCall.SetConnMaxLifetime d ∈ h.calls ↔ d = 300000000000) ∧
      (∀ n, DBCall.SetMaxIdleConns n ∈ h.calls ↔ n = 0) ∧
      (∀ n, DBCall.SetMaxOpenConns n ∈ h.calls ↔ (0 : Int) > 0 ∧ n = 0) :=
  (Init_pool_settings exampleBackend none
    [{ exampleConfig "mysql" "t1" with MaxOpenConns := 0, MaxIdleConns := 0 },
      exampleConfig "mysql" "t2"] [exampleConfig "postgres" "t3"]
    NewSqlDBMgr.1 exampleWorld (by decide) 0
    { exampleConfig "mysql" "t1" with MaxOpenConns := 0, MaxIdleConns := 0 } (by rfl)).2.2

/-! ## Release of the cursor -/

/-- C18. When the query of `GetDataFromDb` returns a cursor, then whatever
the destination and however the part after the query ends (end of the rows,
no row, an error of `GetRowData` in the record or in the slice branch, the
type error, or a panic), the cursor left behind is the one that part ended
with, closed by the deferred `rows.Close()`. When the query returns an error
there is no cursor, and that error is returned with the destination as it
was. -/
theorem GetDataFromDb_closes_cursor (B : Backend) (w w1 : World) (db : Nat) (dest : Any)
    (sqlCmd : String) (args : List DriverValue) (q : Except Err Rows)
    (hq : dbQuery B w db sqlCmd args = (.ok q, w1)) :
    (∀ rows, q = .ok rows →
      ∃ c, (GetDataFromDb B w db dest sqlCmd args).cursor = some c ∧ c.closed = true ∧
        c = (fetchRows B.conv rows dest).2.Close ∧
        (GetDataFromDb B w db dest sqlCmd args).result = (fetchRows B.conv rows dest).1) ∧
    (∀ err, q = .error err →
      (GetDataFromDb B w db dest sqlCmd args).cursor = none ∧
      (GetDataFromDb B w db dest sqlCmd args).result = .ok (some err, dest)) := by
  constructor
  · intro rows hrows
    subst hrows
    refine ⟨(fetchRows B.conv rows dest).2.Close, ?_, rfl, rfl, ?_⟩ <;>
      simp only [GetDataFromDb, hq]
  · intro err herr
    subst herr
    simp only [GetDataFromDb, hq, and_self]

/-- C18 at concrete inputs. The theorem is applied to the example query into
a slice of records (end of the rows). The other exits are evaluated: no row,
an error of `GetRowData` in the record branch and in the slice branch (the
field `Id` is a string, the column holds an integer; the second row is left
unread), and the type error all leave the cursor closed; a failing query
leaves no cursor. -/
theorem GetDataFromDb_closes_cursor_witness :
    (∃ c, (GetDataFromDb exampleBackend exampleWorld 0
          (some ⟨.ptr (.slice exampleRecord), .ptr (some (.list []))⟩)
          "SELECT id, Name FROM t" []).cursor = some c ∧ c.closed = true ∧
        c = (fetchRows exampleBackend.conv (exampleCursor exampleRows)
          (some ⟨.ptr (.slice exampleRecord), .ptr (some (.list []))⟩)).2.Close ∧
        (GetDataFromDb exampleBackend exampleWorld 0
          (some ⟨.ptr (.slice exampleRecord), .ptr (some (.list []))⟩)
          "SELECT id, Name FROM t" []).result
          = (fetchRows exampleBackend.conv (exampleCursor exampleRows)
              (some ⟨.ptr (.slice exampleRecord), .ptr (some (.list []))⟩)).1) ∧
    (GetDataFromDb exampleBackend exampleWorld 0
        (some ⟨.ptr exampleRecord, .ptr (some (.struct [.int 9, .str "z"]))⟩)
        "SELECT id, Name FROM empty" []).cursor.map (fun c => (c.closed, c.pending))
      = some (true, []) ∧
    (GetDataFromDb exampleBackend exampleWorld 0
        (some ⟨.ptr (.struct [fld "Id" .string (some "id")]), .ptr (some (.struct [.str ""]))⟩)
        "SELECT id, Name FROM t" []).result
      = .ok (some (.scanError 0 "id" (.msg "unsupported Scan")),
          some ⟨.ptr (.struct [fld "Id" .string (some "id")]),
            .ptr (some (.struct [.str ""]))⟩) ∧
    (GetDataFromDb exampleBackend exampleWorld 0
        (some ⟨.ptr (.struct [fld "Id" .string (some "id")]), .ptr (some (.struct [.str ""]))⟩)
        "SELECT id, Name FROM t" []).cursor.map (fun c => (c.closed, c.pending))
      = some (true, [[.int64 2, .string "b"]]) ∧
    (GetDataFromDb exampleBackend exampleWorld 0
        (some ⟨.ptr (.slice (.struct [fld "Id" .string (some "id")])), .ptr (some (.list []))⟩)
        "SELECT id, Name FROM t" []).cursor.map (fun c => (c.closed, c.pending))
      = some (true, [[.int64 2, .string "b"]]) ∧
    (GetDataFromDb exampleBackend exampleWorld 0 (some ⟨.ptr .int, .ptr (some (.int 5))⟩)
        "SELECT id, Name FROM t" []).cursor.map (fun c => (c.closed, c.pending))
      = some (true, exampleRows) ∧
    (GetDataFromDb exampleBackend exampleWorld 0 (some ⟨.ptr .int, .ptr (some (.int 5))⟩)
        "SELECT id FROM missing" []).cursor.map (fun c => (c.closed, c.pending)) = none :=
  ⟨(GetDataFromDb_closes_cursor exampleBackend exampleWorld
      (exampleWorld.call 0 (.Query "SELECT id, Name FROM t" [])) 0
      (some ⟨.ptr (.slice exampleRecord), .ptr (some (.list []))⟩)
      "SELECT id, Name FROM t" [] (.ok (exampleCursor exampleRows)) (by rfl)).1
      (exampleCursor exampleRows) rfl,
   by rfl, by rfl, by rfl, by rfl, by rfl, by rfl⟩

/-! ## Scan failure leaves the destination alone -/

/-- C19. For every pointer-to-record destination (nil pointer included) and
every cursor: if `rows.Scan` on the holders of the columns returns an error,
`GetRowData` returns that very error and the destination is as before the
call, whichever columns the scan had converted before it failed; and whenever
`GetRowData` returns with a changed destination, the scan had succeeded and
the returned error is nil. -/
theorem GetRowData_scan_failure_atomic (conv : Conv) (rows : Rows)
    (fields : List (StructField GoType)) (target : Option GoValue) :
    (∀ err, rows.Scan conv (rows.columns.map (holderFor fields)) = .error err →
      GetRowData conv rows (some ⟨.ptr (.struct fields), .ptr target⟩)
        = .ok (some err, some ⟨.ptr (.struct fields), .ptr target⟩)) ∧
    (∀ e dest1, GetRowData conv rows (some ⟨.ptr (.struct fields), .ptr target⟩) = .ok (e, dest1) →
      dest1 ≠ some ⟨.ptr (.struct fields), .ptr target⟩ →
      e = none ∧ ∃ scanned, rows.Scan conv (rows.columns.map (holderFor fields)) = .ok scanned) := by
  constructor
  · intro err hscan
    rw [GetRowData_struct]
    cases hcl : rows.closed with
    | true =>
      simp only [Rows.Scan, hcl, if_true, Except.error.injEq] at hscan
      simp [hscan]
    | false => simp [hscan]
  · intro e dest1 hres hne
    rw [GetRowData_struct] at hres
    cases hcl : rows.closed with
    | true =>
      simp only [hcl, if_true, Result.ok.injEq, Prod.mk.injEq] at hres
      exact absurd hres.2.symm hne
    | false =>
      simp only [hcl, Bool.false_eq_true, if_false] at hres
      cases hs : rows.Scan conv (rows.columns.map (holderFor fields)) with
      | error err =>
        simp only [hs, Result.ok.injEq, Prod.mk.injEq] at hres
        exact absurd hres.2.symm hne
      | ok scanned =>
        simp only [hs] at hres
        cases hm : loopMap fields rows.columns with
        | nil =>
          simp only [hm, Result.ok.injEq, Prod.mk.injEq] at hres
          exact absurd hres.2.symm hne
        | cons x rest =>
          simp only [hm] at hres
          cases target with
          | none => simp at hres
          | some d0 =>
            simp only at hres
            cases hc : copyOut fields scanned (x :: rest) d0 with
            | panic t => simp [hc] at hres
            | ok d =>
              simp only [hc, Result.ok.injEq, Prod.mk.injEq] at hres
              exact ⟨hres.1.symm, scanned, rfl⟩

/-- C19 at a concrete input: the record `Id`, `Name` holding 9 and "z", and a
row whose first column converts (1) and whose second does not (an integer for
the string field): the error of the scan is returned and `Id` is still 9. -/
theorem GetRowData_scan_failure_atomic_witness :
    (rowsOn ["id", "Name"] [.int64 1, .int64 5]).Scan exampleConv
        ((rowsOn ["id", "Name"] [.int64 1, .int64 5]).columns.map
          (holderFor [fld "Id" .int (some "id"), fld "Name" .string none]))
      = .error (.scanError 1 "Name" (.msg "unsupported Scan")) ∧
    GetRowData exampleConv (rowsOn ["id", "Name"] [.int64 1, .int64 5])
        (some ⟨.ptr (.struct [fld "Id" .int (some "id"), fld "Name" .string none]),
          .ptr (some (.struct [.int 9, .str "z"]))⟩)
      = .ok (some (.scanError 1 "Name" (.msg "unsupported Scan")),
          some ⟨.ptr (.struct [fld "Id" .int (some "id"), fld "Name" .string none]),
            .ptr (some (.struct [.int 9, .str "z"]))⟩) :=
  ⟨by rfl,
   (GetRowData_scan_failure_atomic exampleConv (rowsOn ["id", "Name"] [.int64 1, .int64 5])
      [fld "Id" .int (some "id"), fld "Name" .string none]
      (some (.struct [.int 9, .str "z"]))).1 _ (by rfl)⟩

/-! ## The terminal error of the cursor -/

theorem GetRowData_terminal_error (conv : Conv) (rows : Rows) (e e2 : Option Err) (dest : Any)
    (h : rows.closed = false) :
    GetRowData conv { rows with driverErr := e, lasterr := e2 } dest
      = GetRowData conv rows dest := by
  unfold GetRowData Rows.Columns Rows.Scan
  simp only [h, Bool.false_eq_true, if_false]

theorem Next_terminal_error (rows : Rows) (e e2 : Option Err) :
    (Rows.Next { rows with driverErr := e, lasterr := e2 }).1 = rows.Next.1 ∧
    (rows.Next.1 = true →
      rows.Next.2.closed = false ∧
      (Rows.Next { rows with driverErr := e, lasterr := e2 }).2
        = { rows.Next.2 with driverErr := e, lasterr := e2 }) := by
  unfold Rows.Next
  cases hc : rows.closed with
  | true => simp
  | false =>
    cases hp : rows.pending with
    | nil => simp
    | cons r rest => simp [hc]

theorem sliceLoop_terminal_error (conv : Conv) (elemType : GoType) (e e2 : Option Err) :
    ∀ (fuel : Nat) (rows : Rows) (destValue : Option GoValue),
      (sliceLoop conv elemType fuel { rows with driverErr := e, lasterr := e2 } destValue).1
        = (sliceLoop conv elemType fuel rows destValue).1 := by
  intro fuel
  induction fuel with
  | zero => intro rows destValue; rfl
  | succ n ih =>
    intro rows destValue
    obtain ⟨h1, h2⟩ := Next_terminal_error rows e e2
    unfold sliceLoop
    cases hn : rows.Next with
    | mk b rows1 =>
      rw [hn] at h1 h2
      simp only at h1 h2
      cases hn2 : Rows.Next { rows with driverErr := e, lasterr := e2 } with
      | mk b2 rows2 =>
        rw [hn2] at h1 h2
        simp only at h1 h2
        subst h1
        cases b2 with
        | false => rfl
        | true =>
          obtain ⟨hcl, hr⟩ := h2 rfl
          subst hr
          simp only [GetRowData_terminal_error conv rows1 e e2 _ hcl]
          cases hg : GetRowData conv rows1 (New elemType) with
          | panic t => rfl
          | ok r =>
            obtain ⟨err, rowData⟩ := r
            cases err with
            | some er => rfl
            | none =>
              simp only
              split
              · exact ih _ _
              · rfl

theorem fetchRows_terminal_error (conv : Conv) (rows : Rows) (e e2 : Option Err) (dest : Any) :
    (fetchRows conv { rows with driverErr := e, lasterr := e2 } dest).1
      = (fetchRows conv rows dest).1 := by
  unfold fetchRows
  cases hd : destElemType dest with
  | panic t => rfl
  | ok desType =>
    simp only
    split
    · split
      · rename_i _ elemType _ t target
        have hs := sliceLoop_terminal_error conv elemType e e2 (rows.pending.length + 1) rows target
        cases h1 : sliceLoop conv elemType (rows.pending.length + 1) rows target with
        | mk r rows1 =>
          cases h2 : sliceLoop conv elemType (rows.pending.length + 1)
              { rows with driverErr := e, lasterr := e2 } target with
          | mk r2 rows2 =>
            rw [h1, h2] at hs
            simp only at hs
            subst hs
            cases r2 with
            | panic s => rfl
            | ok a => rfl
      · rfl
    · obtain ⟨h1, h2⟩ := Next_terminal_error rows e e2
      cases hn : rows.Next with
      | mk b rows1 =>
        rw [hn] at h1 h2
        simp only at h1 h2
        cases hn2 : Rows.Next { rows with driverErr := e, lasterr := e2 } with
        | mk b2 rows2 =>
          rw [hn2] at h1 h2
          simp only at h1 h2
          subst h1
          cases b2 with
          | false => rfl
          | true =>
            obtain ⟨hcl, hr⟩ := h2 rfl
            subst hr
            simp only [GetRowData_terminal_error conv rows1 e e2 _ hcl]
    · rfl

theorem fetchRows_no_row (conv : Conv) (rows : Rows) (t : GoType) (target : Option GoValue)
    (hshape : t.Kind = Kind.Slice ∨ t.Kind = Kind.Struct) (hnext : rows.Next.1 = false) :
    (fetchRows conv rows (some ⟨.ptr t, .ptr target⟩)).1
      = .ok (none, some ⟨.ptr t, .ptr target⟩) := by
  cases hn : rows.Next with
  | mk b rows1 =>
    rw [hn] at hnext
    simp only at hnext
    subst hnext
    cases t <;> simp [GoType.Kind] at hshape
    · simp [fetchRows, destElemType, TypeOf, GoType.Elem, sliceLoop, hn]
    · simp [fetchRows, destElemType, TypeOf, GoType.Elem, hn]

/-- C20. When the query of `GetDataFromDb` returns a cursor, the result of
the call is the same for every terminal error state of that cursor: replacing
the iteration error the driver will report (`driverErr`) and the error the
cursor holds (`lasterr`, the value of `rows.Err()`) by any others changes
neither the returned error nor the destination; and for a pointer to a slice
or to a record, when `rows.Next()` reports at once that no row is available
the call returns nil with the destination as it was. -/
theorem GetDataFromDb_ignores_terminal_error (B : Backend) (w w1 : World) (db : Nat)
    (dest : Any) (sqlCmd : String) (args : List DriverValue) (rows : Rows)
    (hq : dbQuery B w db sqlCmd args = (.ok (.ok rows), w1)) :
    (∀ e e2 : Option Err, (GetDataFromDb B w db dest sqlCmd args).result
      = (fetchRows B.conv { rows with driverErr := e, lasterr := e2 } dest).1) ∧
    (∀ t target, dest = some ⟨.ptr t, .ptr target⟩ →
      t.Kind = Kind.Slice ∨ t.Kind = Kind.Struct → rows.Next.1 = false →
      (GetDataFromDb B w db dest sqlCmd args).result = .ok (none, dest)) := by
  have hres : (GetDataFromDb B w db dest sqlCmd args).result = (fetchRows B.conv rows dest).1 := by
    simp only [GetDataFromDb, hq]
  constructor
  · intro e e2
    rw [hres]
    exact (fetchRows_terminal_error B.conv rows e e2 dest).symm
  · intro t target hd hshape hnext
    subst hd
    rw [hres]
    exact fetchRows_no_row B.conv rows t target hshape hnext

/-- C20 at a concrete input: the example query into an empty slice of
records. A cursor with the same two rows that then stops on the driver error
"driver: bad connection" gives the same result, nil with both rows decoded,
although it ends holding that error. -/
theorem GetDataFromDb_ignores_terminal_error_witness :
    (GetDataFromDb exampleBackend exampleWorld 0
        (some ⟨.ptr (.slice exampleRecord), .ptr (some (.list []))⟩)
        "SELECT id, Name FROM t" []).result
      = (fetchRows exampleBackend.conv
          { exampleCursor exampleRows with
            driverErr := some (.msg "driver: bad connection"), lasterr := none }
          (some ⟨.ptr (.slice exampleRecord), .ptr (some (.list []))⟩)).1 ∧
    (fetchRows exampleBackend.conv
        { exampleCursor exampleRows with
          driverErr := some (.msg "driver: bad connection"), lasterr := none }
        (some ⟨.ptr (.slice exampleRecord), .ptr (some (.list []))⟩)).1
      = .ok (none, some ⟨.ptr (.slice exampleRecord), .ptr (some (.list exampleDecoded))⟩) ∧
    (fetchRows exampleBackend.conv
        { exampleCursor exampleRows with
          driverErr := some (.msg "driver: bad connection"), lasterr := none }
        (some ⟨.ptr (.slice exampleRecord), .ptr (some (.list []))⟩)).2.lasterr
      = some (.msg "driver: bad connection") :=
  ⟨(GetDataFromDb_ignores_terminal_error exampleBackend exampleWorld
      (exampleWorld.call 0 (.Query "SELECT id, Name FROM t" [])) 0
      (some ⟨.ptr (.slice exampleRecord), .ptr (some (.list []))⟩)
      "SELECT id, Name FROM t" [] (exampleCursor exampleRows) (by rfl)).1
      (some (.msg "driver: bad connection")) none,
   by rfl, by rfl⟩

/-! ## Column resolution, in full -/

theorem lastColumn_none_inv (fs : List (StructField GoType)) (idx : refIndex) :
    ∀ (cols : List String) (s : Nat), lastColumn fs idx cols s = none →
      ∀ c ∈ cols, (matchFields c fs 0).map Prod.fst ≠ some idx := by
  intro cols
  induction cols with
  | nil => intro s _ c hc; cases hc
  | cons c0 rest ih =>
    intro s h c hc
    simp only [lastColumn] at h
    cases hr : lastColumn fs idx rest (s + 1) with
    | some p => simp [hr] at h
    | none =>
      simp only [hr] at h
      rcases List.mem_cons.1 hc with h1 | h1
      · subst h1
        intro hm
        simp [hm] at h
      · exact ih (s + 1) hr c h1

theorem lastColumn_some (fs : List (StructField GoType)) (idx : refIndex) :
    ∀ (cols : List String) (s p : Nat), lastColumn fs idx cols s = some p →
      ∃ k c, p = s + k ∧ cols.get? k = some c ∧
        (matchFields c fs 0).map Prod.fst = some idx ∧
        ∀ k1 c1, k < k1 → cols.get? k1 = some c1 →
          (matchFields c1 fs 0).map Prod.fst ≠ some idx := by
  intro cols
  induction cols with
  | nil => intro s p h; simp [lastColumn] at h
  | cons c0 rest ih =>
    intro s p h
    simp only [lastColumn] at h
    cases hr : lastColumn fs idx rest (s + 1) with
    | some p1 =>
      simp only [hr, Option.some.injEq] at h
      subst h
      obtain ⟨k, c, hp, hc, hm, hlast⟩ := ih (s + 1) p1 hr
      refine ⟨k + 1, c, by omega, by simpa using hc, hm, ?_⟩
      intro k1 c1 hk hc1
      cases k1 with
      | zero => omega
      | succ k0 =>
        simp only [List.get?_cons_succ] at hc1
        exact hlast k0 c1 (by omega) hc1
    | none =>
      simp only [hr] at h
      by_cases hm : (matchFields c0 fs 0).map Prod.fst = some idx
      · simp only [hm, if_true, Option.some.injEq] at h
        refine ⟨0, c0, by omega, by simp, hm, ?_⟩
        intro k1 c1 hk hc1
        cases k1 with
        | zero => omega
        | succ k0 =>
          simp only [List.get?_cons_succ] at hc1
          exact lastColumn_none_inv fs idx rest (s + 1) hr c1 (List.get?_mem hc1)
      · simp [hm] at h

theorem lookup_eq_some_iff_mem (m : List (refIndex × Nat)) (idx : refIndex) (n : Nat)
    (hnd : (m.map Prod.fst).Nodup) :
    m.lookup idx = some n ↔ (idx, n) ∈ m := by
  induction m with
  | nil => simp [List.lookup]
  | cons e rest ih =>
    obtain ⟨k, v⟩ := e
    simp only [List.map_cons, List.nodup_cons] at hnd
    by_cases hk : idx = k
    · subst hk
      have hb : (idx == idx) = true := by simp
      simp only [List.lookup, hb, Option.some.injEq, List.mem_cons, Prod.mk.injEq, true_and]
      constructor
      · intro h; exact Or.inl h.symm
      · rintro (h | h)
        · exact h.symm
        · exact absurd (List.mem_map.2 ⟨(idx, n), h, rfl⟩) hnd.1
    · have hb : (idx == k) = false := by simpa using hk
      simp only [List.lookup, hb, List.mem_cons, Prod.mk.injEq, hk, false_and, false_or]
      exact ih hnd.2

/-- C1. Column resolution in `GetRowData` is first-match-wins. For every
record type (field list) and every column name, the field at which the loops
of `GetRowData` stop is the first field of the scan order that matches the
column: the scan order lists the top-level fields in declaration order, with
a nested-record field that declares no hint replaced in place by its inner
fields and a nested-record field that declares a hint kept as one field; a
field matches when the column name is the first comma-separated segment of
its hint text (empty when it declares none) or its declared name. For every
column list, the loop gives each column the holder of that first matching
field and no holder when no field matches, and `colDestMap` has one entry per
field, namely exactly the pairs of a field and the last column whose first
matching field it is: a column is recorded for its first matching field and
for no other field, and for no field when none matches. -/
theorem column_resolution_first_match (fields : List (StructField GoType))
    (columns : List String) :
    (∀ colName, matchFields colName fields 0 =
        (firstMatch colName fields).map (fun e => (e.1, e.2.Typ))) ∧
    ∃ colDestMap,
      mapColumns (.struct fields) columns 0 [] (List.replicate columns.length none)
        = .ok (colDestMap, columns.map (fun c =>
            match firstMatch c fields with
            | some e => New e.2.Typ
            | none => none)) ∧
      (colDestMap.map Prod.fst).Nodup ∧
      (∀ idx n, (idx, n) ∈ colDestMap →
        ∃ c, columns.get? n = some c ∧ (firstMatch c fields).map Prod.fst = some idx) ∧
      (∀ idx n, (idx, n) ∈ colDestMap ↔
        ∃ c, columns.get? n = some c ∧ (firstMatch c fields).map Prod.fst = some idx ∧
          ∀ k ck, n < k → columns.get? k = some ck →
            (firstMatch ck fields).map Prod.fst ≠ some idx) ∧
      (∀ n c e, columns.get? n = some c → firstMatch c fields = some e →
        ∃ n1, n ≤ n1 ∧ (e.1, n1) ∈ colDestMap) := by
  have hres : ∀ colName, matchFields colName fields 0 =
      (firstMatch colName fields).map (fun e => (e.1, e.2.Typ)) :=
    fun colName => matchFields_eq colName fields 0
  refine ⟨hres, ?_⟩
  obtain ⟨m1, h1, h2, h3⟩ := mapColumns_init fields columns
  have hnd : (m1.map Prod.fst).Nodup :=
    mapColumns_keys_nodup fields columns 0 [] m1 _ _ (by simp) h1
  have hiff : ∀ idx n, (idx, n) ∈ m1 ↔
      ∃ c, columns.get? n = some c ∧ (firstMatch c fields).map Prod.fst = some idx ∧
        ∀ k ck, n < k → columns.get? k = some ck →
          (firstMatch ck fields).map Prod.fst ≠ some idx := by
    intro idx n
    rw [← lookup_eq_some_iff_mem m1 idx n hnd, h2 idx]
    constructor
    · intro h
      obtain ⟨k, c, hp, hc, hm, hlast⟩ := lastColumn_some fields idx columns 0 n h
      have hk : k = n := by omega
      subst hk
      refine ⟨c, hc, by rw [← resolve_fst]; exact hm, ?_⟩
      intro k1 ck hlt hck
      rw [← resolve_fst]
      exact hlast k1 ck hlt hck
    · rintro ⟨c, hc, hm, hlast⟩
      have := lastColumn_last fields idx columns 0 n c hc (by rw [resolve_fst]; exact hm)
        (fun k1 c1 hlt hc1 => by rw [resolve_fst]; exact hlast k1 c1 hlt hc1)
      simpa using this
  refine ⟨m1, ?_, hnd, ?_, hiff, ?_⟩
  · rw [h1]
    congr 2
    apply List.map_congr_left
    intro c _
    simp only [holderFor, hres c]
    cases firstMatch c fields <;> rfl
  · intro idx n hmem
    obtain ⟨c, hc, hm, _⟩ := (hiff idx n).1 hmem
    exact ⟨c, hc, hm⟩
  · intro n c e hc he
    have hm : (matchFields c fields 0).map Prod.fst = some e.1 := by
      rw [resolve_fst, he]; rfl
    cases hl : lastColumn fields e.1 columns 0 with
    | none =>
      exact absurd hm (lastColumn_none_inv fields e.1 columns 0 hl c (List.get?_mem hc))
    | some p =>
      obtain ⟨k, c1, hp, hc1, hm1, hlast⟩ := lastColumn_some fields e.1 columns 0 p hl
      refine ⟨p, ?_, ?_⟩
      · by_contra hlt
        exact hlast n c (by omega) hc hm
      · rw [← lookup_eq_some_iff_mem m1 e.1 p hnd, h2 e.1]
        exact hl

/-- C1 at a concrete input: the record `Id` with the hint `id,omitempty`, a
nested record `In` without a hint holding `id` and `City` (hint `city,x`),
and `Name` with the hint `name`. The column `id` goes to `Id` (first segment
of its hint, and declared before the inner `id`); the whole hint text
`id,omitempty` and its second segment match nothing; `city` goes to the
inner field; `Name` and `name` go to `Name` and `NAME` to no field. -/
theorem column_resolution_first_match_witness :
    matchFields "id"
        [fld "Id" .int (some "id,omitempty"),
         fld "In" (.struct [fld "id" .int none, fld "City" .string (some "city,x")]) none,
         fld "Name" .string (some "name")] 0 = some (⟨0, -1⟩, .int) ∧
    matchFields "id,omitempty"
        [fld "Id" .int (some "id,omitempty"),
         fld "In" (.struct [fld "id" .int none, fld "City" .string (some "city,x")]) none,
         fld "Name" .string (some "name")] 0 = none ∧
    matchFields "omitempty"
        [fld "Id" .int (some "id,omitempty"),
         fld "In" (.struct [fld "id" .int none, fld "City" .string (some "city,x")]) none,
         fld "Name" .string (some "name")] 0 = none ∧
    matchFields "city"
        [fld "Id" .int (some "id,omitempty"),
         fld "In" (.struct [fld "id" .int none, fld "City" .string (some "city,x")]) none,
         fld "Name" .string (some "name")] 0 = some (⟨1, 1⟩, .string) ∧
    matchFields "NAME"
        [fld "Id" .int (some "id,omitempty"),
         fld "In" (.struct [fld "id" .int none, fld "City" .string (some "city,x")]) none,
         fld "Name" .string (some "name")] 0 = none ∧
    mapColumns
        (.struct [fld "Id" .int (some "id,omitempty"),
          fld "In" (.struct [fld "id" .int none, fld "City" .string (some "city,x")]) none,
          fld "Name" .string (some "name")])
        ["id", "id,omitempty", "omitempty", "city", "Name", "name", "NAME"] 0 []
        (List.replicate 7 none)
      = .ok ([(⟨2, -1⟩, 5), (⟨1, 1⟩, 3), (⟨0, -1⟩, 0)],
          [New .int, none, none, New .string, New .string, New .string, none]) :=
  ⟨((column_resolution_first_match
      [fld "Id" .int (some "id,omitempty"),
       fld "In" (.struct [fld "id" .int none, fld "City" .string (some "city,x")]) none,
       fld "Name" .string (some "name")] []).1 "id").trans (by rfl),
   ((column_resolution_first_match
      [fld "Id" .int (some "id,omitempty"),
       fld "In" (.struct [fld "id" .int none, fld "City" .string (some "city,x")]) none,
       fld "Name" .string (some "name")] []).1 "id,omitempty").trans (by rfl),
   ((column_resolution_first_match
      [fld "Id" .int (some "id,omitempty"),
       fld "In" (.struct [fld "id" .int none, fld "City" .string (some "city,x")]) none,
       fld "Name" .string (some "name")] []).1 "omitempty").trans (by rfl),
   ((column_resolution_first_match
      [fld "Id" .int (some "id,omitempty"),
       fld "In" (.struct [fld "id" .int none, fld "City" .string (some "city,x")]) none,
       fld "Name" .string (some "name")] []).1 "city").trans (by rfl),
   ((column_resolution_first_match
      [fld "Id" .int (some "id,omitempty"),
       fld "In" (.struct [fld "id" .int none, fld "City" .string (some "city,x")]) none,
       fld "Name" .string (some "name")] []).1 "NAME").trans (by rfl),
   by rfl⟩

end Sqldb
